import Mathlib

/-! wsock-trace, the address enrichment engine.

A shallow embedding of the geo database reader (`src/ip2loc.c`) and of the
CIDR range matcher (`src/dnsbl.c`), with the properties proved about them.

Conventions of the embedding.

* Machine integers are natural numbers; an operation that can wrap carries an
  explicit `% 2 ^ 32` or `% 2 ^ 64`.
* A C function that changes `*loc` returns the new value of `*loc` next to
  its result.
* `sh_mem` holds the bytes of the file (`st_size` of them; the mapping itself
  is created one byte longer). An access at an index that is not below the
  length of the file reads no byte of the file; it is the outcome
  `Fault.out_of_extent`.
* A `float` is its IEEE-754 single precision bit pattern (a 32-bit number);
  `0.0` is the pattern `0`.
-/

namespace WsockTrace

/-! ## Outcomes -/

/-- The ways a modelled call ends without a value. -/
inductive Fault where
  /-- A byte outside the bytes of the mapped file was accessed. -/
  | out_of_extent
  /-- A static table was indexed outside its entries. -/
  | out_of_table
  /-- A null pointer was dereferenced. -/
  | null_deref
  /-- The loop did not finish within the given number of iterations. -/
  | out_of_fuel
  /-- A fixed-size buffer was written beyond its end. -/
  | buffer_overflow
  /-- A converted number does not fit its C type. -/
  | int_overflow
  deriving DecidableEq, Repr

/-! ## Data model of `ip2loc.c` -/

/-- The `struct IP2Location` of `ip2loc.c`. `sh_mem` holds the bytes of the
file as they stand in the mapping: `sh_mem_ptr[k]` is `sh_mem[k]`. `file_open`
says that `file` is not NULL, `st_size` is `stat_buf.st_size`. -/
structure IP2Location where
  file_open : Bool
  sh_mem : List Nat
  sh_mem_ptr : Nat
  sh_mem_max : Nat
  sh_mem_index_errors : Nat
  sh_mem_already : Bool
  st_size : Nat
  db_type : Nat
  db_column : Nat
  db_day : Nat
  db_month : Nat
  db_year : Nat
  ip_version : Nat
  ipv4_db_count : Nat
  ipv4_db_addr : Nat
  ipv6_db_count : Nat
  ipv6_db_addr : Nat
  ipv4_index_db_addr : Nat
  ipv6_index_db_addr : Nat
  deriving DecidableEq, Repr

/-- The `struct ip2loc_entry` filled by a lookup. Each text field is its
character buffer, as long as the array in the struct; the two positions are
float bit patterns. -/
structure ip2loc_entry where
  country_short : List Nat
  country_long : List Nat
  city : List Nat
  region : List Nat
  latitude : Nat
  longitude : Nat
  deriving DecidableEq, Repr

/-- The state `IP2Location_DB_set_shared_memory` leaves behind: a non-null
view whose end is `sh_mem_ptr + st_size`, in an address space where a 32-bit
offset from the view does not wrap a 64-bit pointer. -/
def Mapped (loc : IP2Location) : Prop :=
  0 < loc.sh_mem_ptr ∧
  loc.sh_mem_max = loc.sh_mem_ptr + loc.sh_mem.length ∧
  loc.sh_mem_max + 2 ^ 32 ≤ 2 ^ 64

instance (loc : IP2Location) : Decidable (Mapped loc) := by
  unfold Mapped; infer_instance

/-! ## Reading values off an image -/

/-- The byte of an image at a 0-based offset (0 beyond the image). -/
def byte_at (mem : List Nat) (off : Nat) : Nat :=
  mem.getD off 0 % 256

/-- The 32-bit little-endian number stored at a 0-based offset of an image. -/
def le32_at (mem : List Nat) (off : Nat) : Nat :=
  byte_at mem off + 256 * byte_at mem (off + 1) + 65536 * byte_at mem (off + 2)
    + 16777216 * byte_at mem (off + 3)

/-- A 30-byte image with a sample header: type 1, 2 columns, year 20,
month 1, day 1, three IPv4 rows at position 31. -/
def sample_header : List Nat :=
  [1, 2, 20, 1, 1, 3, 0, 0, 0, 31, 0, 0, 0, 0, 0, 0, 0, 0, 0, 0, 0, 0, 0, 0, 0,
   0, 0, 0, 0, 7]

/-- A freshly mapped `struct IP2Location` (after `calloc` and the mapping)
over an image. -/
def fresh_loc (mem : List Nat) : IP2Location :=
  { file_open := true, sh_mem := mem, sh_mem_ptr := 4096,
    sh_mem_max := 4096 + mem.length, sh_mem_index_errors := 0,
    sh_mem_already := false, st_size := mem.length, db_type := 0, db_column := 0, db_day := 0,
    db_month := 0, db_year := 0, ip_version := 0, ipv4_db_count := 0,
    ipv4_db_addr := 0, ipv6_db_count := 0, ipv6_db_addr := 0,
    ipv4_index_db_addr := 0, ipv6_index_db_addr := 0 }

/-! ## Bounds-checked byte reader -/

/-- The byte `loc->sh_mem_ptr[index]`. -/
def peek (loc : IP2Location) (index : Nat) : Except Fault Nat :=
  match loc.sh_mem.get? index with
  | some b => .ok (b % 256)
  | none => .error Fault.out_of_extent

/-- The statement `loc->sh_mem_index_errors++` on a `uint64`. -/
def count_index_error (loc : IP2Location) : IP2Location :=
  { loc with sh_mem_index_errors := (loc.sh_mem_index_errors + 1) % 2 ^ 64 }

/-- The bytes a `memcpy` of `n` bytes reads from `&loc->sh_mem_ptr[index]`. -/
def peek_many (loc : IP2Location) (index : Nat) : Nat → Except Fault (List Nat)
  | 0 => .ok []
  | n + 1 => do
    let b ← peek loc index
    let rest ← peek_many loc (index + 1) n
    pure (b :: rest)

/-- The function `IP2Location_read32` (ip2loc.c 723-737). Once the check has
passed it reads `sh_mem_ptr` at `position-1`, `position`, `position+1` and
`position+2`, each index computed in `uint32_t`. -/
def IP2Location_read32 (loc : IP2Location) (position : Nat) :
    Except Fault (Nat × IP2Location) :=
  if (loc.sh_mem_ptr + position) % 2 ^ 64 ≥ loc.sh_mem_max then
    .ok (0, count_index_error loc)
  else do
    let byte1 ← peek loc ((position + 2 ^ 32 - 1) % 2 ^ 32)
    let byte2 ← peek loc position
    let byte3 ← peek loc ((position + 1) % 2 ^ 32)
    let byte4 ← peek loc ((position + 2) % 2 ^ 32)
    pure (((byte4 <<< 24) ||| (byte3 <<< 16) ||| (byte2 <<< 8) ||| byte1) % 2 ^ 32, loc)

/-- The function `IP2Location_read8` (ip2loc.c 742-750). -/
def IP2Location_read8 (loc : IP2Location) (position : Nat) :
    Except Fault (Nat × IP2Location) :=
  if (loc.sh_mem_ptr + position + 2 ^ 64 - 1) % 2 ^ 64 ≤ loc.sh_mem_max then do
    let ret ← peek loc ((position + 2 ^ 32 - 1) % 2 ^ 32)
    pure (ret, loc)
  else
    .ok (0, count_index_error loc)

/-- The function `IP2Location_read_float` (ip2loc.c 755-766); the four bytes
copied from `&sh_mem_ptr[position-1]` are the bit pattern, low byte first. -/
def IP2Location_read_float (loc : IP2Location) (position : Nat) :
    Except Fault (Nat × IP2Location) :=
  if (loc.sh_mem_ptr + position) % 2 ^ 64 ≥ loc.sh_mem_max then
    .ok (0, count_index_error loc)
  else do
    let bytes ← peek_many loc ((position + 2 ^ 32 - 1) % 2 ^ 32) 4
    match bytes with
    | [b0, b1, b2, b3] => pure (b0 + 256 * b1 + 65536 * b2 + 16777216 * b3, loc)
    | _ => .error Fault.out_of_extent

/-- The function `IP2Location_read_str` (ip2loc.c 446-459): `ret` is the
buffer written to, the result is that buffer after the call. -/
def IP2Location_read_str (loc : IP2Location) (position : Nat) (ret : List Nat)
    (max_sz : Nat) : Except Fault (List Nat × IP2Location) :=
  if (loc.sh_mem_ptr + position) % 2 ^ 64 ≥ loc.sh_mem_max then
    .ok (ret.set 0 0, count_index_error loc)
  else do
    let size ← peek loc position
    let size := min size (max_sz % 256)
    let copied ← peek_many loc ((position + 1) % 2 ^ 32) size
    pure (copied ++ ret.drop size, loc)

/-- The C string held by a character buffer: the bytes before the first NUL. -/
def c_str (buf : List Nat) : List Nat :=
  buf.takeWhile (fun b => b != 0)

/-- The function `IP2Location_initialize` (ip2loc.c 402-418). -/
def IP2Location_initialize (loc : IP2Location) : Except Fault IP2Location := do
  let (v, loc) ← IP2Location_read8 loc 1
  let loc := { loc with db_type := v }
  let (v, loc) ← IP2Location_read8 loc 2
  let loc := { loc with db_column := v }
  let (v, loc) ← IP2Location_read8 loc 3
  let loc := { loc with db_year := v }
  let (v, loc) ← IP2Location_read8 loc 4
  let loc := { loc with db_month := v }
  let (v, loc) ← IP2Location_read8 loc 5
  let loc := { loc with db_day := v }
  let (v, loc) ← IP2Location_read32 loc 6
  let loc := { loc with ipv4_db_count := v }
  let (v, loc) ← IP2Location_read32 loc 10
  let loc := { loc with ipv4_db_addr := v }
  let (v, loc) ← IP2Location_read32 loc 14
  let loc := { loc with ipv6_db_count := v }
  let (v, loc) ← IP2Location_read32 loc 14
  let loc := { loc with ip_version := v }
  let (v, loc) ← IP2Location_read32 loc 18
  let loc := { loc with ipv6_db_addr := v }
  let (v, loc) ← IP2Location_read32 loc 22
  let loc := { loc with ipv4_index_db_addr := v }
  let (v, loc) ← IP2Location_read32 loc 26
  let loc := { loc with ipv6_index_db_addr := v }
  pure loc

/-! ## Record extraction and lookup -/

def FLG_COUNTRY_SHORT : Nat := 0x00001
def FLG_COUNTRY_LONG : Nat := 0x00002
def FLG_REGION : Nat := 0x00004
def FLG_CITY : Nat := 0x00008
def FLG_LATITUDE : Nat := 0x00020
def FLG_LONGITUDE : Nat := 0x00040

/-- The macro `IP2LOC_FLAGS`, the initial value of `lookup_flags`. -/
def IP2LOC_FLAGS : Nat := FLG_COUNTRY_SHORT ||| FLG_REGION ||| FLG_CITY

def MAX_IPV4_RANGE : Nat := 4294967295

def COUNTRY_POSITION : List Nat :=
  [0, 2, 2, 2, 2, 2, 2, 2, 2, 2, 2, 2, 2, 2, 2, 2, 2, 2, 2, 2, 2, 2, 2, 2, 2]
def REGION_POSITION : List Nat :=
  [0, 0, 0, 3, 3, 3, 3, 3, 3, 3, 3, 3, 3, 3, 3, 3, 3, 3, 3, 3, 3, 3, 3, 3, 3]
def CITY_POSITION : List Nat :=
  [0, 0, 0, 4, 4, 4, 4, 4, 4, 4, 4, 4, 4, 4, 4, 4, 4, 4, 4, 4, 4, 4, 4, 4, 4]
def LATITUDE_POSITION : List Nat :=
  [0, 0, 0, 0, 0, 5, 5, 0, 5, 5, 5, 5, 5, 5, 5, 5, 5, 5, 5, 5, 5, 5, 5, 5, 5]
def LONGITUDE_POSITION : List Nat :=
  [0, 0, 0, 0, 0, 6, 6, 0, 6, 6, 6, 6, 6, 6, 6, 6, 6, 6, 6, 6, 6, 6, 6, 6, 6]

/-- The entry `table[dbtype]` of one of the 25-entry position tables. -/
def table_at (table : List Nat) (dbtype : Nat) : Except Fault Nat :=
  match table.get? dbtype with
  | some v => .ok v
  | none => .error Fault.out_of_table

/-- The two statements every text field of `IP2Location_read_record` runs:
`val = IP2Location_read32 (loc, rowaddr + 4 * (pos-1))` and then
`IP2Location_read_str (loc, val + delta, buf, sizeof(buf))`. -/
def read_record_str (loc : IP2Location) (rowaddr pos delta : Nat) (buf : List Nat) :
    Except Fault (List Nat × IP2Location) := do
  let (val, loc) ← IP2Location_read32 loc ((rowaddr + 4 * (pos - 1)) % 2 ^ 32)
  IP2Location_read_str loc ((val + delta) % 2 ^ 32) buf buf.length

/-- The function `IP2Location_read_record` (ip2loc.c 472-506). -/
def IP2Location_read_record (loc : IP2Location) (rowaddr mode : Nat)
    (out : ip2loc_entry) : Except Fault (ip2loc_entry × IP2Location) := do
  let dbtype := loc.db_type
  let (out, loc) ←
    if mode &&& FLG_COUNTRY_SHORT ≠ 0 then do
      let pos ← table_at COUNTRY_POSITION dbtype
      if pos ≠ 0 then do
        let (s, loc) ← read_record_str loc rowaddr pos 0 out.country_short
        pure ({ out with country_short := s }, loc)
      else pure (out, loc)
    else pure (out, loc)
  let (out, loc) ←
    if mode &&& FLG_COUNTRY_LONG ≠ 0 then do
      let pos ← table_at COUNTRY_POSITION dbtype
      if pos ≠ 0 then do
        let (s, loc) ← read_record_str loc rowaddr pos 3 out.country_long
        pure ({ out with country_long := s }, loc)
      else pure (out, loc)
    else pure (out, loc)
  let (out, loc) ←
    if mode &&& FLG_REGION ≠ 0 then do
      let pos ← table_at REGION_POSITION dbtype
      if pos ≠ 0 then do
        let (s, loc) ← read_record_str loc rowaddr pos 0 out.region
        pure ({ out with region := s }, loc)
      else pure (out, loc)
    else pure (out, loc)
  let (out, loc) ←
    if mode &&& FLG_CITY ≠ 0 then do
      let pos ← table_at CITY_POSITION dbtype
      if pos ≠ 0 then do
        let (s, loc) ← read_record_str loc rowaddr pos 0 out.city
        pure ({ out with city := s }, loc)
      else pure (out, loc)
    else pure (out, loc)
  let (out, loc) ←
    if mode &&& FLG_LATITUDE ≠ 0 then do
      let pos ← table_at LATITUDE_POSITION dbtype
      if pos ≠ 0 then do
        let (v, loc) ← IP2Location_read_float loc ((rowaddr + 4 * (pos - 1)) % 2 ^ 32)
        pure ({ out with latitude := v }, loc)
      else pure (out, loc)
    else pure (out, loc)
  if mode &&& FLG_LONGITUDE ≠ 0 then do
    let pos ← table_at LONGITUDE_POSITION dbtype
    if pos ≠ 0 then do
      let (v, loc) ← IP2Location_read_float loc ((rowaddr + 4 * (pos - 1)) % 2 ^ 32)
      pure ({ out with longitude := v }, loc)
    else pure (out, loc)
  else pure (out, loc)

/-- The `struct ipv_t`; an `in6_addr` is its 16 bytes `u.Byte[0..15]`. -/
structure ipv_t where
  ip_ver : Nat
  ipv4 : Nat
  ipv6 : List Nat
  deriving DecidableEq, Repr

/-- The result of a record lookup: the returned `BOOL`, `*out` and `*loc`
after the call. -/
abbrev Lookup := Except Fault (Bool × ip2loc_entry × IP2Location)

/-- The `while (low <= high)` loop of `IP2Location_get_ipv4_record`
(ip2loc.c 538-557), run for at most `fuel` iterations. The trace counter
`num_4_loops` is left out. -/
def IP2Location_get_ipv4_loop (baseaddr dbcolumn ipno mode : Nat) (out : ip2loc_entry) :
    Nat → IP2Location → Nat → Nat → Lookup
  | 0, _, _, _ => .error Fault.out_of_fuel
  | fuel + 1, loc, low, high =>
    if low ≤ high then do
      let column := (dbcolumn * 4) % 2 ^ 32
      let mid := ((low + high) % 2 ^ 32) >>> 1
      let (ipfrom, loc) ← IP2Location_read32 loc ((baseaddr + mid * column) % 2 ^ 32)
      let (ipto, loc) ← IP2Location_read32 loc ((baseaddr + (mid + 1) * column) % 2 ^ 32)
      if ipno ≥ ipfrom ∧ ipno < ipto then do
        let (out, loc) ←
          IP2Location_read_record loc ((baseaddr + mid * column) % 2 ^ 32) mode out
        pure (true, out, loc)
      else if ipno < ipfrom then
        IP2Location_get_ipv4_loop baseaddr dbcolumn ipno mode out fuel loc low
          ((mid + 2 ^ 32 - 1) % 2 ^ 32)
      else
        IP2Location_get_ipv4_loop baseaddr dbcolumn ipno mode out fuel loc
          ((mid + 1) % 2 ^ 32) high
    else pure (false, out, loc)

/-- The function `IP2Location_get_ipv4_record` (ip2loc.c 511-559). -/
def IP2Location_get_ipv4_record (fuel : Nat) (loc : IP2Location) (mode : Nat)
    (parsed_ipv : ipv_t) (out : ip2loc_entry) : Lookup := do
  let baseaddr := loc.ipv4_db_addr
  let dbcolumn := loc.db_column
  let ipv4index := loc.ipv4_index_db_addr
  let ipno := parsed_ipv.ipv4
  let ipno := if ipno = MAX_IPV4_RANGE then ipno - 1 else ipno
  let (low, high, loc) ←
    if ipv4index > 0 then do
      let ipnum1n2 := ipno >>> 16
      let indexpos := (ipv4index + (ipnum1n2 <<< 3)) % 2 ^ 32
      let (low, loc) ← IP2Location_read32 loc indexpos
      let (high, loc) ← IP2Location_read32 loc ((indexpos + 4) % 2 ^ 32)
      pure (low, high, loc)
    else pure (0, loc.ipv4_db_count, loc)
  IP2Location_get_ipv4_loop baseaddr dbcolumn ipno mode out fuel loc low high

/-- The loop of `ipv6_compare` (ip2loc.c 427-439) from index `i`, with `n`
bytes left to compare. -/
def ipv6_compare_from (addr1 addr2 : List Nat) : Nat → Nat → Int
  | 0, _ => 0
  | n + 1, i =>
    if addr1.getD i 0 > addr2.getD i 0 then 1
    else if addr1.getD i 0 < addr2.getD i 0 then -1
    else ipv6_compare_from addr1 addr2 n (i + 1)

/-- The function `ipv6_compare` (ip2loc.c 423-441). -/
def ipv6_compare (addr1 addr2 : List Nat) : Int :=
  ipv6_compare_from addr1 addr2 16 0

/-- The loop of `IP2Location_read_ipv6_addr`: with `n` bytes left, `j = n - 1`
and the next byte filled is `Byte[16 - n]`. -/
def IP2Location_read_ipv6_addr_from (position : Nat) :
    Nat → IP2Location → Except Fault (List Nat × IP2Location)
  | 0, loc => .ok ([], loc)
  | n + 1, loc => do
    let (b, loc) ← IP2Location_read8 loc ((position + n) % 2 ^ 32)
    let (rest, loc) ← IP2Location_read_ipv6_addr_from position n loc
    pure (b :: rest, loc)

/-- The function `IP2Location_read_ipv6_addr` (ip2loc.c 712-718). -/
def IP2Location_read_ipv6_addr (loc : IP2Location) (position : Nat) :
    Except Fault (List Nat × IP2Location) :=
  IP2Location_read_ipv6_addr_from position 16 loc

/-- The `while (low <= high)` loop of `IP2Location_get_ipv6_record`
(ip2loc.c 591-610), run for at most `fuel` iterations. The trace counter
`num_6_loops` is left out. -/
def IP2Location_get_ipv6_loop (baseaddr dbcolumn : Nat) (ipno : List Nat) (mode : Nat)
    (out : ip2loc_entry) : Nat → IP2Location → Nat → Nat → Lookup
  | 0, _, _, _ => .error Fault.out_of_fuel
  | fuel + 1, loc, low, high =>
    if low ≤ high then do
      let column := (dbcolumn * 4 + 12) % 2 ^ 32
      let mid := ((low + high) % 2 ^ 32) >>> 1
      let (ipfrom, loc) ← IP2Location_read_ipv6_addr loc ((baseaddr + mid * column) % 2 ^ 32)
      let (ipto, loc) ←
        IP2Location_read_ipv6_addr loc ((baseaddr + (mid + 1) * column) % 2 ^ 32)
      if ipv6_compare ipno ipfrom ≥ 0 ∧ ipv6_compare ipno ipto < 0 then do
        let (out, loc) ←
          IP2Location_read_record loc ((baseaddr + mid * column + 12) % 2 ^ 32) mode out
        pure (true, out, loc)
      else if ipv6_compare ipno ipfrom < 0 then
        IP2Location_get_ipv6_loop baseaddr dbcolumn ipno mode out fuel loc low
          ((mid + 2 ^ 32 - 1) % 2 ^ 32)
      else
        IP2Location_get_ipv6_loop baseaddr dbcolumn ipno mode out fuel loc
          ((mid + 1) % 2 ^ 32) high
    else pure (false, out, loc)

/-- The function `IP2Location_get_ipv6_record` (ip2loc.c 564-612). -/
def IP2Location_get_ipv6_record (fuel : Nat) (loc : IP2Location) (mode : Nat)
    (parsed_ipv : ipv_t) (out : ip2loc_entry) : Lookup := do
  let baseaddr := loc.ipv6_db_addr
  let dbcolumn := loc.db_column
  let ipv6index := loc.ipv6_index_db_addr
  let high := loc.ipv6_db_count
  let ipno := parsed_ipv.ipv6
  if high = 0 then pure (false, out, loc)
  else do
    let (low, high, loc) ←
      if ipv6index > 0 then do
        let ipnum1 := ipno.getD 0 0 * 256 + ipno.getD 1 0
        let indexpos := (ipv6index + (ipnum1 <<< 3)) % 2 ^ 32
        let (low, loc) ← IP2Location_read32 loc indexpos
        let (high, loc) ← IP2Location_read32 loc ((indexpos + 4) % 2 ^ 32)
        pure (low, high, loc)
      else pure (0, high, loc)
    IP2Location_get_ipv6_loop baseaddr dbcolumn ipno mode out fuel loc low high

/-! ## Opening the database: the file-scope state of `ip2loc.c` -/

/-- The file-scope variables of `ip2loc.c`. `fopen_calls` is not a variable of
the program: it counts the calls of `fopen_excl` made so far. -/
structure Globals where
  ip2loc_handle : Option IP2Location
  ip2loc_bad : Bool
  lookup_flags : Nat
  fopen_calls : Nat
  deriving DecidableEq, Repr

/-- The fields of `g_cfg.GEOIP` read by `ip2loc_init`; `ip2location_bin_file`
says that the file name is not NULL. -/
structure Config where
  enable : Bool
  ip2location_bin_file : Bool
  show_position : Bool
  show_map_url : Bool
  deriving DecidableEq, Repr

/-- What the operating system answers during one `open_file`. -/
structure World where
  /-- `calloc` returned memory. -/
  calloc_ok : Bool
  /-- The bytes of the file `fopen_excl` opened, `none` when it returned NULL. -/
  file : Option (List Nat)
  /-- `fstat` succeeded. -/
  fstat_ok : Bool
  /-- `CreateFileMapping` returned a handle. -/
  mapping_ok : Bool
  /-- `GetLastError() == ERROR_ALREADY_EXISTS` after `CreateFileMapping`. -/
  mapping_exists : Bool
  /-- The bytes found in a mapping that existed already. -/
  mapping_bytes : List Nat
  /-- The pointer `MapViewOfFile` returned (0 is NULL). -/
  view : Nat
  /-- `fseek` and `fread` of `IP2Location_DB_Load_to_mem` succeeded. -/
  load_ok : Bool
  /-- The year `GetLocalTime` reports. -/
  wYear : Nat
  deriving DecidableEq, Repr

/-- The `struct IP2Location` that `calloc (1, sizeof(*loc))` returns. -/
def calloc_loc : IP2Location :=
  { file_open := false, sh_mem := [], sh_mem_ptr := 0, sh_mem_max := 0,
    sh_mem_index_errors := 0, sh_mem_already := false, st_size := 0, db_type := 0,
    db_column := 0, db_day := 0, db_month := 0, db_year := 0, ip_version := 0,
    ipv4_db_count := 0, ipv4_db_addr := 0, ipv6_db_count := 0, ipv6_db_addr := 0,
    ipv4_index_db_addr := 0, ipv6_index_db_addr := 0 }

/-- The function `IP2Location_DB_set_shared_memory` (ip2loc.c 654-710) with
`IP2Location_DB_Load_to_mem`; `bytes` is the content of `loc->file`. The
result is the returned `int32_t` and `*loc` after the call. -/
def IP2Location_DB_set_shared_memory (w : World) (bytes : List Nat) (loc : IP2Location) :
    Int × IP2Location :=
  if !w.fstat_ok then (-1, loc)
  else
    let loc := { loc with st_size := bytes.length }
    if loc.st_size = 0 then (-1, loc)
    else if !w.mapping_ok then (-1, loc)
    else
      let loc := { loc with sh_mem_already := w.mapping_exists }
      let loc := { loc with sh_mem_ptr := w.view }
      if loc.sh_mem_ptr = 0 then (-1, loc)
      else if loc.sh_mem_already then
        let loc := { loc with sh_mem := w.mapping_bytes }
        (0, { loc with sh_mem_max := (loc.sh_mem_ptr + loc.st_size) % 2 ^ 64 })
      else if !w.load_ok then (-1, loc)
      else
        let loc := { loc with sh_mem := bytes }
        (0, { loc with sh_mem_max := (loc.sh_mem_ptr + loc.st_size) % 2 ^ 64 })

/-- The function `ip2loc_exit` (ip2loc.c 328-332): `IP2Location_close` frees
the handle, then `ip2loc_handle = NULL`. -/
def ip2loc_exit (g : Globals) : Globals :=
  { g with ip2loc_handle := none }

/-- The date test of `open_file` (ip2loc.c 271-273). -/
def junk_date (loc : IP2Location) (wYear : Nat) : Bool :=
  loc.db_day == 0 || decide (loc.db_day > 31) || loc.db_month == 0 ||
    decide (loc.db_month > 12) || decide (loc.db_year + 2000 > wYear)

/-- The function `open_file` (ip2loc.c 212-304): the returned pointer (`none`
is NULL) and the file-scope state after the call. The `is_IPv4_only` and
`is_IPv6_only` flags are only traced and are left out. -/
def open_file (w : World) (g : Globals) : Except Fault (Option IP2Location × Globals) :=
  if !w.calloc_ok then pure (none, g)
  else
    let loc := calloc_loc
    let g := { g with fopen_calls := g.fopen_calls + 1 }
    match w.file with
    | none => pure (none, g)
    | some bytes =>
      let loc := { loc with file_open := true }
      let (rc, loc) := IP2Location_DB_set_shared_memory w bytes loc
      if rc = -1 then pure (none, g)
      else do
        let loc ← IP2Location_initialize loc
        let loc := if !loc.sh_mem_already then { loc with file_open := false } else loc
        if junk_date loc w.wYear then
          let g := { g with ip2loc_bad := true }
          let g := ip2loc_exit g
          pure (some loc, g)
        else
          pure (some loc, g)

/-- The function `ip2loc_init` (ip2loc.c 310-322). -/
def ip2loc_init (cfg : Config) (w : World) (g : Globals) : Except Fault (Bool × Globals) :=
  if !cfg.enable || !cfg.ip2location_bin_file || g.ip2loc_bad then pure (false, g)
  else do
    let g ←
      if g.ip2loc_handle.isNone then do
        let (h, g) ← open_file w g
        pure { g with ip2loc_handle := h }
      else pure g
    let g :=
      if cfg.show_position || cfg.show_map_url then
        { g with lookup_flags := (g.lookup_flags ||| (FLG_LATITUDE + FLG_LONGITUDE)) % 2 ^ 32 }
      else g
    pure (g.ip2loc_handle.isSome, g)

/-- The function `ip2loc_num_ipv4_entries` (ip2loc.c 337-342). -/
def ip2loc_num_ipv4_entries (g : Globals) : Nat :=
  match g.ip2loc_handle with
  | some loc => loc.ipv4_db_count
  | none => 0

/-- The function `ip2loc_num_ipv6_entries` (ip2loc.c 347-352). -/
def ip2loc_num_ipv6_entries (g : Globals) : Nat :=
  match g.ip2loc_handle with
  | some loc => loc.ipv6_db_count
  | none => 0

/-- The function `ip2loc_index_errors` (ip2loc.c 826-831), with its cast to
`DWORD`. -/
def ip2loc_index_errors (g : Globals) : Nat :=
  match g.ip2loc_handle with
  | some loc => loc.sh_mem_index_errors % 2 ^ 32
  | none => 0

/-- Modelled from the spec: `swap32` of common.h, whose body is not under
src/; it stands for `_byteswap_ulong` and turns a 32-bit number from network
to host byte order by reversing its four bytes. -/
def swap32 (val : Nat) : Nat :=
  val % 256 * 16777216 + val / 256 % 256 * 65536 + val / 65536 % 256 * 256
    + val / 16777216 % 256

/-- The statement `memset (out, '\0', sizeof(*out))`. -/
def memset_entry (out : ip2loc_entry) : ip2loc_entry :=
  { country_short := List.replicate out.country_short.length 0,
    country_long := List.replicate out.country_long.length 0,
    city := List.replicate out.city.length 0,
    region := List.replicate out.region.length 0,
    latitude := 0, longitude := 0 }

/-- The function `ip2loc_get_ipv4_entry` (ip2loc.c 773-787). `stack` is the
content of the local `parsed_ipv` before it is assigned, `addr` is
`addr->s_addr`; the result is the returned `BOOL`, `*out` and the state. -/
def ip2loc_get_ipv4_entry (fuel : Nat) (stack : ipv_t) (g : Globals) (addr : Nat)
    (out : ip2loc_entry) : Except Fault (Bool × ip2loc_entry × Globals) := do
  let parsed_ipv := { stack with ip_ver := 4, ipv4 := swap32 addr }
  let out := memset_entry out
  match g.ip2loc_handle with
  | none => .error Fault.null_deref
  | some loc =>
    let (found, out, loc) ←
      IP2Location_get_ipv4_record fuel loc g.lookup_flags parsed_ipv out
    let g := { g with ip2loc_handle := some loc }
    if !found then pure (false, out, g)
    else pure (out.country_short.getD 0 0 != 0 && out.country_short.getD 1 0 != 0, out, g)

/-- The macro `IN6_IS_ADDR_V4MAPPED` on the 16 bytes of an address: words
0 to 4 are 0 and word 5 is 0xFFFF. -/
def IN6_IS_ADDR_V4MAPPED (a : List Nat) : Bool :=
  (List.range 10).all (fun i => a.getD i 0 == 0) && a.getD 10 0 == 255 && a.getD 11 0 == 255

/-- The function `ip2loc_get_ipv6_entry` (ip2loc.c 793-816). `stack` is the
content of the local `parsed_ipv` before it is assigned, `addr` the 16 bytes
of `*addr`. -/
def ip2loc_get_ipv6_entry (fuel : Nat) (stack : ipv_t) (g : Globals) (addr : List Nat)
    (out : ip2loc_entry) : Except Fault (Bool × ip2loc_entry × Globals) := do
  let parsed_ipv :=
    if IN6_IS_ADDR_V4MAPPED addr then
      { stack with ip_ver := 4, ipv4 := le32_at addr 0 }
    else
      { stack with ip_ver := 6, ipv6 := addr }
  let out := memset_entry out
  match g.ip2loc_handle with
  | none => .error Fault.null_deref
  | some loc =>
    let (found, out, loc) ←
      IP2Location_get_ipv6_record fuel loc g.lookup_flags parsed_ipv out
    let g := { g with ip2loc_handle := some loc }
    if !found then pure (false, out, g)
    else pure (out.country_short.getD 0 0 != 0 && out.country_short.getD 1 0 != 0, out, g)

/-- One call of a function that `ip2loc.c` exports. -/
inductive Op where
  | init (cfg : Config) (w : World)
  | exit
  | num_ipv4_entries
  | num_ipv6_entries
  | index_errors
  | get_ipv4_entry (fuel : Nat) (stack : ipv_t) (addr : Nat) (out : ip2loc_entry)
  | get_ipv6_entry (fuel : Nat) (stack : ipv_t) (addr : List Nat) (out : ip2loc_entry)

/-- The file-scope state after one call. -/
def step (g : Globals) : Op → Except Fault Globals
  | .init cfg w => do
    let (_, g) ← ip2loc_init cfg w g
    pure g
  | .exit => pure (ip2loc_exit g)
  | .num_ipv4_entries => pure g
  | .num_ipv6_entries => pure g
  | .index_errors => pure g
  | .get_ipv4_entry fuel stack addr out => do
    let (_, _, g) ← ip2loc_get_ipv4_entry fuel stack g addr out
    pure g
  | .get_ipv6_entry fuel stack addr out => do
    let (_, _, g) ← ip2loc_get_ipv6_entry fuel stack g addr out
    pure g

/-- The file-scope state after a sequence of calls. -/
def run (g : Globals) : List Op → Except Fault Globals
  | [] => pure g
  | op :: ops => do
    let g ← step g op
    run g ops

/-- The file-scope state when the program starts. -/
def start_globals : Globals :=
  { ip2loc_handle := none, ip2loc_bad := false, lookup_flags := IP2LOC_FLAGS,
    fopen_calls := 0 }

/-- A world in which every call of the operating system succeeds: the file
holds `bytes`, no mapping exists yet, the view is at address 4096 and the
local year is `year`. -/
def good_world (bytes : List Nat) (year : Nat) : World :=
  { calloc_ok := true, file := some bytes, fstat_ok := true, mapping_ok := true,
    mapping_exists := false, mapping_bytes := [], view := 4096, load_ok := true,
    wYear := year }

/-- The sample header with month 13 in place of month 1. -/
def junk_header : List Nat :=
  [1, 2, 20, 13, 1, 3, 0, 0, 0, 31, 0, 0, 0, 0, 0, 0, 0, 0, 0, 0, 0, 0, 0, 0, 0,
   0, 0, 0, 0, 7]

/-- A configuration with the geo database enabled and a file name set. -/
def enabled_config : Config :=
  { enable := true, ip2location_bin_file := true, show_position := false,
    show_map_url := false }

/-- A state in which the database was found to be junk earlier on. -/
def bad_globals : Globals :=
  { start_globals with ip2loc_bad := true }

/-! ## The row tables as the format lays them out -/

/-- The start address stored in IPv4 row `j`: the 32-bit little-endian
number in the first four bytes of the row, which begins at the 1-based
position `ipv4_db_addr + j * (db_column * 4)`. -/
def ipv4_row_start (loc : IP2Location) (j : Nat) : Nat :=
  le32_at loc.sh_mem (loc.ipv4_db_addr + j * (loc.db_column * 4) - 1)

/-- The IPv4 rows lie inside the mapped region: the start fields of the rows
0 to `ipv4_db_count` (the last one closes the last range) are bytes of the
file, at positions that fit 32 bits. -/
def ipv4_rows_inside (loc : IP2Location) : Prop :=
  1 ≤ loc.ipv4_db_addr ∧
  loc.ipv4_db_addr + loc.ipv4_db_count * (loc.db_column * 4) + 3 ≤ loc.sh_mem.length ∧
  loc.ipv4_db_addr + loc.ipv4_db_count * (loc.db_column * 4) + 3 ≤ 2 ^ 32

instance (loc : IP2Location) : Decidable (ipv4_rows_inside loc) := by
  unfold ipv4_rows_inside; infer_instance

/-- The start addresses of the IPv4 rows 0 to `ipv4_db_count` are strictly
increasing. -/
def ipv4_rows_increasing (loc : IP2Location) : Prop :=
  ∀ j, j < loc.ipv4_db_count → ipv4_row_start loc j < ipv4_row_start loc (j + 1)

/-- What a lookup returns when it reports the row at `rowaddr`: TRUE and the
outcome of `IP2Location_read_record` on that row. -/
def found_at (loc : IP2Location) (rowaddr mode : Nat) (out : ip2loc_entry) : Lookup := do
  let (out, loc) ← IP2Location_read_record loc rowaddr mode out
  pure (true, out, loc)

/-- A 71-byte database image: a header (type 2, 2 columns, 2020-01-01, three
IPv4 rows at position 31, no index tables), the rows with the start addresses
0.0.0.0, 1.0.0.0, 2.0.0.0 and the closing start address 3.0.0.0, and the
country strings "--" (offset 62), "US" (offset 65) and "NO" (offset 68). -/
def sample_db : List Nat :=
  [2, 2, 20, 1, 1, 3, 0, 0, 0, 31, 0, 0, 0, 0, 0, 0, 0, 0, 0, 0, 0, 0, 0, 0, 0,
   0, 0, 0, 0, 0,
   0, 0, 0, 0, 62, 0, 0, 0,
   0, 0, 0, 1, 65, 0, 0, 0,
   0, 0, 0, 2, 68, 0, 0, 0,
   0, 0, 0, 3, 62, 0, 0, 0,
   2, 45, 45, 2, 85, 83, 2, 78, 79]

/-- The database structure `open_file` builds from `sample_db`. -/
def sample_loc : IP2Location :=
  { fresh_loc sample_db with
    file_open := false, db_type := 2, db_column := 2, db_year := 20, db_month := 1,
    db_day := 1, ipv4_db_count := 3, ipv4_db_addr := 31 }

/-- An output record with buffers of 3, 4, 4 and 4 bytes, all zero. -/
def blank_entry : ip2loc_entry :=
  { country_short := [0, 0, 0], country_long := [0, 0, 0, 0], city := [0, 0, 0, 0],
    region := [0, 0, 0, 0], latitude := 0, longitude := 0 }

/-- The unsigned 128-bit number of an `in6_addr`, byte 0 most significant:
`in6_value_from a n i` is the number held by the `n` bytes from index `i`. -/
def in6_value_from (a : List Nat) : Nat → Nat → Nat
  | 0, _ => 0
  | n + 1, i => a.getD i 0 * 256 ^ n + in6_value_from a n (i + 1)

/-- The unsigned 128-bit number of the 16 bytes of an `in6_addr`. -/
def in6_value (a : List Nat) : Nat :=
  in6_value_from a 16 0

/-- The little-endian number held by the `n` bytes at a 0-based offset of an
image: the byte at `off + k` has weight `256 ^ k`. -/
def le_value_at (mem : List Nat) (off : Nat) : Nat → Nat
  | 0 => 0
  | n + 1 => le_value_at mem off n + byte_at mem (off + n) * 256 ^ n

/-- The 1-based position of IPv6 row `j`; a row is `db_column * 4 + 12` bytes
wide. -/
def ipv6_row_pos (loc : IP2Location) (j : Nat) : Nat :=
  loc.ipv6_db_addr + j * (loc.db_column * 4 + 12)

/-- The start address stored in IPv6 row `j`: the 128-bit number in the first
16 bytes of the row, least significant byte first. -/
def ipv6_row_start (loc : IP2Location) (j : Nat) : Nat :=
  le_value_at loc.sh_mem (ipv6_row_pos loc j - 1) 16

/-- The IPv6 rows lie inside the mapped region: the start fields of the rows
0 to `ipv6_db_count` are bytes of the file, at positions that fit 32 bits. -/
def ipv6_rows_inside (loc : IP2Location) : Prop :=
  1 ≤ loc.ipv6_db_addr ∧
  ipv6_row_pos loc loc.ipv6_db_count + 15 ≤ loc.sh_mem.length ∧
  ipv6_row_pos loc loc.ipv6_db_count + 15 < 2 ^ 32

instance (loc : IP2Location) : Decidable (ipv6_rows_inside loc) := by
  unfold ipv6_rows_inside; infer_instance

/-- The start addresses of the IPv6 rows 0 to `ipv6_db_count` are strictly
increasing. -/
def ipv6_rows_increasing (loc : IP2Location) : Prop :=
  ∀ j, j < loc.ipv6_db_count → ipv6_row_start loc j < ipv6_row_start loc (j + 1)

/-- The bytes `IP2Location_read_ipv6_addr` puts into `addr->u.Byte` when it
reads `n` bytes inside the file at the 1-based position `p`. -/
def ipv6_bytes_at (mem : List Nat) (p : Nat) : Nat → List Nat
  | 0 => []
  | n + 1 => byte_at mem (p + n - 1) :: ipv6_bytes_at mem p n

/-- A 96-byte database image with two IPv6 rows at position 31 (type 2,
2 columns, rows of 20 bytes): start addresses `::`, `2000::` and the closing
start address `3000::`, and the country strings "--" (offset 90) and "US"
(offset 93). -/
def sample_db6 : List Nat :=
  [2, 2, 20, 1, 1, 0, 0, 0, 0, 0, 0, 0, 0, 2, 0, 0, 0, 31, 0, 0, 0, 0, 0, 0, 0,
   0, 0, 0, 0, 0,
   0, 0, 0, 0, 0, 0, 0, 0, 0, 0, 0, 0, 0, 0, 0, 0, 90, 0, 0, 0,
   0, 0, 0, 0, 0, 0, 0, 0, 0, 0, 0, 0, 0, 0, 0, 32, 93, 0, 0, 0,
   0, 0, 0, 0, 0, 0, 0, 0, 0, 0, 0, 0, 0, 0, 0, 48, 90, 0, 0, 0,
   2, 45, 45, 2, 85, 83]

/-- The database structure `open_file` builds from `sample_db6`. -/
def sample_loc6 : IP2Location :=
  { fresh_loc sample_db6 with
    file_open := false, db_type := 2, db_column := 2, db_year := 20, db_month := 1,
    db_day := 1, ipv6_db_count := 2, ip_version := 2, ipv6_db_addr := 31 }

/-- The address 2001:db8::1. -/
def sample_addr6 : List Nat :=
  [32, 1, 13, 184, 0, 0, 0, 0, 0, 0, 0, 0, 0, 0, 0, 1]

/-! ## Data model of `dnsbl.c` -/

/-- The address family constants of Winsock. -/
def AF_INET : Int := 2
def AF_INET6 : Int := 23

/-- The `enum DNSBL_type`. -/
inductive DNSBL_type where
  | DNSBL_DROP
  | DNSBL_DROPv6
  | DNSBL_MAX
  deriving DecidableEq, Repr

/-- The `struct DNSBL_info`. The two members of the union `u` are kept as
separate fields (only the one `family` selects is meaningful); an `in_addr`
is its `s_addr` (the address in network byte order, as the 32-bit number a
little-endian machine reads), an `in6_addr` is its 16 bytes; `SBL_ref` is
the C string held by the 10-byte array. -/
structure DNSBL_info where
  ip4_network : Nat
  ip4_mask : Nat
  ip6_network : List Nat
  ip6_mask : List Nat
  bits : Nat
  family : Int
  type : DNSBL_type
  SBL_ref : List Char
  deriving DecidableEq, Repr

/-- The three-way result of `memcmp` on two 16-byte addresses, as a sign. -/
def memcmp16 (a b : List Nat) : Int :=
  ipv6_compare a b

/-- The function `DNSBL_compare_net` (dnsbl.c 83-114). -/
def DNSBL_compare_net (a b : DNSBL_info) : Int :=
  if a.family ≠ b.family then a.family - b.family
  else if a.family = AF_INET then
    let a_net := swap32 a.ip4_network
    let b_net := swap32 b.ip4_network
    if a_net < b_net then -1
    else if a_net > b_net then 1
    else 0
  else memcmp16 a.ip6_network b.ip6_network

/-- Modelled from the spec: `INET_util_get_mask4` of inet_util.c, which is not
under src/ ("compute the subnet mask from the prefix length"): the mask with
the `bits` leading bits set, stored in network byte order. -/
def INET_util_get_mask4 (bits : Nat) : Nat :=
  swap32 (4294967296 - 2 ^ (32 - bits))

/-- Modelled from the spec: `INET_util_range4cmp` of inet_util.c, which is not
under src/ ("compare whether the query address falls within
[network & mask, network | ~mask]: below returns search left, above returns
search right, inside returns match"); the mask is that of the prefix length
and addresses compare as host-order numbers. -/
def INET_util_range4cmp (addr1 addr2 : Nat) (prefix_len : Nat) : Int :=
  let mask := swap32 (INET_util_get_mask4 prefix_len)
  let start_ip := swap32 addr2 &&& mask
  let end_ip := swap32 addr2 ||| (4294967295 ^^^ mask)
  if swap32 addr1 < start_ip then -1
  else if swap32 addr1 > end_ip then 1
  else 0

/-- The function `DNSBL_compare_is_on_net4` (dnsbl.c 121-160), without its
trace output. -/
def DNSBL_compare_is_on_net4 (ia : Nat) (dnsbl : DNSBL_info) : Int :=
  if dnsbl.family ≠ AF_INET then -1
  else INET_util_range4cmp ia dnsbl.ip4_network dnsbl.bits

/-- Modelled from the spec: `INET_util_get_mask6` of inet_util.c, which is not
under src/: the 16 mask bytes with the `bits` leading bits set. -/
def INET_util_get_mask6 (bits : Nat) : List Nat :=
  (List.range 16).map fun i =>
    if 8 * (i + 1) ≤ bits then 255
    else if bits ≤ 8 * i then 0
    else 256 - 2 ^ (8 - (bits - 8 * i))

/-- Modelled from the spec: `INET_util_range6cmp` of inet_util.c, which is not
under src/: as `INET_util_range4cmp`, on 16-byte addresses compared byte by
byte, most significant first. -/
def INET_util_range6cmp (addr1 addr2 : List Nat) (prefix_len : Nat) : Int :=
  let mask := INET_util_get_mask6 prefix_len
  let start_ip := (List.range 16).map fun i => addr2.getD i 0 &&& mask.getD i 0
  let end_ip := (List.range 16).map fun i => addr2.getD i 0 ||| (255 ^^^ mask.getD i 0)
  if ipv6_compare addr1 start_ip < 0 then -1
  else if ipv6_compare addr1 end_ip > 0 then 1
  else 0

/-- The function `DNSBL_compare_is_on_net6` (dnsbl.c 167-204), without its
trace output. -/
def DNSBL_compare_is_on_net6 (ia : List Nat) (dnsbl : DNSBL_info) : Int :=
  if dnsbl.family ≠ AF_INET6 then 1
  else INET_util_range6cmp ia dnsbl.ip6_network dnsbl.bits

/-- Modelled from the spec: the loop of `smartlist_bsearch` (smartlist.c is
not under src/), a binary search over the entries `lo ≤ index < hi`. -/
def smartlist_bsearch_loop {α κ : Type} (sl : List α) (key : κ) (compare : κ → α → Int) :
    Nat → Nat → Nat → Option α
  | 0, _, _ => none
  | fuel + 1, lo, hi =>
    if lo < hi then
      let mid := lo + (hi - lo) / 2
      match sl.get? mid with
      | none => none
      | some member =>
        let cmp := compare key member
        if cmp = 0 then some member
        else if cmp > 0 then smartlist_bsearch_loop sl key compare fuel (mid + 1) hi
        else smartlist_bsearch_loop sl key compare fuel lo mid
    else none

/-- Modelled from the spec: `smartlist_bsearch` of smartlist.c, which is not
under src/ ("`search(key, cmp)`: returns the entry for which
`cmp(key, entry) == 0`, or none", by binary search, a negative result
steering the search left and a positive one right). Every iteration shrinks
the interval, so `sl.length` iterations are enough. -/
def smartlist_bsearch {α κ : Type} (sl : List α) (key : κ) (compare : κ → α → Int) :
    Option α :=
  smartlist_bsearch_loop sl key compare sl.length 0 sl.length

/-- The address `DNSBL_check_common` is given: its callers pass exactly one
of the pointers `ip4` and `ip6`. -/
inductive DNSBL_addr where
  | ip4 (s_addr : Nat)
  | ip6 (bytes : List Nat)
  deriving DecidableEq, Repr

/-- The function `DNSBL_check_common` (dnsbl.c 219-236). `DNSBL_list` is the
file-scope list (`none` is NULL); `sbl_ref` is `none` for a NULL pointer and
otherwise holds `*sbl_ref` (`none` is a NULL string). The result is the
returned `bool` and `sbl_ref` after the call. -/
def DNSBL_check_common (DNSBL_list : Option (List DNSBL_info)) (addr : DNSBL_addr)
    (sbl_ref : Option (Option (List Char))) : Bool × Option (Option (List Char)) :=
  let sbl_ref := sbl_ref.map fun _ => none
  match DNSBL_list with
  | none => (false, sbl_ref)
  | some sl =>
    let dnsbl :=
      match addr with
      | .ip4 a => smartlist_bsearch sl a DNSBL_compare_is_on_net4
      | .ip6 a => smartlist_bsearch sl a DNSBL_compare_is_on_net6
    match dnsbl with
    | some d => (true, sbl_ref.map fun _ => some d.SBL_ref)
    | none => (false, sbl_ref)

/-- The address range of an IPv4 entry, `[network & mask, network | ~mask]`,
as host-order numbers. -/
def DNSBL_range4 (e : DNSBL_info) : Nat × Nat :=
  (swap32 e.ip4_network &&& swap32 e.ip4_mask,
   swap32 e.ip4_network ||| (4294967295 ^^^ swap32 e.ip4_mask))

/-- The IPv4 address `ia` (an `s_addr`) lies in the range of the entry. -/
def DNSBL_covers4 (e : DNSBL_info) (ia : Nat) : Prop :=
  e.family = AF_INET ∧ (DNSBL_range4 e).1 ≤ swap32 ia ∧ swap32 ia ≤ (DNSBL_range4 e).2

instance (e : DNSBL_info) (ia : Nat) : Decidable (DNSBL_covers4 e ia) := by
  unfold DNSBL_covers4; infer_instance

/-- Two entries do not both hold IPv4 ranges that share an address. -/
def DNSBL_disjoint4 (x y : DNSBL_info) : Prop :=
  x.family = AF_INET → y.family = AF_INET →
    (DNSBL_range4 x).2 < (DNSBL_range4 y).1 ∨ (DNSBL_range4 y).2 < (DNSBL_range4 x).1

/-- What the parsers establish for every entry: the family is one of the
two, and the mask of an IPv4 entry is the mask of its prefix length. -/
def DNSBL_entry_ok (e : DNSBL_info) : Prop :=
  (e.family = AF_INET ∨ e.family = AF_INET6) ∧
  (e.family = AF_INET → e.ip4_mask = INET_util_get_mask4 e.bits)

/-! ## Parsing a line of `drop.txt` -/

/-- The C library's `isspace` in the "C" locale. -/
def isspace (c : Char) : Bool :=
  c == ' ' || (decide (9 ≤ c.toNat) && decide (c.toNat ≤ 13))

/-- The C library's `isdigit`. -/
def isdigit (c : Char) : Bool :=
  decide (48 ≤ c.toNat) && decide (c.toNat ≤ 57)

/-- The number a run of decimal digits denotes. -/
def dec_value (ds : List Char) : Nat :=
  ds.foldl (fun acc c => acc * 10 + (c.toNat - 48)) 0

/-- The scan set `[0-9.]` of `DNSBL_parse_DROP`. -/
def scanset_DROP (c : Char) : Bool :=
  isdigit c || c == '.'

/-- What a call `sscanf (line, "%[set]/%d ; SBL", addr, &bits)` leaves behind:
the returned count, the text stored in `addr` and the number stored in
`bits` (0, its initial value, when nothing is stored). -/
structure Scan where
  count : Int
  addr : List Char
  bits : Int
  deriving DecidableEq, Repr

/-- What `%d` stores in an `int` for the number that was read: the C library
converts the digits as `strtol` does, to a 64-bit `long` that sticks at its
two bounds, and the store into the `int` keeps the low 32 bits of it (two's
complement). A number inside the range of `int` is stored as it is. -/
def scanned_int (value : Int) : Int :=
  let long := max (-9223372036854775808) (min value 9223372036854775807)
  (long + 2147483648) % 4294967296 - 2147483648

/-- The C library call `sscanf (line, "%[set]/%d ; SBL", addr, &bits)` with
`int bits = 0` and `char addr [capacity+1]`. `%[` stores the longest run of
characters of the set (at least one), `/` must follow, `%d` skips white space
and reads an optional sign and at least one digit, of any number, and stores
`scanned_int` of their value; what follows the last conversion has no
influence on the count. -/
def sscanf_net_bits (scanset : Char → Bool) (capacity : Nat) (line : List Char) :
    Except Fault Scan :=
  if line = [] then pure { count := -1, addr := [], bits := 0 }
  else
    let addr := line.takeWhile scanset
    if addr = [] then pure { count := 0, addr := [], bits := 0 }
    else if addr.length > capacity then .error Fault.buffer_overflow
    else
      let rest := line.dropWhile scanset
      if rest.head? ≠ some '/' then pure { count := 1, addr := addr, bits := 0 }
      else
        let rest := (rest.drop 1).dropWhile isspace
        let negative := rest.head? == some '-'
        let rest := if rest.head? = some '-' ∨ rest.head? = some '+' then rest.drop 1 else rest
        let digits := rest.takeWhile isdigit
        if digits = [] then pure { count := 1, addr := addr, bits := 0 }
        else
          let value : Int := if negative then -(dec_value digits : Int) else dec_value digits
          pure { count := 2, addr := addr, bits := scanned_int value }

/-- The pieces of a text between its dots. -/
def split_dots : List Char → List (List Char)
  | [] => [[]]
  | c :: cs =>
    if c == '.' then [] :: split_dots cs
    else
      match split_dots cs with
      | [] => [[c]]
      | p :: ps => (c :: p) :: ps

/-- One part of a dotted address: one to three digits, at most 255. -/
def parse_octet (ds : List Char) : Option Nat :=
  if ds ≠ [] ∧ ds.length ≤ 3 ∧ ds.all isdigit ∧ dec_value ds ≤ 255 then some (dec_value ds)
  else none

/-- Modelled from the spec: `INET_addr_pton2 (AF_INET, src, dst)` of
inet_addr.c, which is not under src/ (the "address-parser (text → binary v4
address)", "ASCII decimal for v4 octets"): four decimal parts separated by
dots; the result is the `s_addr` stored, `none` when the call fails and
stores nothing. -/
def INET_addr_pton2_AF_INET (src : List Char) : Option Nat :=
  match split_dots src with
  | [a, b, c, d] =>
    match parse_octet a, parse_octet b, parse_octet c, parse_octet d with
    | some a, some b, some c, some d => some (a + 256 * b + 65536 * c + 16777216 * d)
    | _, _, _, _ => none
  | _ => none

/-- The C library's `strchr (line, ch)`: the text from the first `ch` on,
`none` (NULL) when there is none. -/
def strchr (line : List Char) (ch : Char) : Option (List Char) :=
  match line.dropWhile (fun c => c != ch) with
  | [] => none
  | tail => some tail

/-- Modelled from the spec: `str_ncpy (dst, src, len)` of common.c, which is
not under src/: a `strncpy` that always ends the text, so `dst` holds the
first `len - 1` characters of `src`. -/
def str_ncpy (src : List Char) (len : Nat) : List Char :=
  src.take (len - 1)

/-- The function `DNSBL_parse_DROP` (dnsbl.c 574-599). `MAX_IP6_SZ` is the
constant of the header that is not under src/; `fresh` is what `malloc`
returned (`none` is NULL, otherwise the indeterminate content of the block);
the result is the list after the call. -/
def DNSBL_parse_DROP (MAX_IP6_SZ : Nat) (fresh : Option DNSBL_info) (sl : List DNSBL_info)
    (line : List Char) : Except Fault (List DNSBL_info) := do
  let scan ← sscanf_net_bits scanset_DROP MAX_IP6_SZ line
  if scan.count ≠ 2 then pure sl
  else if scan.bits < 8 ∨ scan.bits > 32 then pure sl
  else
    match fresh with
    | none => pure sl
    | some dnsbl =>
      let dnsbl :=
        match INET_addr_pton2_AF_INET scan.addr with
        | some a => { dnsbl with ip4_network := a }
        | none => dnsbl
      let dnsbl := { dnsbl with ip4_mask := INET_util_get_mask4 scan.bits.toNat }
      let dnsbl :=
        { dnsbl with bits := scan.bits.toNat, type := DNSBL_type.DNSBL_DROP, family := AF_INET }
      match strchr line 'L' with
      | none => .error Fault.null_deref
      | some tail =>
        let dnsbl := { dnsbl with SBL_ref := str_ncpy (tail.drop 1) 10 }
        pure (sl ++ [dnsbl])

/-- A block as `malloc` may return it. -/
def junk_info : DNSBL_info :=
  { ip4_network := 3735928559, ip4_mask := 3735928559, ip6_network := [], ip6_mask := [],
    bits := 3735928559, family := 0, type := DNSBL_type.DNSBL_MAX, SBL_ref := [] }

/-- The entry of the line `24.233.0.0/19 ; SBL210084`. -/
def sample_entry : DNSBL_info :=
  { junk_info with
    ip4_network := 59672, ip4_mask := 14745599, bits := 19, family := AF_INET,
    type := DNSBL_type.DNSBL_DROP, SBL_ref := ['2', '1', '0', '0', '8', '4'] }

/-- The line `24.233.0.0/19 ; SBL210084`. -/
def sample_line : List Char :=
  ['2', '4', '.', '2', '3', '3', '.', '0', '.', '0', '/', '1', '9', ' ', ';', ' ',
   'S', 'B', 'L', '2', '1', '0', '0', '8', '4']

/-- A 30-byte file that ends inside its first IPv4 row: the header announces
one IPv4 row at position 29. -/
def edge_db4 : List Nat :=
  [2, 2, 20, 1, 1, 1, 0, 0, 0, 29, 0, 0, 0, 0, 0, 0, 0, 0, 0, 0, 0, 0, 0, 0, 0,
   0, 0, 0, 0, 0]

/-- A 30-byte file that ends inside its first IPv6 row: the header announces
one IPv6 row at position 16, whose 16th byte is at position 31. -/
def edge_db6 : List Nat :=
  [2, 2, 20, 1, 1, 0, 0, 0, 0, 0, 0, 0, 0, 1, 0, 0, 0, 16, 0, 0, 0, 0, 0, 0, 0,
   0, 0, 0, 0, 0]

/-- The database image `sample_db` with month 13 in place of month 1: the
rows and strings are intact, the header date is implausible. -/
def junk_db : List Nat :=
  sample_db.set 3 13

/-! ## Parsing a line of `dropv6.txt` and the public checks of `dnsbl.c` -/

/-- The scan set `[a-f0-9:]` of `DNSBL_parse_DROPv6`. -/
def scanset_DROPv6 (c : Char) : Bool :=
  (decide (97 ≤ c.toNat) && decide (c.toNat ≤ 102)) || isdigit c || c == ':'

/-- The value of a hexadecimal digit. -/
def hex_value (c : Char) : Option Nat :=
  if isdigit c then some (c.toNat - 48)
  else if 97 ≤ c.toNat ∧ c.toNat ≤ 102 then some (c.toNat - 87)
  else if 65 ≤ c.toNat ∧ c.toNat ≤ 70 then some (c.toNat - 55)
  else none

/-- One group of a colon-hex address: one to four hexadecimal digits. -/
def parse_group (g : List Char) : Option Nat :=
  if g = [] ∨ g.length > 4 then none
  else g.foldlM (fun acc c => (hex_value c).map fun v => acc * 16 + v) 0

/-- The pieces of a text between its colons. -/
def split_colons : List Char → List (List Char)
  | [] => [[]]
  | c :: cs =>
    if c == ':' then [] :: split_colons cs
    else
      match split_colons cs with
      | [] => [[c]]
      | p :: ps => (c :: p) :: ps

/-- The text before and the text after the first `::` of a text. -/
def find_double_colon : List Char → Option (List Char × List Char)
  | [] => none
  | c :: rest =>
    if c == ':' ∧ rest.head? = some ':' then some ([], rest.drop 1)
    else (find_double_colon rest).map fun lr => (c :: lr.1, lr.2)

/-- The groups of a text without `::` (none for the empty text). -/
def parse_groups (s : List Char) : Option (List Nat) :=
  if s = [] then some [] else (split_colons s).mapM parse_group

/-- Modelled from the spec: `INET_addr_pton2 (AF_INET6, src, dst)` of
inet_addr.c, which is not under src/ (the "address-parser (text → binary v6
address)", "colon-hex for v6"): eight 16-bit groups, of which one run of zero
groups may be written `::`; the result is the 16 bytes stored, `none` when
the call fails and stores nothing. -/
def INET_addr_pton2_AF_INET6 (src : List Char) : Option (List Nat) :=
  let bytes := fun (gs : List Nat) => gs.flatMap fun g => [g / 256, g % 256]
  match find_double_colon src with
  | some (l, r) =>
    match parse_groups l, parse_groups r with
    | some gl, some gr =>
      if gl.length + gr.length ≤ 7 then
        some (bytes (gl ++ List.replicate (8 - (gl.length + gr.length)) 0 ++ gr))
      else none
    | _, _ => none
  | none =>
    match parse_groups src with
    | some gs => if gs.length = 8 then some (bytes gs) else none
    | none => none

/-- The function `DNSBL_parse_DROPv6` (dnsbl.c 604-629); parameters as for
`DNSBL_parse_DROP`. -/
def DNSBL_parse_DROPv6 (MAX_IP6_SZ : Nat) (fresh : Option DNSBL_info)
    (sl : List DNSBL_info) (line : List Char) : Except Fault (List DNSBL_info) := do
  let scan ← sscanf_net_bits scanset_DROPv6 MAX_IP6_SZ line
  if scan.count ≠ 2 then pure sl
  else if scan.bits < 8 then pure sl
  else
    match fresh with
    | none => pure sl
    | some dnsbl =>
      let dnsbl :=
        match INET_addr_pton2_AF_INET6 scan.addr with
        | some a => { dnsbl with ip6_network := a }
        | none => dnsbl
      let dnsbl := { dnsbl with ip6_mask := INET_util_get_mask6 scan.bits.toNat }
      let dnsbl :=
        { dnsbl with
          bits := scan.bits.toNat, type := DNSBL_type.DNSBL_DROPv6, family := AF_INET6 }
      match strchr line 'L' with
      | none => .error Fault.null_deref
      | some tail =>
        let dnsbl := { dnsbl with SBL_ref := str_ncpy (tail.drop 1) 10 }
        pure (sl ++ [dnsbl])

/-- The function `DNSBL_check_ipv4` (dnsbl.c 238-243). The address classifier
`INET_util_addr_is_global` of inet_util.c is not under src/ and is a
parameter; `sbl_ref` and the result are as for `DNSBL_check_common`. -/
def DNSBL_check_ipv4 (INET_util_addr_is_global : DNSBL_addr → Bool)
    (DNSBL_list : Option (List DNSBL_info)) (ip4 : Nat)
    (sbl_ref : Option (Option (List Char))) : Bool × Option (Option (List Char)) :=
  if !INET_util_addr_is_global (.ip4 ip4) then (false, sbl_ref)
  else DNSBL_check_common DNSBL_list (.ip4 ip4) sbl_ref

/-- The function `DNSBL_check_ipv6` (dnsbl.c 245-250); parameters as for
`DNSBL_check_ipv4`. -/
def DNSBL_check_ipv6 (INET_util_addr_is_global : DNSBL_addr → Bool)
    (DNSBL_list : Option (List DNSBL_info)) (ip6 : List Nat)
    (sbl_ref : Option (Option (List Char))) : Bool × Option (Option (List Char)) :=
  if !INET_util_addr_is_global (.ip6 ip6) then (false, sbl_ref)
  else DNSBL_check_common DNSBL_list (.ip6 ip6) sbl_ref

/-- The line `1.2.3.0/24`, with no `; SBL` part. -/
def short_line : List Char :=
  ['1', '.', '2', '.', '3', '.', '0', '/', '2', '4']

/-- The line `2a06:5280::/29`, with no `; SBL` part. -/
def short_line6 : List Char :=
  ['2', 'a', '0', '6', ':', '5', '2', '8', '0', ':', ':', '/', '2', '9']

/-- The line `999.1.2.3/24 ; SBL7`, whose network text is not an address. -/
def bad_address_line : List Char :=
  ['9', '9', '9', '.', '1', '.', '2', '.', '3', '/', '2', '4', ' ', ';', ' ', 'S', 'B',
   'L', '7']

/-- The line `1.2.3.0/24 see URL`, which has an `L` but no `; SBL` part. -/
def other_tail_line : List Char :=
  ['1', '.', '2', '.', '3', '.', '0', '/', '2', '4', ' ', 's', 'e', 'e', ' ', 'U', 'R', 'L']

/-- The line `2a06:5280::/29 ; SBL334219` of dropv6.txt. -/
def sample_line6 : List Char :=
  ['2', 'a', '0', '6', ':', '5', '2', '8', '0', ':', ':', '/', '2', '9', ' ', ';', ' ',
   'S', 'B', 'L', '3', '3', '4', '2', '1', '9']

/-! ## The sorted container: sorting and deduplication -/

/-- Modelled from the spec: the insertion step of `smartlist_sort`
(smartlist.c is not under src/): `a` goes before the first member it does
not compare above. -/
def smartlist_insert {α : Type} (compare : α → α → Int) (a : α) : List α → List α
  | [] => [a]
  | b :: l => if compare a b ≤ 0 then a :: b :: l else b :: smartlist_insert compare a l

/-- Modelled from the spec: `smartlist_sort` of smartlist.c, which is not
under src/ ("`sort(cmp)`: total order via `cmp`; stable is not required").
For a comparator that is a total order, every sorting algorithm gives this
list up to the order of members that compare equal. -/
def smartlist_sort {α : Type} (sl : List α) (compare : α → α → Int) : List α :=
  sl.foldr (smartlist_insert compare) []

/-- Modelled from the spec: the pass of `smartlist_make_uniq` after the member
`prev` was kept: a member that compares equal to the last kept one is
discarded (and counted), any other member is kept. -/
def smartlist_make_uniq_from {α : Type} (compare : α → α → Int) : α → List α → List α × Nat
  | _, [] => ([], 0)
  | prev, b :: l =>
    if compare prev b = 0 then
      ((smartlist_make_uniq_from compare prev l).1, (smartlist_make_uniq_from compare prev l).2 + 1)
    else
      (b :: (smartlist_make_uniq_from compare b l).1, (smartlist_make_uniq_from compare b l).2)

/-- Modelled from the spec: `smartlist_make_uniq` of smartlist.c, which is not
under src/ ("`dedupe(cmp, release)`: after sort, collapses adjacent entries
considered equal by `cmp`, releasing discarded ones; returns count
removed"). The result is the list after the call and the returned count; the
release of the discarded members is not modelled. -/
def smartlist_make_uniq {α : Type} (sl : List α) (compare : α → α → Int) : List α × Nat :=
  match sl with
  | [] => ([], 0)
  | a :: l => (a :: (smartlist_make_uniq_from compare a l).1, (smartlist_make_uniq_from compare a l).2)

/-! ## Data model of `hosts.c` -/

/-- The C library function `strcmp` on two strings (the characters before the
NUL), as the sign of its result: the first differing character decides, as an
`unsigned char`, and a proper prefix is the smaller string. -/
def strcmp : List Char → List Char → Int
  | [], [] => 0
  | [], _ :: _ => -1
  | _ :: _, [] => 1
  | a :: as, b :: bs =>
    if a.toNat < b.toNat then -1
    else if a.toNat > b.toNat then 1
    else strcmp as bs

/-- The `struct host_entry` of hosts.c; `addr` holds the bytes of the address. -/
structure host_entry where
  host_name : List Char
  addr_type : Int
  addr : List Nat
  deriving DecidableEq, Repr

/-- The function `hosts_compare_name` (hosts.c 60-71). -/
def hosts_compare_name (a b : host_entry) : Int :=
  if a.addr_type = b.addr_type then strcmp a.host_name b.host_name
  else a.addr_type - b.addr_type

/-- The function `hosts_bsearch_name` (hosts.c 76-85), without its trace
output. -/
def hosts_bsearch_name (key : List Char) (member : host_entry) : Int :=
  strcmp key member.host_name

/-- The function `hosts_file_init` (hosts.c 163-180), without its trace
output. `read_file` is what `smartlist_read_file (g_cfg.hosts_file,
parse_hosts)` returned, the entries in the order `parse_hosts` added them
(`none` when there is no file name or no list); the result is `hosts_list`. -/
def hosts_file_init (read_file : Option (List host_entry)) : Option (List host_entry) :=
  match read_file with
  | none => none
  | some hosts_list =>
    let hosts_list := smartlist_sort hosts_list hosts_compare_name
    some (smartlist_make_uniq hosts_list hosts_compare_name).1

/-- The `struct hostent` fields `hosts_file_check_hostent` reads:
`h_addr_list` is `none` for a NULL pointer and otherwise the addresses before
the closing NULL, each as its bytes. -/
structure hostent where
  h_addrtype : Int
  h_addr_list : Option (List (List Nat))
  deriving DecidableEq, Repr

/-- The function `hosts_file_check_hostent` (hosts.c 185-218). -/
def hosts_file_check_hostent (hosts_list : Option (List host_entry))
    (name : Option (List Char)) (host : hostent) : Int :=
  match name, hosts_list, host.h_addr_list with
  | some name, some hosts_list, some addresses =>
    match smartlist_bsearch hosts_list name hosts_bsearch_name with
    | none => 0
    | some he =>
      if he.addr_type = AF_INET ∨ he.addr_type = AF_INET6 then
        let asize := if he.addr_type = AF_INET then 4 else 16
        ((addresses.filter fun a =>
          decide (he.addr_type = host.h_addrtype) && (a.take asize == he.addr.take asize)).length : Int)
      else 0
  | _, _, _ => 0

/-- The entries `parse_hosts` adds for a hosts file with the lines
`10.0.0.1 b`, `10.0.0.2 c` and `::1 a`. -/
def mixed_hosts : List host_entry :=
  [{ host_name := ['b'], addr_type := 2, addr := [10, 0, 0, 1] },
   { host_name := ['c'], addr_type := 2, addr := [10, 0, 0, 2] },
   { host_name := ['a'], addr_type := 23,
     addr := [0, 0, 0, 0, 0, 0, 0, 0, 0, 0, 0, 0, 0, 0, 0, 1] }]

/-- The entries of a hosts file with IPv4 addresses only:
`10.0.0.2 c`, `10.0.0.1 b`, `10.0.0.3 a`, `10.0.0.9 b`. -/
def ipv4_hosts : List host_entry :=
  [{ host_name := ['c'], addr_type := 2, addr := [10, 0, 0, 2] },
   { host_name := ['b'], addr_type := 2, addr := [10, 0, 0, 1] },
   { host_name := ['a'], addr_type := 2, addr := [10, 0, 0, 3] },
   { host_name := ['b'], addr_type := 2, addr := [10, 0, 0, 9] }]
/-! ## Data model of `services.c` -/

def PROTO_UNKNOWN : Nat := 0x01
def PROTO_UDP : Nat := 0x02
def PROTO_TCP : Nat := 0x04
def PROTO_DCCP : Nat := 0x08
def PROTO_SCTP : Nat := 0x10

/-- The table `protocol_list` (services.c 58-64): value and name. -/
def protocol_list : List (Nat × List Char) :=
  [(PROTO_UNKNOWN, ['?']), (PROTO_UDP, ['u', 'd', 'p']), (PROTO_TCP, ['t', 'c', 'p']),
   (PROTO_DCCP, ['d', 'c', 'c', 'p']), (PROTO_SCTP, ['s', 'c', 't', 'p'])]

def UINT_MAX : Nat := 4294967295

/-- Modelled from the spec: `list_lookup_value` of common.c, which is not
under src/: the value of the first table entry with the given name,
`UINT_MAX` when the table has no such name. -/
def list_lookup_value (name : List Char) : List (Nat × List Char) → Nat
  | [] => UINT_MAX
  | (value, n) :: list => if name = n then value else list_lookup_value name list

/-- Modelled from the spec: `list_lookup_name` of common.c, which is not
under src/: the name of the first table entry with the given value. What it
returns for a value the table does not hold is not stated; the empty string
stands for it. -/
def list_lookup_name (value : Nat) : List (Nat × List Char) → List Char
  | [] => []
  | (v, n) :: list => if value = v then n else list_lookup_name value list

/-- Modelled from the spec: `_strlcpy (dst, src, len)` of common.c, which is
not under src/: the string copied into a buffer of `len` bytes, cut to
`len - 1` characters. -/
def _strlcpy (src : List Char) (len : Nat) : List Char :=
  src.take (len - 1)

/-- Modelled from the spec: the tokens `_strtok_r` (common.c, not under src/)
returns for a string over successive calls with the separator `sep`: the
non-empty runs of characters between separators. -/
def _strtok_r_all (s : List Char) (sep : Char) : List (List Char) :=
  (s.splitOn sep).filter fun tok => !tok.isEmpty

/-- Modelled from the spec: `swap16` of common.h, whose body is not under
src/; it turns a 16-bit number from network to host byte order (and back) by
exchanging its two bytes. -/
def swap16 (val : Nat) : Nat :=
  val % 256 * 256 + val / 256 % 256

def MAX_SERV_LEN : Nat := 20
def MAX_PROTO_LEN : Nat := 10
def MAX_PROTOS_LEN : Nat := 30

/-- The `struct service_entry` of services.c. `proto` is an `int` that holds
a set of the `PROTO_x` bit values; `file` is the name of the file the entry
came from. -/
structure service_entry where
  name : List Char
  port : Nat
  proto : Nat
  file : Option (List Char)
  deriving DecidableEq, Repr

/-- The function `encode_proto_str` (services.c 129-160), without its trace
output. -/
def encode_proto_str (proto_str : List Char) (multi_fields : Bool) : Nat :=
  if !multi_fields then
    let protocol := list_lookup_value proto_str protocol_list
    if protocol = UINT_MAX then PROTO_UNKNOWN else protocol
  else
    let copy := _strlcpy proto_str MAX_PROTOS_LEN
    (_strtok_r_all copy '/').foldl
      (fun rc tok =>
        rc ||| (let protocol := list_lookup_value tok protocol_list
                if protocol = UINT_MAX then PROTO_UNKNOWN else protocol))
      PROTO_UNKNOWN

/-- The function `compare_proto` (services.c 170-179). -/
def compare_proto (proto_a proto_b : Nat) : Int :=
  if proto_a &&& proto_b ≠ 0 then 0
  else if proto_a < proto_b then -1
  else if proto_a > proto_b then 1
  else 0

/-- The function `services_compare_port_proto` (services.c 185-194). -/
def services_compare_port_proto (a b : service_entry) : Int :=
  let rc : Int := (a.port : Int) - (b.port : Int)
  if rc = 0 then compare_proto a.proto b.proto else rc

/-- The function `services_bsearch_port_proto` (services.c 200-212), without
its trace output. -/
def services_bsearch_port_proto (lookup se : service_entry) : Int :=
  let rc : Int := (lookup.port : Int) - (se.port : Int)
  if rc = 0 ∧ lookup.proto &&& PROTO_UNKNOWN = 0 then compare_proto lookup.proto se.proto
  else rc

/-- The function `services_file_init` (services.c 365-396), without its trace
output and tests. `fresh` says that `smartlist_new` returned a list; `added`
holds the entries the CSV callback `services_CSV_add` added while the files of
`g_cfg.services_file` were parsed, in that order. The result is
`services_list`. -/
def services_file_init (fresh : Bool) (added : List service_entry) :
    Option (List service_entry) :=
  if !fresh then none
  else
    let services_list := smartlist_sort added services_compare_port_proto
    some (smartlist_make_uniq services_list services_compare_port_proto).1

/-- The `struct servent` filled by `fill_servent`; `s_port` is the 16-bit
pattern stored in the `short`, `s_proto` is `none` for NULL, `s_aliases` holds
the aliases before the closing NULL. -/
structure servent where
  s_name : List Char
  s_aliases : List (List Char)
  s_port : Nat
  s_proto : Option (List Char)
  deriving DecidableEq, Repr

/-- The function `fill_servent` (services.c 402-418). -/
def fill_servent (se : service_entry) (protocol : Nat) : servent :=
  let proto_ret :=
    if protocol = PROTO_UNKNOWN then none
    else some (_strlcpy (list_lookup_name protocol protocol_list) MAX_PROTO_LEN)
  { s_name := _strlcpy se.name MAX_SERV_LEN, s_proto := proto_ret, s_aliases := [],
    s_port := swap16 se.port }

/-- The function `ws_getservbyport` (services.c 429-466), without its trace
output. `services_list`, `num_services_files` (`g_cfg.num_services_files`)
and `cleaned_up` are the globals it reads, `getservbyport` is the Winsock
function of that name, `stack` is the content of the local `lookup` before
its two fields are assigned. -/
def ws_getservbyport (services_list : Option (List service_entry)) (num_services_files : Int)
    (cleaned_up : Bool) (getservbyport : Nat → Option (List Char) → Option servent)
    (stack : service_entry) (port : Nat) (protocol : Option (List Char))
    (fallback do_wstrace : Bool) : Option servent :=
  let lookup : service_entry :=
    { stack with
      port := swap16 port,
      proto := match protocol with
        | some p => encode_proto_str p false
        | none => PROTO_UNKNOWN }
  let se : Option service_entry :=
    if protocol.isSome ∧ lookup.proto = PROTO_UNKNOWN then none
    else
      match services_list with
      | none => none
      | some sl =>
        if num_services_files = 0 then none
        else smartlist_bsearch sl lookup services_bsearch_port_proto
  match se with
  | some se => some (fill_servent se lookup.proto)
  | none =>
    if fallback ∧ !cleaned_up then
      let _ := do_wstrace
      getservbyport port protocol
    else none

/-- The two entries of the test table of services.c: `bgp 179/tcp/udp/sctp`
and `exp2 1022/udp/tcp/dccp/sctp`. -/
def test_services : List service_entry :=
  [{ name := ['e', 'x', 'p', '2'], port := 1022,
     proto := PROTO_UDP ||| PROTO_TCP ||| PROTO_DCCP ||| PROTO_SCTP, file := none },
   { name := ['b', 'g', 'p'], port := 179,
     proto := PROTO_TCP ||| PROTO_UDP ||| PROTO_SCTP, file := none }]

/-- Three entries for one port, as the lines `a 100/udp`, `b 100/dccp` and
`c 100/tcp/sctp` give them. -/
def split_services : List service_entry :=
  [{ name := ['a'], port := 100, proto := PROTO_UDP, file := none },
   { name := ['b'], port := 100, proto := PROTO_DCCP, file := none },
   { name := ['c'], port := 100, proto := PROTO_TCP ||| PROTO_SCTP, file := none }]

/-- A `lookup` before it is assigned. -/
def junk_service : service_entry :=
  { name := ['x'], port := 57005, proto := 48879, file := none }

/-! ## Refreshing the range files (`dnsbl.c`) -/

/-- The two fields of `struct stat` that `DNSBL_update_file` reads. -/
structure Stat where
  st_size : Int
  st_mtime : Int
  deriving DecidableEq, Repr

/-- The files as `stat` sees them: `none` for a path `stat` fails on. -/
abbrev Files := List Char → Option Stat

/-- The collaborators of the refresh code that are not under src/:
`INET_util_download_file (file, url)` with its return value and its effect on
the files, `CopyFile (from, to, FALSE)`, `INET_util_touch_file (file)`, and
the path `snprintf` and `basename` build in the temporary directory for a
configured file name. -/
structure Remote where
  INET_util_download_file : Files → List Char → List Char → Int × Files
  CopyFile : Files → List Char → List Char → Files
  INET_util_touch_file : Files → List Char → Files
  tmp_path : Option (List Char) → List Char

/-- The files together with the list of downloads attempted so far (kept for
the statements only): each call of `INET_util_download_file` is recorded with
its file and URL. -/
structure Disk where
  files : Files
  downloads : List (List Char × List Char)

/-- A value of type `int` (32 bits): outside the range the arithmetic that
produced it is undefined. -/
def as_int (v : Int) : Except Fault Int :=
  if -2147483648 ≤ v ∧ v ≤ 2147483647 then .ok v else .error Fault.int_overflow

/-- A value of type `time_t` (a signed 64-bit number): outside the range the
arithmetic that produced it is undefined. -/
def as_time_t (v : Int) : Except Fault Int :=
  if -9223372036854775808 ≤ v ∧ v ≤ 9223372036854775807 then .ok v
  else .error Fault.int_overflow

/-- The function `DNSBL_update_file` (dnsbl.c 486-538), without its trace
output. `max_days` is `g_cfg.DNSBL.max_days`; the result is the returned
`int` and the files afterwards. -/
def DNSBL_update_file (os : Remote) (max_days : Int) (d : Disk)
    (fname tmp_file url : Option (List Char)) (now expiry : Int) : Except Fault (Int × Disk) :=
  match fname, tmp_file, url with
  | some fname, some tmp_file, some url => do
    let download ←
      match d.files tmp_file with
      | none => pure true
      | some st =>
        if st.st_size = 0 then pure true
        else do
          let expiry ← as_time_t (expiry - 10)
          if expiry ≠ 0 ∧ st.st_mtime > expiry then do
            let days ← as_int (max_days * 24)
            let secs ← as_int (days * 3600)
            let _when ← as_time_t (now + secs)
            pure false
          else pure true
    if download then
      let (rc, files) := os.INET_util_download_file d.files tmp_file url
      let d : Disk := { files := files, downloads := d.downloads ++ [(tmp_file, url)] }
      if rc > 0 then
        let files := os.CopyFile d.files tmp_file fname
        let files := os.INET_util_touch_file files fname
        pure (1, { d with files := files })
      else pure (0, d)
    else pure (0, d)
  | _, _, _ => pure (0, d)

/-- The fields of `g_cfg.DNSBL` the refresh code reads. -/
structure DNSBL_config where
  enable : Bool
  max_days : Int
  drop_file : Option (List Char)
  dropv6_file : Option (List Char)
  drop_url : Option (List Char)
  dropv6_url : Option (List Char)

/-- The function `DNSBL_update_files` (dnsbl.c 545-569), without its trace
output; `now` is what `time (NULL)` returns. The sum `num` of the two results
(each 0 or 1) stays far inside an `int`. -/
def DNSBL_update_files (os : Remote) (cfg : DNSBL_config) (now : Int) (d : Disk)
    (force_update : Bool) : Except Fault (Int × Disk) :=
  if !cfg.enable then pure (0, d)
  else do
    let expiry ←
      if !force_update then do
        let days ← as_int (cfg.max_days * 24)
        let secs ← as_int (days * 3600)
        as_time_t (now - secs)
      else pure now
    let tmp_file := os.tmp_path cfg.drop_file
    let (n1, d) ← DNSBL_update_file os cfg.max_days d cfg.drop_file (some tmp_file)
      cfg.drop_url now expiry
    let tmp_file := os.tmp_path cfg.dropv6_file
    let (n2, d) ← DNSBL_update_file os cfg.max_days d cfg.dropv6_file (some tmp_file)
      cfg.dropv6_url now expiry
    pure (n1 + n2, d)

/-- The refresh test as stated: the file is missing, has size zero, or was
modified not later than `now - max_days * 86400 - 10`. -/
def refresh_due_as_stated (st : Option Stat) (now max_days : Int) : Prop :=
  match st with
  | none => True
  | some st => st.st_size = 0 ∨ st.st_mtime ≤ now - max_days * 86400 - 10

instance (st : Option Stat) (now max_days : Int) :
    Decidable (refresh_due_as_stated st now max_days) := by
  unfold refresh_due_as_stated; cases st <;> infer_instance

/-- The refresh test the code makes against `bound = expiry - 10`: the file
is missing, has size zero, the bound is zero, or the file was modified not
later than the bound. -/
def refresh_due (st : Option Stat) (bound : Int) : Prop :=
  match st with
  | none => True
  | some st => st.st_size = 0 ∨ bound = 0 ∨ st.st_mtime ≤ bound

instance (st : Option Stat) (bound : Int) : Decidable (refresh_due st bound) := by
  unfold refresh_due; cases st <;> infer_instance

/-- Collaborators for the examples: no download succeeds, nothing changes,
the temporary copy of a file has the file's name with `~` in front. -/
def idle_remote : Remote :=
  { INET_util_download_file := fun files _ _ => (0, files),
    CopyFile := fun files _ _ => files,
    INET_util_touch_file := fun files _ => files,
    tmp_path := fun f => '~' :: f.getD [] }

/-- Files in which every path holds 100 bytes last modified at the given
time. -/
def files_modified_at (mtime : Int) : Files :=
  fun _ => some { st_size := 100, st_mtime := mtime }

/-- A configuration with both range files, kept for `max_days` days. -/
def refresh_config (max_days : Int) : DNSBL_config :=
  { enable := true, max_days := max_days,
    drop_file := some ['d', '4'], dropv6_file := some ['d', '6'],
    drop_url := some ['u', '4'], dropv6_url := some ['u', '6'] }

/-! ## `strsep` of `win_str.c` -/

/-- The inner `do ... while (sc != 0)` loop of `strsep`: does the character
`c` equal one of the characters of `delim`, its closing NUL included?
`delim` holds the characters of the string before the NUL. -/
def strsep_span (c : Nat) : List Nat → Bool
  | [] => c == 0
  | sc :: spanp => if sc = c then true else if sc = 0 then false else strsep_span c spanp

/-- The outer `for (tok = s;;)` loop of `strsep` (win_str.c 34-51) with `s`
at index `s` of the memory `mem`, for at most `fuel` characters. The result
is the returned pointer, `*stringp` and the memory after the call. -/
def strsep_loop (delim mem : List Nat) (tok : Nat) :
    Nat → Nat → Except Fault (Option Nat × Option Nat × List Nat)
  | 0, _ => .error Fault.out_of_fuel
  | fuel + 1, s =>
    match mem.get? s with
    | none => .error Fault.out_of_extent
    | some c =>
      if strsep_span c delim then
        if c = 0 then .ok (some tok, none, mem)
        else .ok (some tok, some (s + 1), mem.set s 0)
      else strsep_loop delim mem tok fuel (s + 1)

/-- The function `strsep` (win_str.c 25-54). Pointers into the character
memory `mem` are indices, `none` is NULL; `stringp` is `*stringp` on entry.
The result is the returned pointer, `*stringp` and the memory after the call.
The loop stops at the NUL that ends the string, so one iteration for every
byte of the memory from `*stringp` on is enough. -/
def strsep (mem : List Nat) (stringp : Option Nat) (delim : List Nat) :
    Except Fault (Option Nat × Option Nat × List Nat) :=
  match stringp with
  | none => .ok (none, none, mem)
  | some s => strsep_loop delim mem s (mem.length + 1 - s) s

/-- The characters of the string `net=10.0.0.0/8`, its NUL and two more
bytes. -/
def strsep_sample : List Nat :=
  [110, 101, 116, 61, 49, 48, 46, 48, 46, 48, 46, 48, 47, 56, 0, 7, 7]

/-- A 57-byte database image with an index table: a header (type 2, 2
columns, 2020-01-01, one IPv4 row at position 39, the IPv4 index table at
position 31), the first bucket of the index table with the bounds `low = 1`
and `high = 0xFFFFFFFF`, the row with the start address 1.0.0.0, the closing
start address 2.0.0.0 and the country string "--" (offset 54). -/
def cycling_db : List Nat :=
  [2, 2, 20, 1, 1, 1, 0, 0, 0, 39, 0, 0, 0, 0, 0, 0, 0, 0, 0, 0, 0, 31, 0, 0, 0,
   0, 0, 0, 0, 0,
   1, 0, 0, 0, 255, 255, 255, 255,
   0, 0, 0, 1, 54, 0, 0, 0,
   0, 0, 0, 2, 54, 0, 0, 0,
   2, 45, 45]

/-- The database structure `open_file` builds from `cycling_db`. -/
def cycling_loc : IP2Location :=
  { fresh_loc cycling_db with
    file_open := false, db_type := 2, db_column := 2, db_year := 20, db_month := 1,
    db_day := 1, ipv4_db_count := 1, ipv4_db_addr := 39, ipv4_index_db_addr := 31 }

/-! ## Strings and records as the format lays them out -/

/-- The `n` bytes of an image from a 0-based offset on. -/
def bytes_from (mem : List Nat) (off : Nat) : Nat → List Nat
  | 0 => []
  | n + 1 => byte_at mem off :: bytes_from mem (off + 1) n

/-- The buffer `buf` after the length-prefixed string at the 0-based offset
`val` of an image was copied to its start: the length byte at `val`, capped
by the low 8 bits of the buffer size, says how many of the bytes that follow
it are copied. -/
def string_as_stated (mem : List Nat) (val : Nat) (buf : List Nat) : List Nat :=
  bytes_from mem (val + 1) (min (byte_at mem val) (buf.length % 256))
    ++ buf.drop (min (byte_at mem val) (buf.length % 256))

/-- The 32-bit number stored in column `pos` of the row at `rowaddr`: the
four bytes at the 1-based position `rowaddr + 4 * (pos - 1)`. -/
def field_value (mem : List Nat) (rowaddr pos : Nat) : Nat :=
  le32_at mem ((rowaddr + 4 * (pos - 1)) % 2 ^ 32 - 1)

/-- The four bytes of column `pos` of the row at `rowaddr` are bytes of the
file. -/
def float_inside (loc : IP2Location) (rowaddr pos : Nat) : Prop :=
  1 ≤ (rowaddr + 4 * (pos - 1)) % 2 ^ 32 ∧
  (rowaddr + 4 * (pos - 1)) % 2 ^ 32 + 3 ≤ loc.sh_mem.length

instance (loc : IP2Location) (rowaddr pos : Nat) : Decidable (float_inside loc rowaddr pos) := by
  unfold float_inside; infer_instance

/-- The four bytes of column `pos` of the row at `rowaddr` are bytes of the
file, and so are the length byte at the offset stored there plus `delta` and
the bytes copied for a buffer of `len` bytes. -/
def str_inside (loc : IP2Location) (rowaddr pos delta len : Nat) : Prop :=
  float_inside loc rowaddr pos ∧
  (field_value loc.sh_mem rowaddr pos + delta) % 2 ^ 32
    + min (byte_at loc.sh_mem ((field_value loc.sh_mem rowaddr pos + delta) % 2 ^ 32))
        (len % 256) < loc.sh_mem.length

instance (loc : IP2Location) (rowaddr pos delta len : Nat) :
    Decidable (str_inside loc rowaddr pos delta len) := by
  unfold str_inside; infer_instance

/-- A field is written: its flag is set in `mode` and its position table has
a non-zero entry for the type of the database. -/
def field_wanted (loc : IP2Location) (mode flag : Nat) (table : List Nat) : Prop :=
  mode &&& flag ≠ 0 ∧ table.getD loc.db_type 0 ≠ 0

instance (loc : IP2Location) (mode flag : Nat) (table : List Nat) :
    Decidable (field_wanted loc mode flag table) := by
  unfold field_wanted; infer_instance

/-- Everything `IP2Location_read_record` reads for the fields it writes lies
inside the file. -/
def record_inside (loc : IP2Location) (rowaddr mode : Nat) (out : ip2loc_entry) : Prop :=
  (field_wanted loc mode FLG_COUNTRY_SHORT COUNTRY_POSITION →
    str_inside loc rowaddr (COUNTRY_POSITION.getD loc.db_type 0) 0 out.country_short.length) ∧
  (field_wanted loc mode FLG_COUNTRY_LONG COUNTRY_POSITION →
    str_inside loc rowaddr (COUNTRY_POSITION.getD loc.db_type 0) 3 out.country_long.length) ∧
  (field_wanted loc mode FLG_REGION REGION_POSITION →
    str_inside loc rowaddr (REGION_POSITION.getD loc.db_type 0) 0 out.region.length) ∧
  (field_wanted loc mode FLG_CITY CITY_POSITION →
    str_inside loc rowaddr (CITY_POSITION.getD loc.db_type 0) 0 out.city.length) ∧
  (field_wanted loc mode FLG_LATITUDE LATITUDE_POSITION →
    float_inside loc rowaddr (LATITUDE_POSITION.getD loc.db_type 0)) ∧
  (field_wanted loc mode FLG_LONGITUDE LONGITUDE_POSITION →
    float_inside loc rowaddr (LONGITUDE_POSITION.getD loc.db_type 0))

instance (loc : IP2Location) (rowaddr mode : Nat) (out : ip2loc_entry) :
    Decidable (record_inside loc rowaddr mode out) := by
  unfold record_inside; infer_instance

/-- The record as the format description gives it: a field whose flag is set
and whose column is defined for the type holds the string at the offset
stored in that column (at that offset plus 3 for the long country name),
resp. the 32 bits of that column for a coordinate; every other field is as it
was. -/
def record_as_stated (loc : IP2Location) (rowaddr mode : Nat) (out : ip2loc_entry) :
    ip2loc_entry :=
  { country_short :=
      if field_wanted loc mode FLG_COUNTRY_SHORT COUNTRY_POSITION then
        string_as_stated loc.sh_mem
          ((field_value loc.sh_mem rowaddr (COUNTRY_POSITION.getD loc.db_type 0) + 0) % 2 ^ 32)
          out.country_short
      else out.country_short,
    country_long :=
      if field_wanted loc mode FLG_COUNTRY_LONG COUNTRY_POSITION then
        string_as_stated loc.sh_mem
          ((field_value loc.sh_mem rowaddr (COUNTRY_POSITION.getD loc.db_type 0) + 3) % 2 ^ 32)
          out.country_long
      else out.country_long,
    region :=
      if field_wanted loc mode FLG_REGION REGION_POSITION then
        string_as_stated loc.sh_mem
          ((field_value loc.sh_mem rowaddr (REGION_POSITION.getD loc.db_type 0) + 0) % 2 ^ 32)
          out.region
      else out.region,
    city :=
      if field_wanted loc mode FLG_CITY CITY_POSITION then
        string_as_stated loc.sh_mem
          ((field_value loc.sh_mem rowaddr (CITY_POSITION.getD loc.db_type 0) + 0) % 2 ^ 32)
          out.city
      else out.city,
    latitude :=
      if field_wanted loc mode FLG_LATITUDE LATITUDE_POSITION then
        field_value loc.sh_mem rowaddr (LATITUDE_POSITION.getD loc.db_type 0)
      else out.latitude,
    longitude :=
      if field_wanted loc mode FLG_LONGITUDE LONGITUDE_POSITION then
        field_value loc.sh_mem rowaddr (LONGITUDE_POSITION.getD loc.db_type 0)
      else out.longitude }

/-- A 98-byte database image of type 5 (6 columns: start address, country,
region, city, latitude, longitude) with one row at position 31: the row
0.0.0.0 with the country at offset 78, the region at offset 88, the city at
offset 92 and the coordinates 59.0 and 10.5; the closing row; the strings
"NO" and "Norway" (offsets 78 and 81), "Ost" and "Oslo", and a last byte. -/
def sample_db5 : List Nat :=
  [5, 6, 20, 1, 1, 1, 0, 0, 0, 31, 0, 0, 0, 0, 0, 0, 0, 0, 0, 0, 0, 0, 0, 0, 0,
   0, 0, 0, 0, 0,
   0, 0, 0, 0, 78, 0, 0, 0, 88, 0, 0, 0, 92, 0, 0, 0, 0, 0, 108, 66, 0, 0, 40, 65,
   255, 255, 255, 255, 78, 0, 0, 0, 88, 0, 0, 0, 92, 0, 0, 0, 0, 0, 0, 0, 0, 0, 0, 0,
   2, 78, 79, 6, 78, 111, 114, 119, 97, 121,
   3, 79, 115, 116,
   4, 79, 115, 108, 111, 0]

/-- The database structure `open_file` builds from `sample_db5`. -/
def sample_loc5 : IP2Location :=
  { fresh_loc sample_db5 with
    file_open := false, db_type := 5, db_column := 6, db_year := 20, db_month := 1,
    db_day := 1, ipv4_db_count := 1, ipv4_db_addr := 31 }

/-- An output record with the buffers of 3, 8, 8 and 8 bytes holding marks. -/
def marked_entry : ip2loc_entry :=
  { country_short := [1, 1, 1], country_long := [2, 2, 2, 2, 2, 2, 2, 2],
    city := [3, 3, 3, 3, 3, 3, 3, 3], region := [4, 4, 4, 4, 4, 4, 4, 4],
    latitude := 5, longitude := 6 }

/-! ## Sample data for the range list, the refresh and the tables -/

/-- The line `2a06:5280::/129 ; SBL1`, with a prefix longer than an IPv6
address. -/
def wide_prefix_line6 : List Char :=
  ['2', 'a', '0', '6', ':', '5', '2', '8', '0', ':', ':', '/', '1', '2', '9', ' ', ';', ' ',
   'S', 'B', 'L', '1']

/-- The line `2a06:5280::/7 ; SBL1`, with a prefix below 8. -/
def narrow_prefix_line6 : List Char :=
  ['2', 'a', '0', '6', ':', '5', '2', '8', '0', ':', ':', '/', '7', ' ', ';', ' ',
   'S', 'B', 'L', '1']

instance (e : DNSBL_info) : Decidable (DNSBL_entry_ok e) := by
  unfold DNSBL_entry_ok; infer_instance

/-- The entry `DNSBL_parse_DROP` builds for the line `a.b.c.d/bits ; SBL<ref>`. -/
def drop_entry (a b c d bits : Nat) (ref : List Char) : DNSBL_info :=
  { junk_info with
    ip4_network := a + 256 * b + 65536 * c + 16777216 * d,
    ip4_mask := INET_util_get_mask4 bits, bits := bits, family := AF_INET,
    type := DNSBL_type.DNSBL_DROP, SBL_ref := ref }

/-- A list with nested ranges, in `DNSBL_compare_net` order: 10.0.0.0/8,
10.2.0.0/15 inside it, and 10.2.1.0/24, 10.2.2.0/24 and 10.2.3.0/24 inside
both. -/
def nested_ranges : List DNSBL_info :=
  [drop_entry 10 0 0 0 8 ['1'], drop_entry 10 2 0 0 15 ['2'], drop_entry 10 2 1 0 24 ['3'],
   drop_entry 10 2 2 0 24 ['4'], drop_entry 10 2 3 0 24 ['5']]

/-- The `s_addr` of the address `a.b.c.d`. -/
def s_addr_of (a b c d : Nat) : Nat :=
  a + 256 * b + 65536 * c + 16777216 * d

/-- Files in which only the path `tmp` exists: 100 bytes last modified at the
given time. -/
def only_file (tmp : List Char) (mtime : Int) : Files :=
  fun p => if p = tmp then some { st_size := 100, st_mtime := mtime } else none

/-- The image `sample_db` with the type code 25 in its first byte. -/
def type25_db : List Nat :=
  sample_db.set 0 25

/-- Three service entries of port 80: for tcp, for tcp and udp, for udp. -/
def tcp_service : service_entry :=
  { name := ['a'], port := 80, proto := PROTO_TCP, file := none }
def both_service : service_entry :=
  { name := ['b'], port := 80, proto := PROTO_TCP ||| PROTO_UDP, file := none }
def udp_service : service_entry :=
  { name := ['c'], port := 80, proto := PROTO_UDP, file := none }

/-- The number of protocols in a protocol bit set. -/
def proto_count (proto : Nat) : Nat :=
  ((List.range 32).filter fun i => proto.testBit i).length

/-! ## `mmap` and `munmap` of `win_mmap.c` -/

/-- The `struct mmap_info`; pointers are numbers, 0 is NULL. -/
structure mmap_info where
  map : Nat
  rval : Nat
  deriving DecidableEq, Repr

/-- The value `MAP_FAILED`, `(void*)-1`, and `INVALID_HANDLE_VALUE`, on a
64-bit machine. -/
def MAP_FAILED : Nat := 18446744073709551615
def INVALID_HANDLE_VALUE : Nat := 18446744073709551615

/-- The file-scope state of win_mmap.c: `debug`, `si.dwAllocationGranularity`
and the ten entries of `mmap_storage`. -/
structure MmapState where
  debug : Int
  dwAllocationGranularity : Nat
  mmap_storage : List mmap_info
  deriving DecidableEq, Repr

/-- The state at program start: `debug` is -1, everything else is zero. -/
def mmap_start : MmapState :=
  { debug := -1, dwAllocationGranularity := 0,
    mmap_storage := List.replicate 10 { map := 0, rval := 0 } }

/-- The loop of `mmap_remember` over the entries from the current one on:
the returned pointer and the entries afterwards, `none` when all are in
use. -/
def mmap_remember_loop (map offset : Nat) : List mmap_info → Option (Nat × List mmap_info)
  | [] => none
  | e :: rest =>
    if e.map = 0 then
      some ((map + offset) % 2 ^ 64, { map := map, rval := (map + offset) % 2 ^ 64 } :: rest)
    else
      match mmap_remember_loop map offset rest with
      | some (rval, rest) => some (rval, e :: rest)
      | none => none

/-- The function `mmap_remember` (win_mmap.c 163-184), without `errno`: the
returned pointer and `mmap_storage` afterwards. -/
def mmap_remember (mmap_storage : List mmap_info) (map offset : Nat) :
    Nat × List mmap_info :=
  if map = MAP_FAILED then (MAP_FAILED, mmap_storage)
  else
    match mmap_remember_loop map offset mmap_storage with
    | some r => r
    | none => (MAP_FAILED, mmap_storage)

/-- The loop of `mmap_forget` over the entries from the current one on: the
entry found, as copied to `*info`, and the entries afterwards. -/
def mmap_forget_loop (map : Nat) : List mmap_info → Option (mmap_info × List mmap_info)
  | [] => none
  | e :: rest =>
    if map = e.rval then some (e, { e with map := 0 } :: rest)
    else
      match mmap_forget_loop map rest with
      | some (found, rest) => some (found, e :: rest)
      | none => none

/-- The function `mmap_forget` (win_mmap.c 186-204), without `errno`, called
with `info` not NULL: the returned `int`, `*info` and `mmap_storage`
afterwards. -/
def mmap_forget (mmap_storage : List mmap_info) (map : Nat) :
    Int × mmap_info × List mmap_info :=
  match mmap_forget_loop map mmap_storage with
  | some (found, storage) => (0, found, storage)
  | none => (-1, { map := 0, rval := 0 }, mmap_storage)

/-- The function `_munmap` (win_mmap.c 144-161), without its output.
`UnmapViewOfFile` is the answer of the system call of that name for a
pointer; the test `!UnmapViewOfFile (info.map) && debug` is written with
`debug` first, which gives the same result. The result is the returned `int`
and the state afterwards. -/
def _munmap (UnmapViewOfFile : Nat → Bool) (st : MmapState) (map : Nat) (_length : Nat) :
    Int × MmapState :=
  match mmap_forget st.mmap_storage map with
  | (rc, info, storage) =>
    if rc ≠ 0 then (-1, { st with mmap_storage := storage })
    else if st.debug ≠ 0 ∧ UnmapViewOfFile info.map = false then
      (-1, { st with mmap_storage := storage })
    else (0, { st with mmap_storage := storage })

/-- What the operating system answers during one `_mmap`: the value of the
environment variable `LIBLOC_DEBUG` (`none` when it is not set), the
allocation granularity `GetSystemInfo` reports (never zero), the handle
`CreateFileMapping` returns (0 when it fails) and the pointer `MapViewOfFile`
returns (0 when it fails). -/
structure MmapWorld where
  env : Option (List Char)
  granularity : Nat
  CreateFileMapping : Nat
  MapViewOfFile : Nat

/-- The function `_mmap` (win_mmap.c 31-142) without `EXTRA_DEBUG_PARANOIA`
and without `errno`. `PROT_READ`, `PROT_WRITE` and `PROT_READWRITE` are the
constants of `sys/mman.h`, which is not under src/. The result is the
returned pointer and the state afterwards. -/
def _mmap (PROT_READ PROT_WRITE PROT_READWRITE : Int) (w : MmapWorld) (st : MmapState)
    (length : Nat) (protection : Int) (offset : Nat) : Nat × MmapState :=
  let st :=
    if st.debug = -1 then
      { st with
        debug :=
          match w.env with
          | some (c :: _) =>
            if (c.toNat : Int) - 48 > 0 ∧ (c.toNat : Int) - 48 < 10 then 1 else 0
          | _ => 0,
        dwAllocationGranularity := w.granularity }
    else st
  let pstart := (offset / st.dwAllocationGranularity) * st.dwAllocationGranularity
  let poffset := offset - pstart
  let _psize := (poffset + length) % 2 ^ 64
  let handle :=
    if protection = PROT_READ ∨ protection = PROT_WRITE ∨ protection = PROT_READWRITE then
      w.CreateFileMapping
    else INVALID_HANDLE_VALUE
  let map :=
    if handle = 0 then MAP_FAILED
    else if w.MapViewOfFile = 0 then MAP_FAILED
    else w.MapViewOfFile
  let (rval, storage) := mmap_remember st.mmap_storage map poffset
  (rval, { st with mmap_storage := storage })

/-- A system in which mapping succeeds with the view at address 65536. -/
def mmap_world : MmapWorld :=
  { env := none, granularity := 65536, CreateFileMapping := 256, MapViewOfFile := 65536 }

/-- Two database structures differ at most in the error counter
`sh_mem_index_errors`. -/
def same_but_errors (a b : IP2Location) : Prop :=
  { a with sh_mem_index_errors := 0 } = { b with sh_mem_index_errors := 0 }

instance (a b : IP2Location) : Decidable (same_but_errors a b) := by
  unfold same_but_errors; infer_instance

/-- A 79-byte database image with an IPv4 index table: a header (type 2,
2 columns, 2020-01-01, three IPv4 rows at position 39, the index table at
position 31), the first bucket of the index table with the bounds 0 and 2,
the rows with the start addresses 0.0.0.0, 0.0.1.0, 0.0.2.0 and the closing
start address 0.0.3.0, and the country strings "--" (offset 70), "US"
(offset 73) and "NO" (offset 76). -/
def indexed_db : List Nat :=
  [2, 2, 20, 1, 1, 3, 0, 0, 0, 39, 0, 0, 0, 0, 0, 0, 0, 0, 0, 0, 0, 31, 0, 0, 0,
   0, 0, 0, 0, 0,
   0, 0, 0, 0, 2, 0, 0, 0,
   0, 0, 0, 0, 70, 0, 0, 0,
   0, 1, 0, 0, 73, 0, 0, 0,
   0, 2, 0, 0, 76, 0, 0, 0,
   0, 3, 0, 0, 70, 0, 0, 0,
   2, 45, 45, 2, 85, 83, 2, 78, 79]

/-- The database structure `open_file` builds from `indexed_db`. -/
def indexed_loc : IP2Location :=
  { fresh_loc indexed_db with
    file_open := false, db_type := 2, db_column := 2, db_year := 20, db_month := 1,
    db_day := 1, ipv4_db_count := 3, ipv4_db_addr := 39, ipv4_index_db_addr := 31 }

/-- The line `1.2.3.0/4294967320 ; SBL1`, whose prefix is 2^32 + 24. -/
def overlong_prefix_line : List Char :=
  ['1', '.', '2', '.', '3', '.', '0', '/', '4', '2', '9', '4', '9', '6', '7', '3', '2', '0',
   ' ', ';', ' ', 'S', 'B', 'L', '1']

/-- A 95-byte database image with an IPv4 index table whose first bucket is
wider than the table: a header (type 2, 2 columns, 2020-01-01, three IPv4
rows at position 39, the index table at position 31), the first bucket of
the index table with the bounds 0 and 9, the rows with the start addresses
0.0.0.0, 0.0.1.0, 0.0.2.0 and the closing start address 0.0.3.0, 16 bytes of
zero, and the country strings "--" (offset 86), "US" (offset 89) and "NO"
(offset 92). -/
def wide_bucket_db : List Nat :=
  [2, 2, 20, 1, 1, 3, 0, 0, 0, 39, 0, 0, 0, 0, 0, 0, 0, 0, 0, 0, 0, 31, 0, 0, 0,
   0, 0, 0, 0, 0,
   0, 0, 0, 0, 9, 0, 0, 0,
   0, 0, 0, 0, 86, 0, 0, 0,
   0, 1, 0, 0, 89, 0, 0, 0,
   0, 2, 0, 0, 92, 0, 0, 0,
   0, 3, 0, 0, 86, 0, 0, 0,
   0, 0, 0, 0, 0, 0, 0, 0, 0, 0, 0, 0, 0, 0, 0, 0,
   2, 45, 45, 2, 85, 83, 2, 78, 79]

/-- The database structure `open_file` builds from `wide_bucket_db`. -/
def wide_bucket_loc : IP2Location :=
  { fresh_loc wide_bucket_db with
    file_open := false, db_type := 2, db_column := 2, db_year := 20, db_month := 1,
    db_day := 1, ipv4_db_count := 3, ipv4_db_addr := 39, ipv4_index_db_addr := 31 }

/-! ## Lemmas on the byte reader -/

theorem lor_bytes (b1 b2 b3 b4 : Nat) (h1 : b1 < 256) (h2 : b2 < 256) (h3 : b3 < 256)
    (h4 : b4 < 256) :
    ((b4 <<< 24) ||| (b3 <<< 16) ||| (b2 <<< 8) ||| b1) % 2 ^ 32
      = b1 + 256 * b2 + 65536 * b3 + 16777216 * b4 := by
  have e1 : (b4 <<< 24) ||| (b3 <<< 16) = 2 ^ 16 * (256 * b4 + b3) := by
    have := Nat.mul_add_lt_is_or (i := 24) (b := b3 <<< 16)
      (by rw [Nat.shiftLeft_eq]; omega) b4
    rw [Nat.shiftLeft_eq b4 24, Nat.mul_comm b4, ← this, Nat.shiftLeft_eq]; omega
  have e2 : 2 ^ 16 * (256 * b4 + b3) ||| (b2 <<< 8)
      = 2 ^ 8 * (65536 * b4 + 256 * b3 + b2) := by
    have := Nat.mul_add_lt_is_or (i := 16) (b := b2 <<< 8)
      (by rw [Nat.shiftLeft_eq]; omega) (256 * b4 + b3)
    rw [← this, Nat.shiftLeft_eq]; omega
  have e3 : 2 ^ 8 * (65536 * b4 + 256 * b3 + b2) ||| b1
      = 2 ^ 8 * (65536 * b4 + 256 * b3 + b2) + b1 :=
    (Nat.mul_add_lt_is_or (i := 8) (by omega) _).symm
  rw [e1, e2, e3]
  omega

theorem bind_ok {ε α β : Type} {x : Except ε α} {a : α} (f : α → Except ε β)
    (h : x = .ok a) : (x >>= f) = f a := by
  subst h; rfl

theorem byte_at_lt (mem : List Nat) (off : Nat) : byte_at mem off < 256 :=
  Nat.mod_lt _ (by norm_num)

theorem le32_at_lt (mem : List Nat) (off : Nat) : le32_at mem off < 2 ^ 32 := by
  have h0 := byte_at_lt mem off
  have h1 := byte_at_lt mem (off + 1)
  have h2 := byte_at_lt mem (off + 2)
  have h3 := byte_at_lt mem (off + 3)
  unfold le32_at
  omega

theorem peek_in (loc : IP2Location) (k : Nat) (h : k < loc.sh_mem.length) :
    peek loc k = .ok (byte_at loc.sh_mem k) := by
  unfold peek byte_at
  rw [List.get?_eq_get h]
  simp [List.getD_eq_getElem?_getD, List.getElem?_eq_getElem h]

theorem peek_out (loc : IP2Location) (k : Nat) (h : loc.sh_mem.length ≤ k) :
    peek loc k = .error Fault.out_of_extent := by
  unfold peek
  rw [List.get?_eq_none.mpr h]

/-- A 32-bit read whose four bytes are bytes of the file returns the
little-endian number at the 0-based offset `position - 1`. -/
theorem read32_in (loc : IP2Location) (p : Nat) (hm : Mapped loc) (h1 : 1 ≤ p)
    (h2 : p + 3 ≤ loc.sh_mem.length) (hp : p + 3 ≤ 2 ^ 32) :
    IP2Location_read32 loc p = .ok (le32_at loc.sh_mem (p - 1), loc) := by
  obtain ⟨_, hmax, hsp⟩ := hm
  have hc : ¬ ((loc.sh_mem_ptr + p) % 2 ^ 64 ≥ loc.sh_mem_max) := by
    rw [Nat.mod_eq_of_lt (by omega)]; omega
  have i1 : (p + 2 ^ 32 - 1) % 2 ^ 32 = p - 1 := by omega
  have i3 : (p + 1) % 2 ^ 32 = p + 1 := by omega
  have i4 : (p + 2) % 2 ^ 32 = p + 2 := by omega
  unfold IP2Location_read32
  rw [if_neg hc, i1, i3, i4, peek_in loc (p - 1) (by omega), peek_in loc p (by omega),
    peek_in loc (p + 1) (by omega), peek_in loc (p + 2) (by omega)]
  simp only [bind, Except.bind, pure, Except.pure]
  rw [lor_bytes _ _ _ _ (byte_at_lt _ _) (byte_at_lt _ _) (byte_at_lt _ _) (byte_at_lt _ _)]
  have e1 : p - 1 + 1 = p := by omega
  have e2 : p - 1 + 2 = p + 1 := by omega
  have e3 : p - 1 + 3 = p + 2 := by omega
  simp only [le32_at, e1, e2, e3]

/-- A read whose position is at or beyond the length of the file is answered
with 0 and counted. -/
theorem read32_out (loc : IP2Location) (p : Nat) (hm : Mapped loc) (hp : p < 2 ^ 32)
    (h : loc.sh_mem.length ≤ p) :
    IP2Location_read32 loc p = .ok (0, count_index_error loc) := by
  obtain ⟨_, hmax, hsp⟩ := hm
  have hc : (loc.sh_mem_ptr + p) % 2 ^ 64 ≥ loc.sh_mem_max := by
    rw [Nat.mod_eq_of_lt (by omega)]; omega
  unfold IP2Location_read32
  rw [if_pos hc]

/-- An 8-bit read of a byte of the file returns that byte. -/
theorem read8_in (loc : IP2Location) (p : Nat) (hm : Mapped loc) (h1 : 1 ≤ p)
    (h2 : p ≤ loc.sh_mem.length) (hp : p < 2 ^ 32) :
    IP2Location_read8 loc p = .ok (byte_at loc.sh_mem (p - 1), loc) := by
  obtain ⟨_, hmax, hsp⟩ := hm
  have hc : (loc.sh_mem_ptr + p + 2 ^ 64 - 1) % 2 ^ 64 ≤ loc.sh_mem_max := by
    have : loc.sh_mem_ptr + p + 2 ^ 64 - 1 = (loc.sh_mem_ptr + p - 1) + 2 ^ 64 := by omega
    rw [this, Nat.add_mod_right, Nat.mod_eq_of_lt (by omega)]; omega
  have i1 : (p + 2 ^ 32 - 1) % 2 ^ 32 = p - 1 := by omega
  unfold IP2Location_read8
  rw [if_pos hc, i1, peek_in loc (p - 1) (by omega)]
  rfl

/-! ## Bounds violations are recovered locally -/

theorem c_str_set_zero (ret : List Nat) : c_str (ret.set 0 0) = [] := by
  cases ret <;> simp [c_str, List.takeWhile]

/-- C3: for a mapped database and every position at or beyond the length of
the mapped file, `IP2Location_read32` returns 0, `IP2Location_read_float`
returns 0.0 and `IP2Location_read_str` leaves the empty string in its buffer
(only the first byte of the buffer is written); each call adds exactly one to
`sh_mem_index_errors` and changes nothing else of the database structure. -/
theorem out_of_bounds_read_is_recovered (loc : IP2Location) (position : Nat)
    (ret : List Nat) (max_sz : Nat) (hm : Mapped loc) (hp : position < 2 ^ 32)
    (hL : loc.sh_mem.length ≤ position) (hc : loc.sh_mem_index_errors + 1 < 2 ^ 64) :
    IP2Location_read32 loc position
        = .ok (0, { loc with sh_mem_index_errors := loc.sh_mem_index_errors + 1 }) ∧
    IP2Location_read_float loc position
        = .ok (0, { loc with sh_mem_index_errors := loc.sh_mem_index_errors + 1 }) ∧
    IP2Location_read_str loc position ret max_sz
        = .ok (ret.set 0 0, { loc with sh_mem_index_errors := loc.sh_mem_index_errors + 1 }) ∧
    c_str (ret.set 0 0) = [] := by
  have hcnt : count_index_error loc
      = { loc with sh_mem_index_errors := loc.sh_mem_index_errors + 1 } := by
    unfold count_index_error
    rw [Nat.mod_eq_of_lt hc]
  have hchk : (loc.sh_mem_ptr + position) % 2 ^ 64 ≥ loc.sh_mem_max := by
    obtain ⟨_, hmax, hsp⟩ := hm
    rw [Nat.mod_eq_of_lt (by omega)]; omega
  refine ⟨?_, ?_, ?_, c_str_set_zero ret⟩
  · rw [read32_out loc position hm hp hL, hcnt]
  · unfold IP2Location_read_float
    rw [if_pos hchk, hcnt]
  · unfold IP2Location_read_str
    rw [if_pos hchk, hcnt]

theorem out_of_bounds_read_is_recovered_witness :
    Mapped (fresh_loc sample_header) ∧
    IP2Location_read32 (fresh_loc sample_header) 30
        = .ok (0, { fresh_loc sample_header with sh_mem_index_errors := 1 }) ∧
    IP2Location_read_float (fresh_loc sample_header) 30
        = .ok (0, { fresh_loc sample_header with sh_mem_index_errors := 1 }) ∧
    IP2Location_read_str (fresh_loc sample_header) 30 [65, 66, 0] 3
        = .ok ([0, 66, 0], { fresh_loc sample_header with sh_mem_index_errors := 1 }) ∧
    c_str [0, 66, 0] = [] :=
  ⟨by decide,
   out_of_bounds_read_is_recovered (fresh_loc sample_header) 30 [65, 66, 0] 3
     (by decide) (by norm_num) (by decide) (by decide)⟩

/-- C4 (the code at the failing inputs): over a 30-byte file,
`IP2Location_read8` at position 30 returns the last byte of the file and at
position 31 reads the byte at offset 30, which is not a byte of the file; in
neither case is `sh_mem_index_errors` touched, where `IP2Location_read32`
rejects position 30. A position is only rejected from 32 on. The read at
position 31 is the first one an IPv6 lookup makes in a 30-byte file whose
header announces a row at position 16. -/
theorem read8_bounds_rule_differs :
    sample_header.length = 30 ∧
    IP2Location_read8 (fresh_loc sample_header) 30 = .ok (7, fresh_loc sample_header) ∧
    IP2Location_read32 (fresh_loc sample_header) 30
      = .ok (0, count_index_error (fresh_loc sample_header)) ∧
    IP2Location_read8 (fresh_loc sample_header) 31 = .error Fault.out_of_extent ∧
    IP2Location_read8 (fresh_loc sample_header) 32
      = .ok (0, count_index_error (fresh_loc sample_header)) ∧
    edge_db6.length = 30 ∧
    ∃ loc, IP2Location_initialize (fresh_loc edge_db6) = .ok loc ∧
      loc.ipv6_db_count = 1 ∧ loc.ipv6_db_addr = 16 ∧
      IP2Location_get_ipv6_record 2 loc IP2LOC_FLAGS
          { ip_ver := 6, ipv4 := 0, ipv6 := sample_addr6 } blank_entry
        = .error Fault.out_of_extent :=
  ⟨rfl, rfl, rfl, rfl, rfl, rfl, _, rfl, rfl, rfl, rfl⟩

/-- C5 (the code at the failing inputs): over a 30-byte file the check of
`IP2Location_read32` passes for the positions 29, 28 and 0, and the read then
touches `sh_mem_ptr[30]` and `sh_mem_ptr[31]` (position 29), `sh_mem_ptr[30]`
(position 28) or `sh_mem_ptr[0xFFFFFFFF]` (position 0), none of which is a
byte of the file; position 27 is the last one that is read inside it. An IPv4
lookup makes the read at position 29 in a 30-byte file whose header announces
a row there, and the read at position 0 in a database without IPv4 rows. -/
theorem read32_reads_past_the_extent :
    sample_header.length = 30 ∧
    IP2Location_read32 (fresh_loc sample_header) 29 = .error Fault.out_of_extent ∧
    IP2Location_read32 (fresh_loc sample_header) 28 = .error Fault.out_of_extent ∧
    IP2Location_read32 (fresh_loc sample_header) 0 = .error Fault.out_of_extent ∧
    peek (fresh_loc sample_header) 29 = .ok 7 ∧
    peek (fresh_loc sample_header) 30 = .error Fault.out_of_extent ∧
    peek (fresh_loc sample_header) ((0 + 2 ^ 32 - 1) % 2 ^ 32) = .error Fault.out_of_extent ∧
    IP2Location_read32 (fresh_loc sample_header) 27
      = .ok (117440512, fresh_loc sample_header) ∧
    edge_db4.length = 30 ∧
    (∃ loc, IP2Location_initialize (fresh_loc edge_db4) = .ok loc ∧
      loc.ipv4_db_count = 1 ∧ loc.ipv4_db_addr = 29 ∧
      IP2Location_get_ipv4_record 2 loc IP2LOC_FLAGS
          { ip_ver := 4, ipv4 := 16909060, ipv6 := [] } blank_entry
        = .error Fault.out_of_extent) ∧
    sample_loc6.ipv4_db_addr = 0 ∧
    IP2Location_get_ipv4_record 2 sample_loc6 IP2LOC_FLAGS
        { ip_ver := 4, ipv4 := 16909060, ipv6 := [] } blank_entry
      = .error Fault.out_of_extent :=
  ⟨rfl, rfl, rfl, rfl, rfl, rfl, rfl, rfl, rfl, ⟨_, rfl, rfl, rfl, rfl⟩, rfl, rfl⟩

/-! ## Header decoding -/

/-- C6: for every mapped image of at least 30 bytes `IP2Location_initialize`
sets `db_type`, `db_column`, `db_year`, `db_month`, `db_day` to the bytes at
the 1-based offsets 1 to 5 (0-based 0 to 4) and the six 32-bit fields to the
little-endian numbers at the 1-based offsets 6, 10, 14, 18, 22, 26 (0-based
5, 9, 13, 17, 21, 25), and changes nothing else; a header with type 1,
year 20, month 1, day 1 and IPv4 count 3 decodes to type code 1, date
2020-01-01 and 3 IPv4 rows. -/
theorem header_decoding (loc : IP2Location) (hm : Mapped loc)
    (h30 : 30 ≤ loc.sh_mem.length) :
    IP2Location_initialize loc = .ok
      { loc with
        db_type := byte_at loc.sh_mem 0, db_column := byte_at loc.sh_mem 1,
        db_year := byte_at loc.sh_mem 2, db_month := byte_at loc.sh_mem 3,
        db_day := byte_at loc.sh_mem 4, ipv4_db_count := le32_at loc.sh_mem 5,
        ipv4_db_addr := le32_at loc.sh_mem 9, ipv6_db_count := le32_at loc.sh_mem 13,
        ip_version := le32_at loc.sh_mem 13, ipv6_db_addr := le32_at loc.sh_mem 17,
        ipv4_index_db_addr := le32_at loc.sh_mem 21,
        ipv6_index_db_addr := le32_at loc.sh_mem 25 } ∧
    ∀ (c : Nat) (rest : List Nat),
      loc.sh_mem = 1 :: c :: 20 :: 1 :: 1 :: 3 :: 0 :: 0 :: 0 :: rest →
      ∃ loc1, IP2Location_initialize loc = .ok loc1 ∧ loc1.db_type = 1 ∧
        loc1.db_year + 2000 = 2020 ∧ loc1.db_month = 1 ∧ loc1.db_day = 1 ∧
        loc1.ipv4_db_count = 3 := by
  have main : IP2Location_initialize loc = .ok
      { loc with
        db_type := byte_at loc.sh_mem 0, db_column := byte_at loc.sh_mem 1,
        db_year := byte_at loc.sh_mem 2, db_month := byte_at loc.sh_mem 3,
        db_day := byte_at loc.sh_mem 4, ipv4_db_count := le32_at loc.sh_mem 5,
        ipv4_db_addr := le32_at loc.sh_mem 9, ipv6_db_count := le32_at loc.sh_mem 13,
        ip_version := le32_at loc.sh_mem 13, ipv6_db_addr := le32_at loc.sh_mem 17,
        ipv4_index_db_addr := le32_at loc.sh_mem 21,
        ipv6_index_db_addr := le32_at loc.sh_mem 25 } := by
    unfold IP2Location_initialize
    refine (bind_ok _ (read8_in loc 1 hm (by omega) (by omega) (by norm_num))).trans ?_
    refine (bind_ok _ (read8_in _ 2 (by exact hm) (by omega)
      (by exact (by omega : 2 ≤ loc.sh_mem.length)) (by norm_num))).trans ?_
    refine (bind_ok _ (read8_in _ 3 (by exact hm) (by omega)
      (by exact (by omega : 3 ≤ loc.sh_mem.length)) (by norm_num))).trans ?_
    refine (bind_ok _ (read8_in _ 4 (by exact hm) (by omega)
      (by exact (by omega : 4 ≤ loc.sh_mem.length)) (by norm_num))).trans ?_
    refine (bind_ok _ (read8_in _ 5 (by exact hm) (by omega)
      (by exact (by omega : 5 ≤ loc.sh_mem.length)) (by norm_num))).trans ?_
    refine (bind_ok _ (read32_in _ 6 (by exact hm) (by omega)
      (by exact (by omega : 6 + 3 ≤ loc.sh_mem.length)) (by norm_num))).trans ?_
    refine (bind_ok _ (read32_in _ 10 (by exact hm) (by omega)
      (by exact (by omega : 10 + 3 ≤ loc.sh_mem.length)) (by norm_num))).trans ?_
    refine (bind_ok _ (read32_in _ 14 (by exact hm) (by omega)
      (by exact (by omega : 14 + 3 ≤ loc.sh_mem.length)) (by norm_num))).trans ?_
    refine (bind_ok _ (read32_in _ 14 (by exact hm) (by omega)
      (by exact (by omega : 14 + 3 ≤ loc.sh_mem.length)) (by norm_num))).trans ?_
    refine (bind_ok _ (read32_in _ 18 (by exact hm) (by omega)
      (by exact (by omega : 18 + 3 ≤ loc.sh_mem.length)) (by norm_num))).trans ?_
    refine (bind_ok _ (read32_in _ 22 (by exact hm) (by omega)
      (by exact (by omega : 22 + 3 ≤ loc.sh_mem.length)) (by norm_num))).trans ?_
    refine (bind_ok _ (read32_in _ 26 (by exact hm) (by omega)
      (by exact (by omega : 26 + 3 ≤ loc.sh_mem.length)) (by norm_num))).trans ?_
    rfl
  refine ⟨main, ?_⟩
  intro c rest hmem
  refine ⟨_, main, ?_⟩
  show byte_at loc.sh_mem 0 = 1 ∧ byte_at loc.sh_mem 2 + 2000 = 2020 ∧
    byte_at loc.sh_mem 3 = 1 ∧ byte_at loc.sh_mem 4 = 1 ∧ le32_at loc.sh_mem 5 = 3
  rw [hmem]
  simp [byte_at, le32_at]

theorem header_decoding_witness :
    Mapped (fresh_loc sample_header) ∧ 30 ≤ (fresh_loc sample_header).sh_mem.length ∧
    ∃ loc1, IP2Location_initialize (fresh_loc sample_header) = .ok loc1 ∧
      loc1.db_type = 1 ∧ loc1.db_year + 2000 = 2020 ∧ loc1.db_month = 1 ∧
      loc1.db_day = 1 ∧ loc1.ipv4_db_count = 3 :=
  ⟨by decide, by decide,
   (header_decoding (fresh_loc sample_header) (by decide) (by decide)).2 2
     [31, 0, 0, 0, 0, 0, 0, 0, 0, 0, 0, 0, 0, 0, 0, 0, 0, 0, 0, 0, 7] rfl⟩

/-! ## The permanently bad state -/

/-- C9: whenever `open_file` returns, it has set `ip2loc_bad` exactly when
it decoded a header (it returns that database structure) whose `db_day` is
outside 1..31, or whose `db_month` is outside 1..12, or whose `db_year + 2000`
is greater than the current local year; on the paths that fail before the
header is decoded the flag is not set. -/
theorem plausibility_check_is_date_test (w : World) (g g1 : Globals)
    (r : Option IP2Location) (hb : g.ip2loc_bad = false)
    (h : open_file w g = .ok (r, g1)) :
    g1.ip2loc_bad = true ↔
      ∃ loc, r = some loc ∧
        (¬ (1 ≤ loc.db_day ∧ loc.db_day ≤ 31) ∨ ¬ (1 ≤ loc.db_month ∧ loc.db_month ≤ 12) ∨
          loc.db_year + 2000 > w.wYear) := by
  have hj : ∀ loc : IP2Location, junk_date loc w.wYear = true ↔
      (¬ (1 ≤ loc.db_day ∧ loc.db_day ≤ 31) ∨ ¬ (1 ≤ loc.db_month ∧ loc.db_month ≤ 12) ∨
          loc.db_year + 2000 > w.wYear) := by
    intro loc
    simp only [junk_date, Bool.or_eq_true, beq_iff_eq, decide_eq_true_eq]
    omega
  unfold open_file at h
  split at h
  · cases h
    simp [hb]
  · split at h
    · cases h
      simp [hb]
    · simp only [] at h
      split at h
      · cases h
        simp [hb]
      · cases hi : IP2Location_initialize
            (IP2Location_DB_set_shared_memory w _ { calloc_loc with file_open := true }).2 with
        | error e => rw [hi] at h; cases h
        | ok loc0 =>
          rw [hi] at h
          simp only [bind, Except.bind, pure, Except.pure] at h
          split at h <;> split at h <;> rename_i hjd <;> cases h <;>
            first
            | (simp only [ip2loc_exit, true_iff]
               exact ⟨_, rfl, (hj _).mp hjd⟩)
            | (simp only [hb, Bool.false_eq_true, false_iff]
               rintro ⟨loc, hloc, hc⟩
               cases hloc
               exact hjd ((hj _).mpr hc))

theorem plausibility_check_is_date_test_witness :
    ∃ loc g1, open_file (good_world junk_header 2026) start_globals = .ok (some loc, g1) ∧
      loc.db_month = 13 ∧ g1.ip2loc_bad = true ∧
      (g1.ip2loc_bad = true ↔
        ∃ loc1, some loc = some loc1 ∧
          (¬ (1 ≤ loc1.db_day ∧ loc1.db_day ≤ 31) ∨
            ¬ (1 ≤ loc1.db_month ∧ loc1.db_month ≤ 12) ∨
            loc1.db_year + 2000 > (good_world junk_header 2026).wYear)) :=
  ⟨_, _, rfl, rfl, rfl,
   plausibility_check_is_date_test (good_world junk_header 2026) start_globals _ _ rfl rfl⟩

theorem get_ipv4_entry_keeps_bad (fuel : Nat) (stack : ipv_t) (g : Globals) (addr : Nat)
    (out : ip2loc_entry) (r : Bool × ip2loc_entry × Globals)
    (h : ip2loc_get_ipv4_entry fuel stack g addr out = .ok r) :
    r.2.2.ip2loc_bad = g.ip2loc_bad := by
  simp only [ip2loc_get_ipv4_entry, bind, Except.bind, pure, Except.pure] at h
  split at h
  · cases h
  · split at h
    · cases h
    · split at h <;> cases h <;> rfl

theorem get_ipv6_entry_keeps_bad (fuel : Nat) (stack : ipv_t) (g : Globals)
    (addr : List Nat) (out : ip2loc_entry) (r : Bool × ip2loc_entry × Globals)
    (h : ip2loc_get_ipv6_entry fuel stack g addr out = .ok r) :
    r.2.2.ip2loc_bad = g.ip2loc_bad := by
  simp only [ip2loc_get_ipv6_entry, bind, Except.bind, pure, Except.pure] at h
  split at h
  · cases h
  · split at h
    · cases h
    · split at h <;> cases h <;> rfl

theorem step_keeps_bad (g g1 : Globals) (op : Op) (hb : g.ip2loc_bad = true)
    (h : step g op = .ok g1) : g1.ip2loc_bad = true := by
  cases op with
  | init cfg w =>
    simp only [step, ip2loc_init, hb, Bool.or_true, if_true, bind, Except.bind, pure,
      Except.pure] at h
    cases h
    exact hb
  | exit =>
    simp only [step, pure, Except.pure] at h
    cases h
    exact hb
  | num_ipv4_entries =>
    simp only [step, pure, Except.pure] at h
    cases h
    exact hb
  | num_ipv6_entries =>
    simp only [step, pure, Except.pure] at h
    cases h
    exact hb
  | index_errors =>
    simp only [step, pure, Except.pure] at h
    cases h
    exact hb
  | get_ipv4_entry fuel stack addr out =>
    simp only [step, bind, Except.bind, pure, Except.pure] at h
    split at h
    · cases h
    · rename_i r hr
      cases h
      rw [get_ipv4_entry_keeps_bad fuel stack g addr out r hr]
      exact hb
  | get_ipv6_entry fuel stack addr out =>
    simp only [step, bind, Except.bind, pure, Except.pure] at h
    split at h
    · cases h
    · rename_i r hr
      cases h
      rw [get_ipv6_entry_keeps_bad fuel stack g addr out r hr]
      exact hb

theorem run_keeps_bad (ops : List Op) : ∀ (g g1 : Globals), g.ip2loc_bad = true →
    run g ops = .ok g1 → g1.ip2loc_bad = true := by
  induction ops with
  | nil =>
    intro g g1 hb h
    simp only [run, pure, Except.pure] at h
    cases h
    exact hb
  | cons op ops ih =>
    intro g g1 hb h
    simp only [run, bind, Except.bind] at h
    cases hs : step g op with
    | error e => rw [hs] at h; cases h
    | ok g2 =>
      rw [hs] at h
      exact ih g2 g1 (step_keeps_bad g g2 op hb hs) h

/-- C10: from a state in which `ip2loc_bad` is set, after any sequence of
calls of the functions `ip2loc.c` exports the flag is still set, and every
`ip2loc_init` then returns FALSE and leaves the whole file-scope state as it
was: `ip2loc_handle` is unchanged and `fopen_excl` has not been called,
whatever the configuration and the file system. -/
theorem bad_reader_is_never_reopened (g g1 : Globals) (ops : List Op) (cfg : Config)
    (w : World) (hb : g.ip2loc_bad = true) (hr : run g ops = .ok g1) :
    g1.ip2loc_bad = true ∧ ip2loc_init cfg w g1 = .ok (false, g1) := by
  have hb1 := run_keeps_bad ops g g1 hb hr
  refine ⟨hb1, ?_⟩
  simp only [ip2loc_init, hb1, Bool.or_true, if_true, pure, Except.pure]

theorem bad_reader_is_never_reopened_witness :
    bad_globals.ip2loc_bad = true ∧
    run bad_globals [Op.exit, Op.index_errors,
      Op.init enabled_config (good_world sample_header 2026)] = .ok bad_globals ∧
    bad_globals.ip2loc_bad = true ∧
    ip2loc_init enabled_config (good_world sample_header 2026) bad_globals
      = .ok (false, bad_globals) :=
  ⟨rfl, rfl,
   bad_reader_is_never_reopened bad_globals bad_globals
     [Op.exit, Op.index_errors, Op.init enabled_config (good_world sample_header 2026)]
     enabled_config (good_world sample_header 2026) rfl rfl⟩

/-! ## IPv4 lookup -/

theorem ipv4_read_row (loc : IP2Location) (hm : Mapped loc) (hin : ipv4_rows_inside loc)
    (j : Nat) (hj : j ≤ loc.ipv4_db_count) :
    IP2Location_read32 loc ((loc.ipv4_db_addr + j * (loc.db_column * 4)) % 2 ^ 32)
      = .ok (ipv4_row_start loc j, loc) := by
  obtain ⟨h1, h2, h3⟩ := hin
  have hle : j * (loc.db_column * 4) ≤ loc.ipv4_db_count * (loc.db_column * 4) :=
    Nat.mul_le_mul_right _ hj
  rw [Nat.mod_eq_of_lt (by omega)]
  exact read32_in loc _ hm (by omega) (by omega) (by omega)

theorem ipv4_row_start_mono (loc : IP2Location) (hinc : ipv4_rows_increasing loc)
    (j : Nat) : ∀ k, j ≤ k → k ≤ loc.ipv4_db_count →
      ipv4_row_start loc j ≤ ipv4_row_start loc k := by
  intro k
  induction k with
  | zero =>
    intro hjk _
    have : j = 0 := by omega
    subst this
    exact Nat.le_refl _
  | succ k ih =>
    intro hjk hk
    rcases Nat.eq_or_lt_of_le hjk with h | h
    · subst h
      exact Nat.le_refl _
    · have h1 := ih (by omega) (by omega)
      have h2 := hinc k (by omega)
      omega

theorem ipv4_loop_finds (loc : IP2Location) (mode ipno : Nat) (out : ip2loc_entry) (i : Nat)
    (hm : Mapped loc) (hin : ipv4_rows_inside loc) (hinc : ipv4_rows_increasing loc)
    (hi : i < loc.ipv4_db_count) (hlo : ipv4_row_start loc i ≤ ipno)
    (hhi : ipno < ipv4_row_start loc (i + 1)) :
    ∀ (fuel low high : Nat), low ≤ i → i ≤ high → high ≤ loc.ipv4_db_count →
      high - low < fuel →
      IP2Location_get_ipv4_loop loc.ipv4_db_addr loc.db_column ipno mode out fuel loc low high
        = found_at loc (loc.ipv4_db_addr + i * (loc.db_column * 4)) mode out := by
  have hcpos : 1 ≤ loc.db_column := by
    rcases Nat.eq_zero_or_pos loc.db_column with h0 | h0
    · have := hinc 0 (by omega)
      simp [ipv4_row_start, h0] at this
    · exact h0
  have hN : loc.ipv4_db_count * (loc.db_column * 4) + 4 ≤ 2 ^ 32 := by
    have := hin.2.2; have := hin.1; omega
  have hcl : loc.db_column * 4 ≤ loc.ipv4_db_count * (loc.db_column * 4) :=
    Nat.le_mul_of_pos_left _ (by omega)
  have hcol : loc.db_column * 4 % 2 ^ 32 = loc.db_column * 4 :=
    Nat.mod_eq_of_lt (by omega)
  have hcnt : loc.ipv4_db_count * 4 ≤ loc.ipv4_db_count * (loc.db_column * 4) :=
    Nat.mul_le_mul_left _ (by omega)
  intro fuel
  induction fuel with
  | zero => intro low high _ _ _ hf; omega
  | succ fuel ih =>
    intro low high hl hh hN' hf
    have hsum : (low + high) % 2 ^ 32 = low + high := Nat.mod_eq_of_lt (by omega)
    have hmid : ((low + high) % 2 ^ 32) >>> 1 = (low + high) / 2 := by
      rw [hsum, Nat.shiftRight_eq_div_pow]
    have hmidlt : (low + high) / 2 < loc.ipv4_db_count := by omega
    have hr1 := ipv4_read_row loc hm hin ((low + high) / 2) (by omega)
    have hr2 := ipv4_read_row loc hm hin ((low + high) / 2 + 1) (by omega)
    have hrow : (loc.ipv4_db_addr + (low + high) / 2 * (loc.db_column * 4)) % 2 ^ 32
        = loc.ipv4_db_addr + (low + high) / 2 * (loc.db_column * 4) := by
      have : (low + high) / 2 * (loc.db_column * 4)
          ≤ loc.ipv4_db_count * (loc.db_column * 4) := Nat.mul_le_mul_right _ (by omega)
      have := hin.2.2
      exact Nat.mod_eq_of_lt (by omega)
    rw [IP2Location_get_ipv4_loop]
    simp only [if_pos (Nat.le_trans hl hh), hcol, hmid, hr1, hr2, bind, Except.bind]
    rcases Nat.lt_trichotomy ((low + high) / 2) i with hlt | heq | hgt
    · have h1 := ipv4_row_start_mono loc hinc ((low + high) / 2 + 1) i (by omega) (by omega)
      have h2 := hinc ((low + high) / 2) (by omega)
      have hc : ¬ (ipno ≥ ipv4_row_start loc ((low + high) / 2) ∧
          ipno < ipv4_row_start loc ((low + high) / 2 + 1)) := by omega
      have hc2 : ¬ (ipno < ipv4_row_start loc ((low + high) / 2)) := by omega
      have hnext : ((low + high) / 2 + 1) % 2 ^ 32 = (low + high) / 2 + 1 :=
        Nat.mod_eq_of_lt (by omega)
      rw [if_neg hc, if_neg hc2, hnext]
      exact ih _ _ (by omega) hh hN' (by omega)
    · have hc : ipno ≥ ipv4_row_start loc ((low + high) / 2) ∧
          ipno < ipv4_row_start loc ((low + high) / 2 + 1) := by
        rw [heq]; exact ⟨hlo, hhi⟩
      rw [if_pos hc, hrow, heq]
      rfl
    · have h1 := ipv4_row_start_mono loc hinc (i + 1) ((low + high) / 2) (by omega) (by omega)
      have hc : ¬ (ipno ≥ ipv4_row_start loc ((low + high) / 2) ∧
          ipno < ipv4_row_start loc ((low + high) / 2 + 1)) := by omega
      have hc2 : ipno < ipv4_row_start loc ((low + high) / 2) := by omega
      have hprev : ((low + high) / 2 + 2 ^ 32 - 1) % 2 ^ 32 = (low + high) / 2 - 1 := by
        omega
      rw [if_neg hc, if_pos hc2, hprev]
      exact ih _ _ hl (by omega) (by omega) (by omega)

/-- C1: in a mapped database with no IPv4 index table whose IPv4 rows lie
inside the mapped region and have strictly increasing start addresses, for
every row `i < ipv4_db_count` and every address other than 0xFFFFFFFF with
`row[i].start ≤ a < row[i+1].start`, `IP2Location_get_ipv4_record` (given
more iterations than there are rows) returns TRUE with the record read from
row `i`, at row address `ipv4_db_addr + i * db_column * 4`; and the address
equal to `row[i+1].start` gets the record of row `i+1`, whose row address
differs from that of row `i`. -/
theorem ipv4_lookup_returns_the_row (loc : IP2Location) (mode : Nat) (parsed_ipv : ipv_t)
    (out : ip2loc_entry) (i fuel : Nat) (hm : Mapped loc)
    (hidx : loc.ipv4_index_db_addr = 0) (hin : ipv4_rows_inside loc)
    (hinc : ipv4_rows_increasing loc) (hi : i < loc.ipv4_db_count)
    (ha : parsed_ipv.ipv4 ≠ 4294967295) (hlo : ipv4_row_start loc i ≤ parsed_ipv.ipv4)
    (hhi : parsed_ipv.ipv4 < ipv4_row_start loc (i + 1)) (hfuel : loc.ipv4_db_count < fuel) :
    IP2Location_get_ipv4_record fuel loc mode parsed_ipv out
      = found_at loc (loc.ipv4_db_addr + i * (loc.db_column * 4)) mode out ∧
    (i + 1 < loc.ipv4_db_count →
      IP2Location_get_ipv4_record fuel loc mode
          { parsed_ipv with ipv4 := ipv4_row_start loc (i + 1) } out
        = found_at loc (loc.ipv4_db_addr + (i + 1) * (loc.db_column * 4)) mode out ∧
      loc.ipv4_db_addr + (i + 1) * (loc.db_column * 4)
        ≠ loc.ipv4_db_addr + i * (loc.db_column * 4)) := by
  have key : ∀ (a k : Nat), k < loc.ipv4_db_count → a ≠ 4294967295 →
      ipv4_row_start loc k ≤ a → a < ipv4_row_start loc (k + 1) →
      IP2Location_get_ipv4_record fuel loc mode { parsed_ipv with ipv4 := a } out
        = found_at loc (loc.ipv4_db_addr + k * (loc.db_column * 4)) mode out := by
    intro a k hk hne h1 h2
    have hloop := ipv4_loop_finds loc mode a out k hm hin hinc hk h1 h2 fuel 0
      loc.ipv4_db_count (Nat.zero_le _) (Nat.le_of_lt hk) (Nat.le_refl _) (by omega)
    simp only [IP2Location_get_ipv4_record, MAX_IPV4_RANGE, hidx, if_neg hne,
      gt_iff_lt, Nat.lt_irrefl, if_false, bind, Except.bind, pure, Except.pure]
    exact hloop
  refine ⟨key parsed_ipv.ipv4 i hi ha hlo hhi, ?_⟩
  intro hi1
  refine ⟨key _ (i + 1) hi1 ?_ (Nat.le_refl _) (hinc (i + 1) hi1), ?_⟩
  · have h1 := hinc (i + 1) hi1
    have h2 := le32_at_lt loc.sh_mem
      (loc.ipv4_db_addr + (i + 1 + 1) * (loc.db_column * 4) - 1)
    simp only [ipv4_row_start] at h1 ⊢
    omega
  · have hc : loc.db_column ≠ 0 := by
      intro h0
      have := hinc 0 (by omega)
      simp [ipv4_row_start, h0] at this
    have : i * (loc.db_column * 4) < (i + 1) * (loc.db_column * 4) :=
      Nat.mul_lt_mul_of_pos_right (Nat.lt_succ_self i) (by omega)
    omega

theorem ipv4_lookup_returns_the_row_witness :
    Mapped sample_loc ∧ ipv4_rows_inside sample_loc ∧ ipv4_rows_increasing sample_loc ∧
    ipv4_row_start sample_loc 1 = 16777216 ∧ ipv4_row_start sample_loc 2 = 33554432 ∧
    IP2Location_get_ipv4_record 4 sample_loc IP2LOC_FLAGS
        { ip_ver := 4, ipv4 := 16909060, ipv6 := [] } blank_entry
      = .ok (true, { blank_entry with country_short := [85, 83, 0] }, sample_loc) ∧
    IP2Location_get_ipv4_record 4 sample_loc IP2LOC_FLAGS
        { ip_ver := 4, ipv4 := 33554432, ipv6 := [] } blank_entry
      = .ok (true, { blank_entry with country_short := [78, 79, 0] }, sample_loc) := by
  have hinc : ipv4_rows_increasing sample_loc := by
    intro j hj
    have : j = 0 ∨ j = 1 ∨ j = 2 := by
      have : j < 3 := hj
      omega
    rcases this with h | h | h <;> subst h <;> decide
  have h := ipv4_lookup_returns_the_row sample_loc IP2LOC_FLAGS
    { ip_ver := 4, ipv4 := 16909060, ipv6 := [] } blank_entry 1 4 (by decide) rfl
    (by decide) hinc (by decide) (by decide) (by decide) (by decide) (by decide)
  exact ⟨by decide, by decide, hinc, rfl, rfl, h.1, (h.2 (by decide)).1⟩

/-! ## IPv6 comparison and lookup -/

theorem getD_lt_of_bytes (a : List Nat) (ha : ∀ x ∈ a, x < 256) (k : Nat) :
    a.getD k 0 < 256 := by
  rcases Nat.lt_or_ge k a.length with h | h
  · rw [List.getD_eq_getElem _ _ h]
    exact ha _ (List.getElem_mem h)
  · rw [List.getD_eq_default _ _ h]
    norm_num

theorem in6_value_from_lt (a : List Nat) (ha : ∀ x ∈ a, x < 256) :
    ∀ n i, in6_value_from a n i < 256 ^ n := by
  intro n
  induction n with
  | zero => intro i; simp [in6_value_from]
  | succ n ih =>
    intro i
    have h1 := getD_lt_of_bytes a ha i
    have h2 := ih (i + 1)
    have h3 : (a.getD i 0 + 1) * 256 ^ n ≤ 256 * 256 ^ n := Nat.mul_le_mul_right _ h1
    rw [Nat.add_mul, Nat.one_mul] at h3
    simp only [in6_value_from, pow_succ]
    omega

/-- The loop of `ipv6_compare` orders addresses as their 128-bit numbers. -/
theorem ipv6_compare_from_eq (a b : List Nat) (ha : ∀ x ∈ a, x < 256)
    (hb : ∀ x ∈ b, x < 256) : ∀ n i,
    ipv6_compare_from a b n i =
      if in6_value_from a n i < in6_value_from b n i then -1
      else if in6_value_from a n i = in6_value_from b n i then 0 else 1 := by
  intro n
  induction n with
  | zero => intro i; simp [ipv6_compare_from, in6_value_from]
  | succ n ih =>
    intro i
    have ra := in6_value_from_lt a ha n (i + 1)
    have rb := in6_value_from_lt b hb n (i + 1)
    simp only [ipv6_compare_from, in6_value_from]
    rw [ih (i + 1)]
    rcases Nat.lt_trichotomy (a.getD i 0) (b.getD i 0) with h | h | h
    · have h3 : (a.getD i 0 + 1) * 256 ^ n ≤ b.getD i 0 * 256 ^ n :=
        Nat.mul_le_mul_right _ h
      rw [Nat.add_mul, Nat.one_mul] at h3
      split_ifs <;> first | rfl | (exfalso; omega)
    · have h3 : a.getD i 0 * 256 ^ n = b.getD i 0 * 256 ^ n := by rw [h]
      split_ifs <;> first | rfl | (exfalso; omega)
    · have h3 : (b.getD i 0 + 1) * 256 ^ n ≤ a.getD i 0 * 256 ^ n :=
        Nat.mul_le_mul_right _ h
      rw [Nat.add_mul, Nat.one_mul] at h3
      split_ifs <;> first | rfl | (exfalso; omega)

theorem ipv6_compare_lt_iff (a b : List Nat) (ha : ∀ x ∈ a, x < 256)
    (hb : ∀ x ∈ b, x < 256) : ipv6_compare a b < 0 ↔ in6_value a < in6_value b := by
  unfold ipv6_compare in6_value
  rw [ipv6_compare_from_eq a b ha hb]
  split
  · simp [*]
  · split <;> simp [*]

theorem ipv6_bytes_at_bytes (mem : List Nat) (p : Nat) :
    ∀ n, ∀ x ∈ ipv6_bytes_at mem p n, x < 256 := by
  intro n
  induction n with
  | zero => intro x hx; simp [ipv6_bytes_at] at hx
  | succ n ih =>
    intro x hx
    simp only [ipv6_bytes_at, List.mem_cons] at hx
    rcases hx with h | h
    · rw [h]; exact byte_at_lt _ _
    · exact ih x h

theorem read_ipv6_addr_from_in (loc : IP2Location) (p : Nat) (hm : Mapped loc)
    (h1 : 1 ≤ p) : ∀ n, p + n ≤ loc.sh_mem.length + 1 → p + n ≤ 2 ^ 32 →
      IP2Location_read_ipv6_addr_from p n loc = .ok (ipv6_bytes_at loc.sh_mem p n, loc) := by
  intro n
  induction n with
  | zero => intro _ _; rfl
  | succ n ih =>
    intro h2 h3
    have hpos : (p + n) % 2 ^ 32 = p + n := Nat.mod_eq_of_lt (by omega)
    rw [IP2Location_read_ipv6_addr_from, hpos]
    refine (bind_ok _ (read8_in loc (p + n) hm (by omega) (by omega) (by omega))).trans ?_
    refine (bind_ok _ (ih (by omega) (by omega))).trans ?_
    rfl

/-- The bytes read for a row start, taken as an `in6_addr`, hold the number
stored least significant byte first at the row's position. -/
theorem in6_value_bytes_at (mem : List Nat) (p : Nat) (h1 : 1 ≤ p) :
    in6_value (ipv6_bytes_at mem p 16) = le_value_at mem (p - 1) 16 := by
  obtain ⟨q, rfl⟩ : ∃ q, p = q + 1 := ⟨p - 1, by omega⟩
  have e : ∀ n, q + 1 + n - 1 = q + n := fun n => by omega
  simp only [in6_value, in6_value_from, ipv6_bytes_at, le_value_at, e,
    List.getD_cons_zero, List.getD_cons_succ, Nat.add_sub_cancel]
  ring

theorem ipv6_compare_ge_iff (a b : List Nat) (ha : ∀ x ∈ a, x < 256)
    (hb : ∀ x ∈ b, x < 256) : ipv6_compare a b ≥ 0 ↔ in6_value b ≤ in6_value a := by
  have h := ipv6_compare_lt_iff a b ha hb
  constructor
  · intro h1
    by_contra hc
    have := h.mpr (by omega)
    omega
  · intro h1
    by_contra hc
    have := h.mp (by omega)
    omega

theorem ipv6_read_row (loc : IP2Location) (hm : Mapped loc) (hin : ipv6_rows_inside loc)
    (j : Nat) (hj : j ≤ loc.ipv6_db_count) :
    IP2Location_read_ipv6_addr loc
        ((loc.ipv6_db_addr + j * (loc.db_column * 4 + 12)) % 2 ^ 32)
      = .ok (ipv6_bytes_at loc.sh_mem (ipv6_row_pos loc j) 16, loc) ∧
    in6_value (ipv6_bytes_at loc.sh_mem (ipv6_row_pos loc j) 16) = ipv6_row_start loc j := by
  obtain ⟨h1, h2, h3⟩ := hin
  have hle : j * (loc.db_column * 4 + 12) ≤ loc.ipv6_db_count * (loc.db_column * 4 + 12) :=
    Nat.mul_le_mul_right _ hj
  simp only [ipv6_row_pos] at h2 h3
  constructor
  · rw [Nat.mod_eq_of_lt (by omega)]
    exact read_ipv6_addr_from_in loc _ hm (by omega) 16 (by omega) (by omega)
  · exact in6_value_bytes_at loc.sh_mem _ (by simp only [ipv6_row_pos]; omega)

theorem ipv6_row_start_mono (loc : IP2Location) (hinc : ipv6_rows_increasing loc)
    (j : Nat) : ∀ k, j ≤ k → k ≤ loc.ipv6_db_count →
      ipv6_row_start loc j ≤ ipv6_row_start loc k := by
  intro k
  induction k with
  | zero =>
    intro hjk _
    have : j = 0 := by omega
    subst this
    exact Nat.le_refl _
  | succ k ih =>
    intro hjk hk
    rcases Nat.eq_or_lt_of_le hjk with h | h
    · subst h
      exact Nat.le_refl _
    · have h1 := ih (by omega) (by omega)
      have h2 := hinc k (by omega)
      omega

theorem ipv6_loop_finds (loc : IP2Location) (mode : Nat) (ipno : List Nat)
    (out : ip2loc_entry) (i : Nat) (hm : Mapped loc) (hin : ipv6_rows_inside loc)
    (hinc : ipv6_rows_increasing loc) (hb : ∀ x ∈ ipno, x < 256)
    (hi : i < loc.ipv6_db_count) (hlo : ipv6_row_start loc i ≤ in6_value ipno)
    (hhi : in6_value ipno < ipv6_row_start loc (i + 1)) :
    ∀ (fuel low high : Nat), low ≤ i → i ≤ high → high ≤ loc.ipv6_db_count →
      high - low < fuel →
      IP2Location_get_ipv6_loop loc.ipv6_db_addr loc.db_column ipno mode out fuel loc low high
        = found_at loc (ipv6_row_pos loc i + 12) mode out := by
  have hN : loc.ipv6_db_count * (loc.db_column * 4 + 12) + 16 ≤ 2 ^ 32 := by
    have h3 := hin.2.2
    have h1 := hin.1
    simp only [ipv6_row_pos] at h3
    omega
  have hcl : loc.db_column * 4 + 12 ≤ loc.ipv6_db_count * (loc.db_column * 4 + 12) :=
    Nat.le_mul_of_pos_left _ (by omega)
  have hcol : (loc.db_column * 4 + 12) % 2 ^ 32 = loc.db_column * 4 + 12 :=
    Nat.mod_eq_of_lt (by omega)
  have hcnt : loc.ipv6_db_count * 12 ≤ loc.ipv6_db_count * (loc.db_column * 4 + 12) :=
    Nat.mul_le_mul_left _ (by omega)
  intro fuel
  induction fuel with
  | zero => intro low high _ _ _ hf; omega
  | succ fuel ih =>
    intro low high hl hh hN' hf
    have hsum : (low + high) % 2 ^ 32 = low + high := Nat.mod_eq_of_lt (by omega)
    have hmid : ((low + high) % 2 ^ 32) >>> 1 = (low + high) / 2 := by
      rw [hsum, Nat.shiftRight_eq_div_pow]
    have hmidlt : (low + high) / 2 < loc.ipv6_db_count := by omega
    obtain ⟨hr1, hv1⟩ := ipv6_read_row loc hm hin ((low + high) / 2) (by omega)
    obtain ⟨hr2, hv2⟩ := ipv6_read_row loc hm hin ((low + high) / 2 + 1) (by omega)
    have hb1 := ipv6_bytes_at_bytes loc.sh_mem (ipv6_row_pos loc ((low + high) / 2)) 16
    have hb2 := ipv6_bytes_at_bytes loc.sh_mem (ipv6_row_pos loc ((low + high) / 2 + 1)) 16
    have hrow : (loc.ipv6_db_addr + (low + high) / 2 * (loc.db_column * 4 + 12) + 12) % 2 ^ 32
        = loc.ipv6_db_addr + (low + high) / 2 * (loc.db_column * 4 + 12) + 12 := by
      have : (low + high) / 2 * (loc.db_column * 4 + 12)
          ≤ loc.ipv6_db_count * (loc.db_column * 4 + 12) := Nat.mul_le_mul_right _ (by omega)
      have := hin.2.2
      simp only [ipv6_row_pos] at this
      exact Nat.mod_eq_of_lt (by omega)
    rw [IP2Location_get_ipv6_loop]
    rw [if_pos (Nat.le_trans hl hh)]
    simp only [hcol, hmid]
    refine (bind_ok _ hr1).trans ?_
    refine (bind_ok _ hr2).trans ?_
    simp only [ipv6_compare_ge_iff ipno _ hb hb1, ipv6_compare_lt_iff ipno _ hb hb1,
      ipv6_compare_lt_iff ipno _ hb hb2, hv1, hv2]
    rcases Nat.lt_trichotomy ((low + high) / 2) i with hlt | heq | hgt
    · have h1 := ipv6_row_start_mono loc hinc ((low + high) / 2 + 1) i (by omega) (by omega)
      have h2 := hinc ((low + high) / 2) (by omega)
      have hc : ¬ (ipv6_row_start loc ((low + high) / 2) ≤ in6_value ipno ∧
          in6_value ipno < ipv6_row_start loc ((low + high) / 2 + 1)) := by omega
      have hc2 : ¬ (in6_value ipno < ipv6_row_start loc ((low + high) / 2)) := by omega
      have hnext : ((low + high) / 2 + 1) % 2 ^ 32 = (low + high) / 2 + 1 :=
        Nat.mod_eq_of_lt (by omega)
      rw [if_neg hc, if_neg hc2, hnext]
      exact ih _ _ (by omega) hh hN' (by omega)
    · have hc : ipv6_row_start loc ((low + high) / 2) ≤ in6_value ipno ∧
          in6_value ipno < ipv6_row_start loc ((low + high) / 2 + 1) := by
        rw [heq]; exact ⟨hlo, hhi⟩
      rw [if_pos hc, hrow, heq]
      rfl
    · have h1 := ipv6_row_start_mono loc hinc (i + 1) ((low + high) / 2) (by omega) (by omega)
      have hc : ¬ (ipv6_row_start loc ((low + high) / 2) ≤ in6_value ipno ∧
          in6_value ipno < ipv6_row_start loc ((low + high) / 2 + 1)) := by omega
      have hc2 : in6_value ipno < ipv6_row_start loc ((low + high) / 2) := by omega
      have hprev : ((low + high) / 2 + 2 ^ 32 - 1) % 2 ^ 32 = (low + high) / 2 - 1 := by
        omega
      rw [if_neg hc, if_pos hc2, hprev]
      exact ih _ _ hl (by omega) (by omega) (by omega)

/-- C8: in a mapped database with `ipv6_db_count > 0`, no IPv6 index table,
and IPv6 rows of width `db_column * 4 + 12` that lie inside the mapped region
and whose 128-bit start addresses (16 bytes, least significant first, at the
start of each row) are strictly increasing, for every row `i < ipv6_db_count`
and every address `a` with `row[i].start ≤ a < row[i+1].start` (`a` read as a
128-bit number, byte 0 most significant), `IP2Location_get_ipv6_record` (given
more iterations than there are rows) returns TRUE with the record read from
the columns that begin 12 bytes into row `i`. -/
theorem ipv6_lookup_returns_the_row (loc : IP2Location) (mode : Nat) (parsed_ipv : ipv_t)
    (out : ip2loc_entry) (i fuel : Nat) (hm : Mapped loc)
    (hidx : loc.ipv6_index_db_addr = 0) (hin : ipv6_rows_inside loc)
    (hinc : ipv6_rows_increasing loc) (hb : ∀ x ∈ parsed_ipv.ipv6, x < 256)
    (hi : i < loc.ipv6_db_count) (hlo : ipv6_row_start loc i ≤ in6_value parsed_ipv.ipv6)
    (hhi : in6_value parsed_ipv.ipv6 < ipv6_row_start loc (i + 1))
    (hfuel : loc.ipv6_db_count < fuel) :
    0 < loc.ipv6_db_count ∧
    IP2Location_get_ipv6_record fuel loc mode parsed_ipv out
      = found_at loc (loc.ipv6_db_addr + i * (loc.db_column * 4 + 12) + 12) mode out := by
  have hloop := ipv6_loop_finds loc mode parsed_ipv.ipv6 out i hm hin hinc hb hi hlo hhi fuel 0
    loc.ipv6_db_count (Nat.zero_le _) (Nat.le_of_lt hi) (Nat.le_refl _) (by omega)
  have hne : ¬ (loc.ipv6_db_count = 0) := by omega
  refine ⟨by omega, ?_⟩
  simp only [IP2Location_get_ipv6_record, hidx, if_neg hne, gt_iff_lt, Nat.lt_irrefl,
    if_false, bind, Except.bind, pure, Except.pure]
  exact hloop

theorem ipv6_lookup_returns_the_row_witness :
    Mapped sample_loc6 ∧ ipv6_rows_inside sample_loc6 ∧ ipv6_rows_increasing sample_loc6 ∧
    ipv6_row_start sample_loc6 1 = 32 * 256 ^ 15 ∧
    in6_value sample_addr6 = 32 * 256 ^ 15 + 256 ^ 14 + 13 * 256 ^ 13 + 184 * 256 ^ 12 + 1 ∧
    ipv6_row_start sample_loc6 2 = 48 * 256 ^ 15 ∧
    IP2Location_get_ipv6_record 3 sample_loc6 IP2LOC_FLAGS
        { ip_ver := 6, ipv4 := 0, ipv6 := sample_addr6 } blank_entry
      = .ok (true, { blank_entry with country_short := [85, 83, 0] }, sample_loc6) := by
  have hinc : ipv6_rows_increasing sample_loc6 := by
    intro j hj
    have : j = 0 ∨ j = 1 := by
      have : j < 2 := hj
      omega
    rcases this with h | h <;> subst h <;> decide
  have h := ipv6_lookup_returns_the_row sample_loc6 IP2LOC_FLAGS
    { ip_ver := 6, ipv4 := 0, ipv6 := sample_addr6 } blank_entry 1 3 (by decide) rfl
    (by decide) hinc (by decide) (by decide) (by decide) (by decide) (by decide)
  exact ⟨by decide, by decide, hinc, by decide, by decide, by decide, h.2⟩

/-! ## CIDR membership -/

theorem le_lor (x y : Nat) : x ≤ x ||| y := by
  have h : (x ||| y) &&& x = x := by
    apply Nat.eq_of_testBit_eq
    intro i
    rw [Nat.testBit_and, Nat.testBit_or]
    cases x.testBit i <;> simp
  calc x = (x ||| y) &&& x := h.symm
    _ ≤ x ||| y := Nat.and_le_left

theorem pairwise_get? {α : Type} {R : α → α → Prop} {l : List α} (h : l.Pairwise R)
    {i j : Nat} (hij : i < j) {x y : α} (hx : l.get? i = some x) (hy : l.get? j = some y) :
    R x y := by
  rw [List.get?_eq_getElem?, List.getElem?_eq_some] at hx hy
  obtain ⟨hi, rfl⟩ := hx
  obtain ⟨hj, rfl⟩ := hy
  exact List.pairwise_iff_getElem.mp h i j hi hj hij

/-- The network of an IPv4 entry lies in the entry's own range. -/
theorem DNSBL_range4_network (e : DNSBL_info) :
    (DNSBL_range4 e).1 ≤ swap32 e.ip4_network ∧ swap32 e.ip4_network ≤ (DNSBL_range4 e).2 :=
  ⟨Nat.and_le_left, le_lor _ _⟩

/-- On a well-formed IPv4 entry the containment comparator says where the
address lies with respect to the entry's range. -/
theorem compare_is_on_net4_eq (ia : Nat) (e : DNSBL_info) (hf : e.family = AF_INET)
    (hok : DNSBL_entry_ok e) :
    DNSBL_compare_is_on_net4 ia e =
      if swap32 ia < (DNSBL_range4 e).1 then -1
      else if swap32 ia > (DNSBL_range4 e).2 then 1 else 0 := by
  have hmask := hok.2 hf
  simp only [DNSBL_compare_is_on_net4, hf, ne_eq, not_true_eq_false, if_false,
    INET_util_range4cmp, DNSBL_range4, hmask]

/-- Entries of a sorted list of disjoint ranges that precede a covering entry
lie below the address, those that follow it lie above or are IPv6. -/
theorem compare_is_on_net4_sides (sl : List DNSBL_info) (ia t : Nat) (E : DNSBL_info)
    (hE : sl.get? t = some E) (hcov : DNSBL_covers4 E ia)
    (hsorted : sl.Pairwise fun x y => DNSBL_compare_net x y ≤ 0)
    (hdisj : sl.Pairwise DNSBL_disjoint4) (hok : ∀ e ∈ sl, DNSBL_entry_ok e)
    (m : Nat) (M : DNSBL_info) (hM : sl.get? m = some M) :
    (m < t → DNSBL_compare_is_on_net4 ia M > 0) ∧
    (m = t → DNSBL_compare_is_on_net4 ia M = 0) ∧
    (t < m → DNSBL_compare_is_on_net4 ia M < 0) := by
  obtain ⟨hEf, hElo, hEhi⟩ := hcov
  have hEok := hok E (List.mem_iff_get?.mpr ⟨t, hE⟩)
  have hMok := hok M (List.mem_iff_get?.mpr ⟨m, hM⟩)
  have hEnet := DNSBL_range4_network E
  have hMnet := DNSBL_range4_network M
  refine ⟨?_, ?_, ?_⟩
  · intro hlt
    have hs := pairwise_get? hsorted hlt hM hE
    have hd := pairwise_get? hdisj hlt hM hE
    have hMf : M.family = AF_INET := by
      rcases hMok.1 with h | h
      · exact h
      · exfalso
        simp only [DNSBL_compare_net, h, hEf, AF_INET, AF_INET6] at hs
        norm_num at hs
    have hnet : swap32 M.ip4_network ≤ swap32 E.ip4_network := by
      simp only [DNSBL_compare_net, hMf, hEf, ne_eq, not_true_eq_false, if_false,
        if_true] at hs
      by_contra hc
      rw [if_neg (by omega), if_pos (by omega)] at hs
      omega
    have hd2 := hd hMf hEf
    rw [compare_is_on_net4_eq ia M hMf hMok, if_neg (by omega), if_pos (by omega)]
    norm_num
  · intro heq
    subst heq
    rw [hE] at hM
    cases hM
    rw [compare_is_on_net4_eq ia E hEf hEok, if_neg (by omega), if_neg (by omega)]
  · intro hlt
    have hs := pairwise_get? hsorted hlt hE hM
    have hd := pairwise_get? hdisj hlt hE hM
    by_cases hMf : M.family = AF_INET
    · have hnet : swap32 E.ip4_network ≤ swap32 M.ip4_network := by
        simp only [DNSBL_compare_net, hMf, hEf, ne_eq, not_true_eq_false, if_false,
          if_true] at hs
        by_contra hc
        rw [if_neg (by omega), if_pos (by omega)] at hs
        omega
      have hd2 := hd hEf hMf
      rw [compare_is_on_net4_eq ia M hMf hMok, if_pos (by omega)]
      norm_num
    · simp only [DNSBL_compare_is_on_net4, ne_eq, hMf, not_false_eq_true, if_true]
      norm_num

theorem bsearch_loop_finds (sl : List DNSBL_info) (ia t : Nat) (E : DNSBL_info)
    (hE : sl.get? t = some E) (hcov : DNSBL_covers4 E ia)
    (hsorted : sl.Pairwise fun x y => DNSBL_compare_net x y ≤ 0)
    (hdisj : sl.Pairwise DNSBL_disjoint4) (hok : ∀ e ∈ sl, DNSBL_entry_ok e) :
    ∀ (fuel lo hi : Nat), lo ≤ t → t < hi → hi ≤ sl.length → hi - lo ≤ fuel →
      smartlist_bsearch_loop sl ia DNSBL_compare_is_on_net4 fuel lo hi = some E := by
  intro fuel
  induction fuel with
  | zero => intro lo hi h1 h2 _ h4; omega
  | succ fuel ih =>
    intro lo hi h1 h2 h3 h4
    have hmid : lo + (hi - lo) / 2 < sl.length := by omega
    obtain ⟨M, hM⟩ : ∃ M, sl.get? (lo + (hi - lo) / 2) = some M :=
      ⟨_, List.get?_eq_get hmid⟩
    obtain ⟨s1, s2, s3⟩ :=
      compare_is_on_net4_sides sl ia t E hE hcov hsorted hdisj hok _ M hM
    rw [smartlist_bsearch_loop, if_pos (by omega)]
    simp only [hM]
    rcases Nat.lt_trichotomy (lo + (hi - lo) / 2) t with h | h | h
    · have := s1 h
      rw [if_neg (by omega), if_pos this]
      exact ih _ _ (by omega) h2 h3 (by omega)
    · have := s2 h
      rw [if_pos this]
      rw [h, hE] at hM
      cases hM
      rfl
    · have := s3 h
      rw [if_neg (by omega), if_neg (by omega)]
      exact ih _ _ h1 h (by omega) (by omega)

theorem bsearch_loop_sound {α κ : Type} (sl : List α) (key : κ) (compare : κ → α → Int)
    (m : α) : ∀ (fuel lo hi : Nat),
      smartlist_bsearch_loop sl key compare fuel lo hi = some m →
      m ∈ sl ∧ compare key m = 0 := by
  intro fuel
  induction fuel with
  | zero => intro lo hi h; simp [smartlist_bsearch_loop] at h
  | succ fuel ih =>
    intro lo hi h
    rw [smartlist_bsearch_loop] at h
    split at h
    · cases hmem : sl.get? (lo + (hi - lo) / 2) with
      | none => simp only [hmem] at h; cases h
      | some member =>
        simp only [hmem] at h
        split at h
        · rename_i hc
          cases h
          exact ⟨List.mem_iff_get?.mpr ⟨_, hmem⟩, hc⟩
        · split at h
          · exact ih _ _ h
          · exact ih _ _ h
    · cases h

/-- C2: on a list sorted by `DNSBL_compare_net` whose IPv4 ranges are
pairwise disjoint (entries as the parsers build them), for every IPv4 address
`DNSBL_check_common` reports listed if and only if some IPv4 entry's range
`[network & mask, network | ~mask]` contains the address, and the reference
it returns is that entry's `SBL_ref`. With the single entry parsed from
`24.233.0.0/19 ; SBL210084`, 24.233.0.21 is listed with reference "210084"
and 24.233.32.1 is not listed. -/
theorem cidr_membership_is_decided (sl : List DNSBL_info) (ia : Nat)
    (ref0 : Option (List Char))
    (hsorted : sl.Pairwise fun x y => DNSBL_compare_net x y ≤ 0)
    (hdisj : sl.Pairwise DNSBL_disjoint4) (hok : ∀ e ∈ sl, DNSBL_entry_ok e) :
    ((DNSBL_check_common (some sl) (.ip4 ia) (some ref0)).1 = true ↔
      ∃ E ∈ sl, DNSBL_covers4 E ia) ∧
    (∀ E ∈ sl, DNSBL_covers4 E ia →
      DNSBL_check_common (some sl) (.ip4 ia) (some ref0) = (true, some (some E.SBL_ref))) ∧
    (DNSBL_parse_DROP 45 (some junk_info) [] sample_line = .ok [sample_entry] ∧
      INET_addr_pton2_AF_INET ['2', '4', '.', '2', '3', '3', '.', '0', '.', '2', '1']
        = some 352381208 ∧
      DNSBL_check_common (some [sample_entry]) (.ip4 352381208) (some ref0)
        = (true, some (some ['2', '1', '0', '0', '8', '4'])) ∧
      INET_addr_pton2_AF_INET ['2', '4', '.', '2', '3', '3', '.', '3', '2', '.', '1']
        = some 18934040 ∧
      DNSBL_check_common (some [sample_entry]) (.ip4 18934040) (some ref0)
        = (false, some none)) := by
  have found : ∀ E ∈ sl, DNSBL_covers4 E ia →
      DNSBL_check_common (some sl) (.ip4 ia) (some ref0) = (true, some (some E.SBL_ref)) := by
    intro E hE hcov
    obtain ⟨t, ht⟩ := List.mem_iff_get?.mp hE
    have htlt : t < sl.length := by
      rw [List.get?_eq_getElem?, List.getElem?_eq_some] at ht
      exact ht.1
    have := bsearch_loop_finds sl ia t E ht hcov hsorted hdisj hok sl.length 0 sl.length
      (Nat.zero_le _) htlt (Nat.le_refl _) (Nat.le_refl _)
    simp only [DNSBL_check_common, smartlist_bsearch, this, Option.map]
  refine ⟨⟨?_, ?_⟩, found, rfl, rfl, rfl, rfl, rfl⟩
  · intro h
    cases hb : smartlist_bsearch sl ia DNSBL_compare_is_on_net4 with
    | none => simp [DNSBL_check_common, hb] at h
    | some d =>
      obtain ⟨hmem, hc⟩ := bsearch_loop_sound sl ia DNSBL_compare_is_on_net4 d _ _ _ hb
      refine ⟨d, hmem, ?_⟩
      have hf : d.family = AF_INET := by
        by_contra hne
        simp [DNSBL_compare_is_on_net4, hne] at hc
      rw [compare_is_on_net4_eq ia d hf (hok d hmem)] at hc
      refine ⟨hf, ?_, ?_⟩
      · by_contra hlt
        rw [if_pos (by omega)] at hc
        norm_num at hc
      · by_contra hgt
        split at hc
        · norm_num at hc
        · rw [if_pos (by omega)] at hc
          norm_num at hc
  · rintro ⟨E, hE, hcov⟩
    rw [found E hE hcov]

theorem cidr_membership_is_decided_witness :
    DNSBL_covers4 sample_entry 352381208 ∧
    ((DNSBL_check_common (some [sample_entry]) (.ip4 352381208) (some none)).1 = true ↔
      ∃ E ∈ [sample_entry], DNSBL_covers4 E 352381208) ∧
    DNSBL_check_common (some [sample_entry]) (.ip4 352381208) (some none)
      = (true, some (some sample_entry.SBL_ref)) := by
  have h := cidr_membership_is_decided [sample_entry] 352381208 none
    (List.pairwise_singleton _ _) (List.pairwise_singleton _ _)
    (by
      intro e he
      rw [List.mem_singleton] at he
      subst he
      exact ⟨Or.inl rfl, fun _ => rfl⟩)
  exact ⟨by decide, h.1, h.2.1 sample_entry (List.mem_singleton.mpr rfl) (by decide)⟩

/-! ## Parsing a range line -/

theorem swap32_bytes (b0 b1 b2 b3 : Nat) (h0 : b0 < 256) (h1 : b1 < 256) (h2 : b2 < 256)
    (h3 : b3 < 256) :
    swap32 (b0 + 256 * b1 + 65536 * b2 + 16777216 * b3)
      = b3 + 256 * b2 + 65536 * b1 + 16777216 * b0 := by
  unfold swap32
  omega

theorem swap32_swap32 (x : Nat) (h : x < 4294967296) : swap32 (swap32 x) = x := by
  have e : x = x % 256 + 256 * (x / 256 % 256) + 65536 * (x / 65536 % 256)
      + 16777216 * (x / 16777216) := by omega
  have h3 : x / 16777216 < 256 := by omega
  rw [e, swap32_bytes _ _ _ _ (Nat.mod_lt _ (by norm_num)) (Nat.mod_lt _ (by norm_num))
    (Nat.mod_lt _ (by norm_num)) h3,
    swap32_bytes _ _ _ _ h3 (Nat.mod_lt _ (by norm_num)) (Nat.mod_lt _ (by norm_num))
    (Nat.mod_lt _ (by norm_num))]

theorem isdigit_not_isspace (c : Char) (h : isdigit c = true) : isspace c = false := by
  simp only [isdigit, Bool.and_eq_true, decide_eq_true_eq] at h
  simp only [isspace, Bool.or_eq_false_iff, beq_eq_false_iff_ne, ne_eq,
    Bool.and_eq_false_iff, decide_eq_false_iff_not]
  constructor
  · rintro rfl
    have : (' ' : Char).toNat = 32 := rfl
    omega
  · right; omega

theorem isdigit_ne (c d : Char) (h : isdigit c = true) (hd : d.toNat < 48 ∨ 57 < d.toNat) :
    c ≠ d := by
  simp only [isdigit, Bool.and_eq_true, decide_eq_true_eq] at h
  rintro rfl
  omega

theorem scanset_DROP_ne (c d : Char) (h : scanset_DROP c = true) (hd : d ≠ '.')
    (hd2 : d.toNat < 48 ∨ 57 < d.toNat) : c ≠ d := by
  simp only [scanset_DROP, Bool.or_eq_true, beq_iff_eq] at h
  rcases h with h | h
  · exact isdigit_ne c d h hd2
  · rw [h]; exact fun e => hd e.symm

/-- A number inside the range of `int` is stored by `%d` as it is. -/
theorem scanned_int_of_int (v : Int) (h1 : -2147483648 ≤ v) (h2 : v ≤ 2147483647) :
    scanned_int v = v := by
  unfold scanned_int
  have e : max (-9223372036854775808 : Int) (min v 9223372036854775807) = v := by
    rw [min_eq_left (by omega), max_eq_right (by omega)]
  simp only [e]
  omega

/-- On a line `<addr>/<digits> ...` whose address text is made of digits and
dots and whose prefix, a number inside the range of `int`, is followed by a
blank, `sscanf` stores both items and returns 2. -/
theorem sscanf_net_bits_two (capacity : Nat) (addr digits rest : List Char)
    (haddr : ∀ c ∈ addr, scanset_DROP c = true) (hne : addr ≠ [])
    (hlen : addr.length ≤ capacity) (hdig : ∀ c ∈ digits, isdigit c = true)
    (hdne : digits ≠ []) (hval : dec_value digits ≤ 2147483647) :
    sscanf_net_bits scanset_DROP capacity (addr ++ '/' :: (digits ++ ' ' :: rest))
      = .ok { count := 2, addr := addr, bits := dec_value digits } := by
  obtain ⟨d, ds, rfl⟩ : ∃ d ds, digits = d :: ds := by
    cases digits with
    | nil => exact absurd rfl hdne
    | cons d ds => exact ⟨d, ds, rfl⟩
  have hd : isdigit d = true := hdig d (List.mem_cons_self _ _)
  have hline : addr ++ '/' :: (d :: ds ++ ' ' :: rest) ≠ [] := by
    intro h
    exact hne (List.append_eq_nil.mp h).1
  have hslash : scanset_DROP '/' = false := by decide
  have hblank : isdigit ' ' = false := by decide
  have htake : (addr ++ '/' :: (d :: ds ++ ' ' :: rest)).takeWhile scanset_DROP = addr := by
    rw [List.takeWhile_append_of_pos haddr, List.takeWhile_cons_of_neg (by simp [hslash]),
      List.append_nil]
  have hdrop : (addr ++ '/' :: (d :: ds ++ ' ' :: rest)).dropWhile scanset_DROP
      = '/' :: (d :: ds ++ ' ' :: rest) := by
    rw [List.dropWhile_append_of_pos haddr, List.dropWhile_cons_of_neg (by simp [hslash])]
  have hsp : (d :: ds ++ ' ' :: rest).dropWhile isspace = d :: ds ++ ' ' :: rest := by
    rw [List.cons_append, List.dropWhile_cons_of_neg (by simp [isdigit_not_isspace d hd])]
  have hminus : d ≠ '-' := isdigit_ne d '-' hd (Or.inl (by decide))
  have hplus : d ≠ '+' := isdigit_ne d '+' hd (Or.inl (by decide))
  have hdigits : (d :: ds ++ ' ' :: rest).takeWhile isdigit = d :: ds := by
    rw [List.takeWhile_append_of_pos hdig, List.takeWhile_cons_of_neg (by simp [hblank]),
      List.append_nil]
  have hsign : ¬ ((d :: ds ++ ' ' :: rest).head? = some '-' ∨
      (d :: ds ++ ' ' :: rest).head? = some '+') := by
    simp [hminus, hplus]
  have hneg : ((d :: ds ++ ' ' :: rest).head? == some '-') = false := by
    simp [hminus]
  have hrange : scanned_int (dec_value (d :: ds) : Int) = (dec_value (d :: ds) : Int) :=
    scanned_int_of_int _ (by omega) (by omega)
  unfold sscanf_net_bits
  rw [if_neg hline]
  simp only [htake, hdrop, if_neg hne, List.head?_cons, ne_eq, not_true_eq_false, if_false,
    List.drop_succ_cons, List.drop_zero, hsp, if_neg hsign, hneg, hdigits,
    Bool.false_eq_true, hrange, if_neg (Nat.not_lt.mpr hlen), pure, Except.pure]
  simp

theorem strchr_L (addr digits id : List Char) (haddr : ∀ c ∈ addr, scanset_DROP c = true)
    (hdig : ∀ c ∈ digits, isdigit c = true) :
    strchr (addr ++ '/' :: (digits ++ ' ' :: ';' :: ' ' :: 'S' :: 'B' :: 'L' :: id)) 'L'
      = some ('L' :: id) := by
  have h1 : ∀ c ∈ addr, (c != 'L') = true := fun c hc =>
    bne_iff_ne.mpr (scanset_DROP_ne c 'L' (haddr c hc) (by decide) (Or.inr (by decide)))
  have h2 : ∀ c ∈ digits, (c != 'L') = true := fun c hc =>
    bne_iff_ne.mpr (isdigit_ne c 'L' (hdig c hc) (Or.inr (by decide)))
  have h3 : (addr ++ '/' :: (digits ++ ' ' :: ';' :: ' ' :: 'S' :: 'B' :: 'L' :: id)).dropWhile
      (fun c => c != 'L') = 'L' :: id := by
    rw [List.dropWhile_append_of_pos h1, List.dropWhile_cons_of_pos (by decide),
      List.dropWhile_append_of_pos h2, List.dropWhile_cons_of_pos (by decide),
      List.dropWhile_cons_of_pos (by decide), List.dropWhile_cons_of_pos (by decide),
      List.dropWhile_cons_of_pos (by decide), List.dropWhile_cons_of_pos (by decide),
      List.dropWhile_cons_of_neg (by decide)]
  unfold strchr
  rw [h3]

/-- C7: for every line `<a.b.c.d>/<n> ; SBL<id>` whose address text the
address parser accepts and whose prefix `n` (a run of digits) satisfies
`8 ≤ n ≤ 32`, `DNSBL_parse_DROP` (when `malloc` succeeds) appends exactly one
entry: family `AF_INET`, type `DNSBL_DROP`, network the parsed address,
`bits = n`, mask the `n`-bit prefix mask, and `SBL_ref` the text after the
first `L` of the line cut to the 9 characters the 10-byte buffer holds;
`24.233.0.0/19 ; SBL210084` gives bits 19 and reference "210084". -/
theorem drop_line_becomes_one_entry (MAX_IP6_SZ : Nat) (fresh : DNSBL_info)
    (sl : List DNSBL_info) (addr digits id : List Char) (ip n : Nat)
    (haddr : ∀ c ∈ addr, scanset_DROP c = true) (hlen : addr.length ≤ MAX_IP6_SZ)
    (hpton : INET_addr_pton2_AF_INET addr = some ip)
    (hdig : ∀ c ∈ digits, isdigit c = true) (hdne : digits ≠ [])
    (hval : dec_value digits = n) (h8 : 8 ≤ n) (h32 : n ≤ 32) :
    DNSBL_parse_DROP MAX_IP6_SZ (some fresh) sl
        (addr ++ '/' :: (digits ++ ' ' :: ';' :: ' ' :: 'S' :: 'B' :: 'L' :: id))
      = .ok (sl ++ [{ fresh with
          ip4_network := ip, ip4_mask := INET_util_get_mask4 n, bits := n,
          type := DNSBL_type.DNSBL_DROP, family := AF_INET, SBL_ref := id.take 9 }]) ∧
    swap32 (INET_util_get_mask4 n) = 4294967296 - 2 ^ (32 - n) ∧
    strchr (addr ++ '/' :: (digits ++ ' ' :: ';' :: ' ' :: 'S' :: 'B' :: 'L' :: id)) 'L'
      = some ('L' :: id) ∧
    (DNSBL_parse_DROP 45 (some junk_info) [] sample_line = .ok [sample_entry] ∧
      sample_entry.bits = 19 ∧ sample_entry.SBL_ref = ['2', '1', '0', '0', '8', '4'] ∧
      sample_entry.family = AF_INET ∧ sample_entry.type = DNSBL_type.DNSBL_DROP ∧
      INET_addr_pton2_AF_INET ['2', '4', '.', '2', '3', '3', '.', '0', '.', '0']
        = some sample_entry.ip4_network ∧
      swap32 sample_entry.ip4_mask = 4294959104) := by
  have hne : addr ≠ [] := by
    rintro rfl
    simp [INET_addr_pton2_AF_INET, split_dots] at hpton
  have hscan := sscanf_net_bits_two MAX_IP6_SZ addr digits
    (';' :: ' ' :: 'S' :: 'B' :: 'L' :: id) haddr hne hlen hdig hdne (by omega)
  have hstr := strchr_L addr digits id haddr hdig
  refine ⟨?_, ?_, hstr, rfl, rfl, rfl, rfl, rfl, rfl, rfl⟩
  · have hbits : ¬ ((n : Int) < 8 ∨ (n : Int) > 32) := by omega
    unfold DNSBL_parse_DROP
    rw [hscan]
    simp only [bind, Except.bind, hval, ne_eq, not_true_eq_false, if_false, if_neg hbits,
      hpton, hstr, Int.toNat_ofNat, str_ncpy, List.drop_succ_cons, List.drop_zero, pure,
      Except.pure]
  · unfold INET_util_get_mask4
    have : 2 ^ (32 - n) ≤ 2 ^ 32 := Nat.pow_le_pow_right (by norm_num) (by omega)
    have hpos : 0 < 2 ^ (32 - n) := Nat.pow_pos (by norm_num)
    exact swap32_swap32 _ (by omega)

theorem drop_line_becomes_one_entry_witness :
    DNSBL_parse_DROP 45 (some junk_info) []
        (['2', '4', '.', '2', '3', '3', '.', '0', '.', '0'] ++
          '/' :: (['1', '9'] ++ ' ' :: ';' :: ' ' :: 'S' :: 'B' :: 'L' ::
            ['2', '1', '0', '0', '8', '4']))
      = .ok ([] ++ [{ junk_info with
          ip4_network := 59672, ip4_mask := INET_util_get_mask4 19, bits := 19,
          type := DNSBL_type.DNSBL_DROP, family := AF_INET,
          SBL_ref := ['2', '1', '0', '0', '8', '4'].take 9 }]) :=
  (drop_line_becomes_one_entry 45 junk_info []
    ['2', '4', '.', '2', '3', '3', '.', '0', '.', '0'] ['1', '9']
    ['2', '1', '0', '0', '8', '4'] 59672 19 (by decide) (by decide) rfl (by decide)
    (by decide) rfl (by decide) (by decide)).1

/-! ## Opening a junk database, and lookups without a database -/

/-- When `open_file` sets `ip2loc_bad` it still returns the database
structure. -/
theorem open_file_bad_returns_loc (w : World) (g g1 : Globals) (r : Option IP2Location)
    (hb : g.ip2loc_bad = false) (h : open_file w g = .ok (r, g1))
    (hb1 : g1.ip2loc_bad = true) : r.isSome = true := by
  unfold open_file at h
  split at h
  · cases h
    rw [hb] at hb1
    cases hb1
  · split at h
    · cases h
      rw [show g.ip2loc_bad = false from hb] at hb1
      cases hb1
    · simp only [] at h
      split at h
      · cases h
        rw [show g.ip2loc_bad = false from hb] at hb1
        cases hb1
      · cases hi : IP2Location_initialize
            (IP2Location_DB_set_shared_memory w _ { calloc_loc with file_open := true }).2 with
        | error e => rw [hi] at h; cases h
        | ok loc0 =>
          rw [hi] at h
          simp only [bind, Except.bind, pure, Except.pure] at h
          split at h <;> split at h <;> cases h <;> rfl

/-- Whenever a call of `ip2loc_init` sets `ip2loc_bad`, it returns TRUE and
leaves a handle in `ip2loc_handle`. -/
theorem init_setting_bad_returns_true (cfg : Config) (w : World) (g g1 : Globals)
    (r : Bool) (hb : g.ip2loc_bad = false) (h : ip2loc_init cfg w g = .ok (r, g1))
    (hb1 : g1.ip2loc_bad = true) : r = true ∧ g1.ip2loc_handle.isSome = true := by
  unfold ip2loc_init at h
  split at h
  · cases h
    rw [hb] at hb1
    cases hb1
  · cases hn : g.ip2loc_handle with
    | some loc0 =>
      simp only [hn, Option.isNone_some, Bool.false_eq_true, if_false, bind, Except.bind,
        pure, Except.pure] at h
      split at h <;> cases h <;>
        (rw [show g.ip2loc_bad = false from hb] at hb1; cases hb1)
    | none =>
      simp only [hn, Option.isNone_none, if_true, bind, Except.bind, pure,
        Except.pure] at h
      cases ho : open_file w g with
      | error e => rw [ho] at h; cases h
      | ok v =>
        obtain ⟨o, g2⟩ := v
        rw [ho] at h
        simp only [] at h
        have key : g2.ip2loc_bad = true → o.isSome = true :=
          open_file_bad_returns_loc w g g2 o hb ho
        split at h <;> cases h <;> exact ⟨key hb1, key hb1⟩

/-- C11 (the code at the failing input): with the database enabled, a file
that holds `sample_db` with month 13, and the year 2026, the first
`ip2loc_init` sets `ip2loc_bad` and yet returns TRUE with `ip2loc_handle`
pointing to the database of the junk file (`ip2loc_exit` inside `open_file`
clears the handle, then `ip2loc_init` assigns what `open_file` returned); the
next IPv4 lookup of 1.2.3.4 is served from that file and returns TRUE with
country "US". -/
theorem junk_date_leaves_usable_handle :
    ∃ loc g1,
      ip2loc_init enabled_config (good_world junk_db 2026) start_globals = .ok (true, g1) ∧
      g1.ip2loc_bad = true ∧ g1.ip2loc_handle = some loc ∧ loc.db_month = 13 ∧
      loc.sh_mem = junk_db ∧
      ∃ out, ip2loc_get_ipv4_entry 4 { ip_ver := 0, ipv4 := 0, ipv6 := [] } g1
          (swap32 16909060) blank_entry = .ok (true, out, g1) ∧
        out.country_short = [85, 83, 0] :=
  ⟨_, _, rfl, rfl, rfl, rfl, rfl, _, rfl, rfl⟩

/-- C12 (the code at the failing input): with `ip2loc_handle` NULL (at program
start, or after `ip2loc_exit` in any state) both lookups pass the NULL pointer
to the record search, which reads `loc->ipv4_db_addr` resp.
`loc->ipv6_db_addr` through it, for every address; `ip2loc_num_ipv4_entries`,
`ip2loc_num_ipv6_entries` and `ip2loc_index_errors` test the handle and
return 0. -/
theorem lookup_without_handle_dereferences_null (fuel : Nat) (stack : ipv_t) (g : Globals)
    (addr4 : Nat) (addr6 : List Nat) (out : ip2loc_entry) :
    start_globals.ip2loc_handle = none ∧ (ip2loc_exit g).ip2loc_handle = none ∧
    ip2loc_get_ipv4_entry fuel stack start_globals addr4 out = .error Fault.null_deref ∧
    ip2loc_get_ipv6_entry fuel stack start_globals addr6 out = .error Fault.null_deref ∧
    ip2loc_get_ipv4_entry fuel stack (ip2loc_exit g) addr4 out = .error Fault.null_deref ∧
    ip2loc_get_ipv6_entry fuel stack (ip2loc_exit g) addr6 out = .error Fault.null_deref ∧
    ip2loc_num_ipv4_entries start_globals = 0 ∧ ip2loc_num_ipv6_entries start_globals = 0 ∧
    ip2loc_index_errors start_globals = 0 :=
  ⟨rfl, rfl, rfl, rfl, rfl, rfl, rfl, rfl, rfl⟩

/-! ## The position tables -/

/-- C13 (counterexample): for type code 1 `COUNTRY_POSITION` gives column 2,
not 0. -/
theorem country_position_of_type_1 :
    table_at COUNTRY_POSITION 1 = .ok 2 ∧ table_at COUNTRY_POSITION 1 ≠ .ok 0 := by
  refine ⟨rfl, ?_⟩
  intro h
  cases h

/-- C13 (amended): `COUNTRY_POSITION` gives column 2 for every type code
1..24; its only 0 is the entry of the unused index 0. -/
theorem country_position_table (t : Nat) (h1 : 1 ≤ t) (h24 : t ≤ 24) :
    table_at COUNTRY_POSITION t = .ok 2 ∧ table_at COUNTRY_POSITION 0 = .ok 0 := by
  interval_cases t <;> exact ⟨rfl, rfl⟩

theorem country_position_table_witness :
    table_at COUNTRY_POSITION 24 = .ok 2 ∧ table_at COUNTRY_POSITION 0 = .ok 0 :=
  country_position_table 24 (by decide) (by decide)

/-- C14: for every type code 1..24, `REGION_POSITION` is 0 for types 1, 2 and
3 for types 3..24; `CITY_POSITION` is 0 for types 1, 2 and 4 for types 3..24;
`LATITUDE_POSITION` is 0 for types 1..4 and 7 and 5 for types 5, 6, 8..24;
`LONGITUDE_POSITION` is 0 for types 1..4 and 7 and 6 for types 5, 6, 8..24. -/
theorem position_tables_match (t : Nat) (h1 : 1 ≤ t) (h24 : t ≤ 24) :
    table_at REGION_POSITION t = .ok (if t ≤ 2 then 0 else 3) ∧
    table_at CITY_POSITION t = .ok (if t ≤ 2 then 0 else 4) ∧
    table_at LATITUDE_POSITION t = .ok (if t ≤ 4 ∨ t = 7 then 0 else 5) ∧
    table_at LONGITUDE_POSITION t = .ok (if t ≤ 4 ∨ t = 7 then 0 else 6) := by
  interval_cases t <;> exact ⟨rfl, rfl, rfl, rfl⟩

theorem position_tables_match_witness :
    table_at REGION_POSITION 7 = .ok 3 ∧ table_at CITY_POSITION 7 = .ok 4 ∧
    table_at LATITUDE_POSITION 7 = .ok 0 ∧ table_at LONGITUDE_POSITION 7 = .ok 0 :=
  position_tables_match 7 (by decide) (by decide)

/-! ## The maximum IPv4 address, and the IPv6 order -/

theorem ipno_of_max :
    (if (4294967295 : Nat) = MAX_IPV4_RANGE then 4294967295 - 1 else 4294967295)
      = 4294967294 := rfl

theorem ipno_of_max_less_one :
    (if (4294967294 : Nat) = MAX_IPV4_RANGE then 4294967294 - 1 else 4294967294)
      = 4294967294 := rfl

/-- C15: for every database, lookup mode, initial record and iteration bound,
`IP2Location_get_ipv4_record` gives for the address 0xFFFFFFFF exactly what it
gives for 0xFFFFFFFE: the same found flag, record and database structure, or
the same fault. -/
theorem max_ipv4_is_searched_as_one_below (fuel : Nat) (loc : IP2Location) (mode : Nat)
    (parsed_ipv : ipv_t) (out : ip2loc_entry) :
    IP2Location_get_ipv4_record fuel loc mode { parsed_ipv with ipv4 := 4294967295 } out
      = IP2Location_get_ipv4_record fuel loc mode { parsed_ipv with ipv4 := 4294967294 } out := by
  unfold IP2Location_get_ipv4_record
  dsimp only
  rw [ipno_of_max, ipno_of_max_less_one]

/-- C16: for all addresses `x` and `y` (16 bytes each, every byte below 256),
`ipv6_compare x y` is -1, 0 or 1 according as `x` is less than, equal to or
greater than `y` as unsigned 128-bit numbers with byte 0 most significant. -/
theorem ipv6_compare_is_numeric_order (x y : List Nat) (hx : ∀ b ∈ x, b < 256)
    (hy : ∀ b ∈ y, b < 256) (hlx : x.length = 16) (hly : y.length = 16) :
    ipv6_compare x y =
      (if in6_value x < in6_value y then -1 else if in6_value x = in6_value y then 0 else 1) ∧
    in6_value x =
      x.getD 0 0 * 256 ^ 15 + x.getD 1 0 * 256 ^ 14 + x.getD 2 0 * 256 ^ 13 +
      x.getD 3 0 * 256 ^ 12 + x.getD 4 0 * 256 ^ 11 + x.getD 5 0 * 256 ^ 10 +
      x.getD 6 0 * 256 ^ 9 + x.getD 7 0 * 256 ^ 8 + x.getD 8 0 * 256 ^ 7 +
      x.getD 9 0 * 256 ^ 6 + x.getD 10 0 * 256 ^ 5 + x.getD 11 0 * 256 ^ 4 +
      x.getD 12 0 * 256 ^ 3 + x.getD 13 0 * 256 ^ 2 + x.getD 14 0 * 256 ^ 1 +
      x.getD 15 0 * 256 ^ 0 := by
  have _ := hlx
  have _ := hly
  refine ⟨ipv6_compare_from_eq x y hx hy 16 0, ?_⟩
  simp only [in6_value, in6_value_from, Nat.zero_add, Nat.reduceAdd, Nat.add_zero]
  ring

theorem ipv6_compare_is_numeric_order_witness :
    ipv6_compare sample_addr6 [32, 1, 13, 184, 0, 0, 0, 0, 0, 0, 0, 0, 0, 0, 0, 2] = -1 ∧
    ipv6_compare sample_addr6 sample_addr6 = 0 ∧
    ipv6_compare [32, 1, 13, 184, 0, 0, 0, 0, 0, 0, 0, 0, 0, 0, 0, 2] sample_addr6 = 1 ∧
    ipv6_compare sample_addr6 [32, 1, 13, 184, 0, 0, 0, 0, 0, 0, 0, 0, 0, 0, 0, 2] =
      (if in6_value sample_addr6
          < in6_value [32, 1, 13, 184, 0, 0, 0, 0, 0, 0, 0, 0, 0, 0, 0, 2] then -1
       else if in6_value sample_addr6
          = in6_value [32, 1, 13, 184, 0, 0, 0, 0, 0, 0, 0, 0, 0, 0, 0, 2] then 0 else 1) :=
  ⟨rfl, rfl, rfl,
   (ipv6_compare_is_numeric_order sample_addr6
     [32, 1, 13, 184, 0, 0, 0, 0, 0, 0, 0, 0, 0, 0, 0, 2] (by decide) (by decide) rfl rfl).1⟩

/-! ## The sort order of the range list -/

theorem compare_net_ip4 (a b : DNSBL_info) (ha : a.family = AF_INET)
    (hb : b.family = AF_INET) :
    DNSBL_compare_net a b =
      if swap32 a.ip4_network < swap32 b.ip4_network then -1
      else if swap32 a.ip4_network > swap32 b.ip4_network then 1 else 0 := by
  simp only [DNSBL_compare_net, ha, hb, ne_eq, not_true_eq_false, if_false, if_true]

theorem compare_net_ip6 (a b : DNSBL_info) (ha : a.family = AF_INET6)
    (hb : b.family = AF_INET6) :
    DNSBL_compare_net a b = ipv6_compare a.ip6_network b.ip6_network := by
  have h : ¬ (AF_INET6 = AF_INET) := by decide
  simp only [DNSBL_compare_net, ha, hb, ne_eq, not_true_eq_false, if_false, h, memcmp16]

/-- C17: `DNSBL_compare_net a b` is negative whenever `a` is IPv4 and `b` is
IPv6 and positive in the reverse case; within IPv4 its sign is that of
comparing the networks as host-order 32-bit numbers, within IPv6 that of
comparing the 16 network bytes, most significant first; hence in every list
sorted by it each IPv4 entry stands at a smaller index than each IPv6
entry. -/
theorem compare_net_is_family_then_network (a b : DNSBL_info) :
    (a.family = AF_INET → b.family = AF_INET6 → DNSBL_compare_net a b < 0) ∧
    (a.family = AF_INET6 → b.family = AF_INET → DNSBL_compare_net a b > 0) ∧
    (a.family = AF_INET → b.family = AF_INET →
      (DNSBL_compare_net a b < 0 ↔ swap32 a.ip4_network < swap32 b.ip4_network) ∧
      (DNSBL_compare_net a b = 0 ↔ swap32 a.ip4_network = swap32 b.ip4_network) ∧
      (DNSBL_compare_net a b > 0 ↔ swap32 a.ip4_network > swap32 b.ip4_network)) ∧
    (a.family = AF_INET6 → b.family = AF_INET6 →
      (∀ x ∈ a.ip6_network, x < 256) → (∀ x ∈ b.ip6_network, x < 256) →
      (DNSBL_compare_net a b < 0 ↔ in6_value a.ip6_network < in6_value b.ip6_network) ∧
      (DNSBL_compare_net a b = 0 ↔ in6_value a.ip6_network = in6_value b.ip6_network) ∧
      (DNSBL_compare_net a b > 0 ↔ in6_value a.ip6_network > in6_value b.ip6_network)) ∧
    (∀ (sl : List DNSBL_info) (i j : Nat) (x y : DNSBL_info),
      (sl.Pairwise fun p q => DNSBL_compare_net p q ≤ 0) →
      sl.get? i = some x → sl.get? j = some y →
      x.family = AF_INET → y.family = AF_INET6 → i < j) := by
  have h46 : ∀ p q : DNSBL_info, p.family = AF_INET → q.family = AF_INET6 →
      DNSBL_compare_net p q = -21 := by
    intro p q hp hq
    simp only [DNSBL_compare_net, hp, hq, AF_INET, AF_INET6]
    norm_num
  have h64 : ∀ p q : DNSBL_info, p.family = AF_INET6 → q.family = AF_INET →
      DNSBL_compare_net p q = 21 := by
    intro p q hp hq
    simp only [DNSBL_compare_net, hp, hq, AF_INET, AF_INET6]
    norm_num
  refine ⟨?_, ?_, ?_, ?_, ?_⟩
  · intro ha hb
    rw [h46 a b ha hb]
    norm_num
  · intro ha hb
    rw [h64 a b ha hb]
    norm_num
  · intro ha hb
    rw [compare_net_ip4 a b ha hb]
    refine ⟨?_, ?_, ?_⟩ <;> split_ifs <;> constructor <;> intro h <;>
      first | omega | exact False.elim h
  · intro ha hb hxa hxb
    rw [compare_net_ip6 a b ha hb, ipv6_compare, ipv6_compare_from_eq _ _ hxa hxb]
    simp only [in6_value]
    refine ⟨?_, ?_, ?_⟩ <;> split_ifs <;> constructor <;> intro h <;>
      first | omega | exact False.elim h
  · intro sl i j x y hs hx hy hfx hfy
    rcases Nat.lt_trichotomy i j with h | h | h
    · exact h
    · exfalso
      subst h
      rw [hx] at hy
      cases hy
      rw [hfx] at hfy
      exact absurd hfy (by decide)
    · exfalso
      have := pairwise_get? hs h hy hx
      rw [h64 y x hfy hfx] at this
      norm_num at this

theorem compare_net_is_family_then_network_witness :
    DNSBL_compare_net sample_entry { sample_entry with family := AF_INET6 } < 0 ∧
    (DNSBL_compare_net sample_entry { sample_entry with ip4_network := 59673 } < 0 ↔
      swap32 59672 < swap32 59673) ∧
    swap32 59672 < swap32 59673 :=
  ⟨(compare_net_is_family_then_network sample_entry
      { sample_entry with family := AF_INET6 }).1 rfl rfl,
   ((compare_net_is_family_then_network sample_entry
      { sample_entry with ip4_network := 59673 }).2.2.1 rfl rfl).1,
   by decide⟩

/-! ## Lines that are dropped, and lines that are not -/

theorem parse_DROP_of_scan (MAX_IP6_SZ : Nat) (fresh : Option DNSBL_info)
    (sl : List DNSBL_info) (line : List Char) (scan : Scan)
    (hs : sscanf_net_bits scanset_DROP MAX_IP6_SZ line = .ok scan)
    (hb : scan.count ≠ 2 ∨ scan.bits < 8 ∨ scan.bits > 32) :
    DNSBL_parse_DROP MAX_IP6_SZ fresh sl line = .ok sl := by
  unfold DNSBL_parse_DROP
  refine (bind_ok _ hs).trans ?_
  by_cases hc : scan.count ≠ 2
  · rw [if_pos hc]; rfl
  · rw [if_neg hc]
    have hb2 : scan.bits < 8 ∨ scan.bits > 32 := by
      rcases hb with h | h
      · exact absurd h hc
      · exact h
    rw [if_pos hb2]; rfl

/-- The test `bits < 8 || bits > 32` is made on the number `sscanf` stored:
`DNSBL_parse_DROP` leaves the list unchanged whenever that number is below 8
or above 32, and a call that changes the list has appended one entry whose
`bits` is that number, between 8 and 32. For a line `<addr>/<n> ...` whose
prefix `n` is a number inside the range of `int`, the stored number is `n`,
and the line is dropped when `n < 8` or `n > 32`. -/
theorem implausible_prefix_is_dropped (MAX_IP6_SZ : Nat) (fresh : Option DNSBL_info)
    (sl : List DNSBL_info) (line : List Char) :
    (∀ scan, sscanf_net_bits scanset_DROP MAX_IP6_SZ line = .ok scan →
      (scan.bits < 8 ∨ scan.bits > 32) →
      DNSBL_parse_DROP MAX_IP6_SZ fresh sl line = .ok sl) ∧
    (∀ sl1, DNSBL_parse_DROP MAX_IP6_SZ fresh sl line = .ok sl1 → sl1 ≠ sl →
      ∃ scan e, sscanf_net_bits scanset_DROP MAX_IP6_SZ line = .ok scan ∧
        8 ≤ scan.bits ∧ scan.bits ≤ 32 ∧ sl1 = sl ++ [e] ∧ (e.bits : Int) = scan.bits) ∧
    (∀ addr digits rest, line = addr ++ '/' :: (digits ++ ' ' :: rest) →
      (∀ c ∈ addr, scanset_DROP c = true) → addr ≠ [] → addr.length ≤ MAX_IP6_SZ →
      (∀ c ∈ digits, isdigit c = true) → digits ≠ [] →
      (dec_value digits < 8 ∨ 32 < dec_value digits) → dec_value digits ≤ 2147483647 →
      DNSBL_parse_DROP MAX_IP6_SZ fresh sl line = .ok sl) := by
  refine ⟨?_, ?_, ?_⟩
  · intro scan hs hb
    exact parse_DROP_of_scan MAX_IP6_SZ fresh sl line scan hs (Or.inr hb)
  · intro sl1 h hne
    cases hs : sscanf_net_bits scanset_DROP MAX_IP6_SZ line with
    | error e =>
      unfold DNSBL_parse_DROP at h
      rw [hs] at h
      cases h
    | ok scan =>
      by_cases hb : scan.count ≠ 2 ∨ scan.bits < 8 ∨ scan.bits > 32
      · rw [parse_DROP_of_scan MAX_IP6_SZ fresh sl line scan hs hb] at h
        cases h
        exact absurd rfl hne
      · have hc : ¬ scan.count ≠ 2 := fun c => hb (Or.inl c)
        have hb2 : ¬ (scan.bits < 8 ∨ scan.bits > 32) := fun c => hb (Or.inr c)
        unfold DNSBL_parse_DROP at h
        rw [hs] at h
        simp only [bind, Except.bind, if_neg hc, if_neg hb2] at h
        cases fresh with
        | none =>
          simp only [pure, Except.pure] at h
          cases h
          exact absurd rfl hne
        | some dnsbl =>
          simp only [] at h
          cases hl : strchr line 'L' with
          | none => rw [hl] at h; cases h
          | some tail =>
            rw [hl] at h
            simp only [pure, Except.pure] at h
            cases h
            refine ⟨scan, _, rfl, by omega, by omega, rfl, ?_⟩
            show ((scan.bits.toNat : Nat) : Int) = scan.bits
            exact Int.toNat_of_nonneg (by omega)
  · intro addr digits rest hline haddr hne hlen hdig hdne hval hint
    subst hline
    have hs := sscanf_net_bits_two MAX_IP6_SZ addr digits rest haddr hne hlen hdig hdne hint
    exact parse_DROP_of_scan MAX_IP6_SZ fresh sl _ _ hs (Or.inr (by
      show (dec_value digits : Int) < 8 ∨ (dec_value digits : Int) > 32
      omega))

theorem implausible_prefix_is_dropped_witness :
    DNSBL_parse_DROP 45 (some junk_info) [sample_entry]
      (['2', '4', '.', '2', '3', '3', '.', '0', '.', '0'] ++
        '/' :: (['3', '3'] ++ ' ' :: [';', ' ', 'S', 'B', 'L', '1'])) = .ok [sample_entry] ∧
    DNSBL_parse_DROP 45 (some junk_info) [sample_entry]
      (['2', '4', '.', '2', '3', '3', '.', '0', '.', '0'] ++
        '/' :: (['7'] ++ ' ' :: [';', ' ', 'S', 'B', 'L', '1'])) = .ok [sample_entry] :=
  ⟨(implausible_prefix_is_dropped 45 (some junk_info) [sample_entry] _).2.2
      ['2', '4', '.', '2', '3', '3', '.', '0', '.', '0'] ['3', '3']
      [';', ' ', 'S', 'B', 'L', '1'] rfl (by decide) (by decide) (by decide) (by decide)
      (by decide) (by decide) (by decide),
   (implausible_prefix_is_dropped 45 (some junk_info) [sample_entry] _).2.2
      ['2', '4', '.', '2', '3', '3', '.', '0', '.', '0'] ['7']
      [';', ' ', 'S', 'B', 'L', '1'] rfl (by decide) (by decide) (by decide) (by decide)
      (by decide) (by decide) (by decide)⟩

/-- C18 (the code at the failing input): the prefix written in the line
`1.2.3.0/4294967320 ; SBL1` is 4294967320, above 32, yet `DNSBL_parse_DROP`
does not drop the line. `%d` stores the number in an `int`, which keeps its
low 32 bits: 24, since 4294967320 = 2^32 + 24. The test
`bits < 8 || bits > 32` is made on the stored 24 and passes, and the entry
1.2.3.0/24 with the reference "1" is appended to the list. The lines
`1.2.3.0/33 ; SBL1` and `1.2.3.0/7 ; SBL1` are dropped. -/
theorem overlong_prefix_is_kept :
    overlong_prefix_line
      = ['1', '.', '2', '.', '3', '.', '0'] ++
          '/' :: (['4', '2', '9', '4', '9', '6', '7', '3', '2', '0'] ++
            ' ' :: [';', ' ', 'S', 'B', 'L', '1']) ∧
    dec_value ['4', '2', '9', '4', '9', '6', '7', '3', '2', '0'] = 4294967320 ∧
    scanned_int 4294967320 = 24 ∧
    sscanf_net_bits scanset_DROP 45 overlong_prefix_line
      = .ok { count := 2, addr := ['1', '.', '2', '.', '3', '.', '0'], bits := 24 } ∧
    DNSBL_parse_DROP 45 (some junk_info) [sample_entry] overlong_prefix_line
      = .ok [sample_entry,
          { junk_info with
            ip4_network := 197121, ip4_mask := INET_util_get_mask4 24, bits := 24,
            type := DNSBL_type.DNSBL_DROP, family := AF_INET, SBL_ref := ['1'] }] ∧
    DNSBL_parse_DROP 45 (some junk_info) [sample_entry]
        ['1', '.', '2', '.', '3', '.', '0', '/', '3', '3', ' ', ';', ' ', 'S', 'B', 'L', '1']
      = .ok [sample_entry] ∧
    DNSBL_parse_DROP 45 (some junk_info) [sample_entry]
        ['1', '.', '2', '.', '3', '.', '0', '/', '7', ' ', ';', ' ', 'S', 'B', 'L', '1']
      = .ok [sample_entry] :=
  ⟨rfl, rfl, rfl, rfl, rfl, rfl, rfl⟩

/-- C19 (the code at the failing inputs): the line `1.2.3.0/24`, with no
`; SBL` part, is not skipped: `sscanf` returns 2 for it, and
`strchr (line, 'L')` is NULL, so `str_ncpy` is handed the pointer NULL + 1;
`DNSBL_parse_DROPv6` does the same on `2a06:5280::/29`. The line
`1.2.3.0/24 see URL` gets an entry (with an empty reference), and so does
`999.1.2.3/24 ; SBL7`, whose network text the address parser rejects: the
network of that entry is what `malloc` left in the block. -/
theorem malformed_line_is_not_skipped :
    (sscanf_net_bits scanset_DROP 45 short_line
      = .ok { count := 2, addr := ['1', '.', '2', '.', '3', '.', '0'], bits := 24 }) ∧
    strchr short_line 'L' = none ∧
    DNSBL_parse_DROP 45 (some junk_info) [] short_line = .error Fault.null_deref ∧
    DNSBL_parse_DROPv6 45 (some junk_info) [] short_line6 = .error Fault.null_deref ∧
    (∃ e, DNSBL_parse_DROP 45 (some junk_info) [] other_tail_line = .ok [e] ∧
      e.SBL_ref = [] ∧ e.bits = 24) ∧
    INET_addr_pton2_AF_INET ['9', '9', '9', '.', '1', '.', '2', '.', '3'] = none ∧
    (∃ e, DNSBL_parse_DROP 45 (some junk_info) [] bad_address_line = .ok [e] ∧
      e.ip4_network = junk_info.ip4_network ∧ e.family = AF_INET ∧ e.SBL_ref = ['7']) :=
  ⟨rfl, rfl, rfl, rfl, ⟨_, rfl, rfl, rfl⟩, rfl, ⟨_, rfl, rfl, rfl, rfl⟩⟩

/-- C20: for every address the classifier reports as not global,
`DNSBL_check_ipv4` and `DNSBL_check_ipv6` return false whatever the list
holds (and leave `*sbl_ref` alone); for every address it reports as global
they return exactly what `DNSBL_check_common` returns. -/
theorem only_global_addresses_are_checked (is_global : DNSBL_addr → Bool)
    (DNSBL_list : Option (List DNSBL_info)) (ip4 : Nat) (ip6 : List Nat)
    (sbl_ref : Option (Option (List Char))) :
    (is_global (.ip4 ip4) = false →
      DNSBL_check_ipv4 is_global DNSBL_list ip4 sbl_ref = (false, sbl_ref)) ∧
    (is_global (.ip6 ip6) = false →
      DNSBL_check_ipv6 is_global DNSBL_list ip6 sbl_ref = (false, sbl_ref)) ∧
    (is_global (.ip4 ip4) = true →
      DNSBL_check_ipv4 is_global DNSBL_list ip4 sbl_ref
        = DNSBL_check_common DNSBL_list (.ip4 ip4) sbl_ref) ∧
    (is_global (.ip6 ip6) = true →
      DNSBL_check_ipv6 is_global DNSBL_list ip6 sbl_ref
        = DNSBL_check_common DNSBL_list (.ip6 ip6) sbl_ref) := by
  refine ⟨?_, ?_, ?_, ?_⟩ <;> intro h
  · simp only [DNSBL_check_ipv4, h, Bool.not_false, if_true]
  · simp only [DNSBL_check_ipv6, h, Bool.not_false, if_true]
  · simp only [DNSBL_check_ipv4, h, Bool.not_true, Bool.false_eq_true, if_false]
  · simp only [DNSBL_check_ipv6, h, Bool.not_true, Bool.false_eq_true, if_false]

theorem only_global_addresses_are_checked_witness :
    DNSBL_check_ipv4 (fun _ => false) (some [sample_entry]) 352381208 (some none)
      = (false, some none) ∧
    DNSBL_check_ipv4 (fun _ => true) (some [sample_entry]) 352381208 (some none)
      = (true, some (some ['2', '1', '0', '0', '8', '4'])) ∧
    DNSBL_check_ipv6 (fun _ => true) (some [sample_entry]) sample_addr6 (some none)
      = (false, some none) :=
  ⟨(only_global_addresses_are_checked (fun _ => false) (some [sample_entry]) 352381208
      sample_addr6 (some none)).1 rfl,
   (only_global_addresses_are_checked (fun _ => true) (some [sample_entry]) 352381208
      sample_addr6 (some none)).2.2.1 rfl,
   (only_global_addresses_are_checked (fun _ => true) (some [sample_entry]) 352381208
      sample_addr6 (some none)).2.2.2 rfl⟩

/-! ## Queries against no ranges -/

/-- C21: when the range list is absent (`DNSBL_list` is NULL) or empty,
`DNSBL_check_common` returns false for every IPv4 and IPv6 address and, when
`sbl_ref` is not NULL, sets `*sbl_ref` to NULL; 8.8.8.8 is not listed against
no list, the empty list and the list of the single range 24.233.0.0/19. -/
theorem no_ranges_lists_nothing (addr : DNSBL_addr) (sbl_ref : Option (Option (List Char))) :
    DNSBL_check_common none addr sbl_ref = (false, sbl_ref.map fun _ => none) ∧
    DNSBL_check_common (some []) addr sbl_ref = (false, sbl_ref.map fun _ => none) ∧
    DNSBL_check_common none (.ip4 134744072) (some (some ['7'])) = (false, some none) ∧
    DNSBL_check_common (some []) (.ip4 134744072) (some (some ['7'])) = (false, some none) ∧
    DNSBL_check_common (some [sample_entry]) (.ip4 134744072) (some (some ['7']))
      = (false, some none) := by
  refine ⟨rfl, ?_, rfl, rfl, rfl⟩
  cases addr <;> rfl

/-! ## Sorting, deduplication and search in `hosts.c` and `services.c` -/

theorem make_uniq_from_idem {α : Type} (compare : α → α → Int) :
    ∀ (l : List α) (prev : α),
      smartlist_make_uniq_from compare prev (smartlist_make_uniq_from compare prev l).1
        = ((smartlist_make_uniq_from compare prev l).1, 0) := by
  intro l
  induction l with
  | nil => intro prev; rfl
  | cons b l ih =>
    intro prev
    by_cases h : compare prev b = 0
    · simp only [smartlist_make_uniq_from, if_pos h]
      exact ih prev
    · simp only [smartlist_make_uniq_from, if_neg h]
      rw [ih b]

theorem make_uniq_idem {α : Type} (compare : α → α → Int) (sl : List α) :
    smartlist_make_uniq (smartlist_make_uniq sl compare).1 compare
      = ((smartlist_make_uniq sl compare).1, 0) := by
  cases sl with
  | nil => rfl
  | cons a l =>
    simp only [smartlist_make_uniq]
    rw [make_uniq_from_idem compare l a]

/-- C24: a second `smartlist_make_uniq` pass with the same comparator removes
zero entries and leaves the list as the first pass left it, for every
comparator and every list (sorted or not); so it is for the list
`hosts_file_init` builds with `hosts_compare_name` and for the list
`services_file_init` builds with `services_compare_port_proto`. -/
theorem dedupe_is_idempotent (α : Type) (compare : α → α → Int) (sl : List α)
    (read_file : List host_entry) (added : List service_entry) :
    smartlist_make_uniq (smartlist_make_uniq sl compare).1 compare
      = ((smartlist_make_uniq sl compare).1, 0) ∧
    (∃ hosts_list, hosts_file_init (some read_file) = some hosts_list ∧
      smartlist_make_uniq hosts_list hosts_compare_name = (hosts_list, 0)) ∧
    (∃ services_list, services_file_init true added = some services_list ∧
      smartlist_make_uniq services_list services_compare_port_proto = (services_list, 0)) :=
  ⟨make_uniq_idem compare sl,
   ⟨_, rfl, make_uniq_idem hosts_compare_name _⟩,
   ⟨_, rfl, make_uniq_idem services_compare_port_proto _⟩⟩

/-- C23 (the code at the failing input): for the hosts file with the lines
`10.0.0.1 b`, `10.0.0.2 c` and `::1 a`, `hosts_file_init` leaves the three
entries in the order b, c, a (IPv6 last, each entry strictly below the next
by `hosts_compare_name`, nothing removed); the name `a` is in the list, but
the binary search with `hosts_bsearch_name`, which compares names only, does
not find it, and `hosts_file_check_hostent` returns 0 for `a` with its own
address `::1`. -/
theorem mixed_hosts_name_is_not_found :
    hosts_file_init (some mixed_hosts) = some mixed_hosts ∧
    mixed_hosts.Pairwise (fun x y => hosts_compare_name x y < 0) ∧
    (∃ e ∈ mixed_hosts, e.host_name = ['a'] ∧ e.addr_type = AF_INET6) ∧
    smartlist_bsearch mixed_hosts ['a'] hosts_bsearch_name = none ∧
    hosts_file_check_hostent (hosts_file_init (some mixed_hosts)) (some ['a'])
      { h_addrtype := AF_INET6,
        h_addr_list := some [[0, 0, 0, 0, 0, 0, 0, 0, 0, 0, 0, 0, 0, 0, 0, 1]] } = 0 ∧
    hosts_file_check_hostent (hosts_file_init (some mixed_hosts)) (some ['b'])
      { h_addrtype := AF_INET, h_addr_list := some [[10, 0, 0, 1]] } = 1 :=
  ⟨rfl, by decide,
   ⟨{ host_name := ['a'], addr_type := 23,
      addr := [0, 0, 0, 0, 0, 0, 0, 0, 0, 0, 0, 0, 0, 0, 0, 1] }, by decide, rfl, rfl⟩,
   rfl, rfl, rfl⟩

/-- A binary search finds a member that compares equal to the key whenever
there is one and the comparator's answers are ordered along the list: right
of a member the key is below, the key is below; left of a member the key is
above, the key is above. -/
theorem bsearch_loop_complete {α κ : Type} (sl : List α) (key : κ) (compare : κ → α → Int)
    (hneg : ∀ i j x y, i < j → sl.get? i = some x → sl.get? j = some y →
      compare key x < 0 → compare key y < 0)
    (hpos : ∀ i j x y, i < j → sl.get? i = some x → sl.get? j = some y →
      compare key y > 0 → compare key x > 0)
    (t : Nat) (E : α) (hE : sl.get? t = some E) (h0 : compare key E = 0) :
    ∀ (fuel lo hi : Nat), lo ≤ t → t < hi → hi ≤ sl.length → hi - lo ≤ fuel →
      ∃ m, smartlist_bsearch_loop sl key compare fuel lo hi = some m := by
  intro fuel
  induction fuel with
  | zero => intro lo hi h1 h2 _ h4; omega
  | succ fuel ih =>
    intro lo hi h1 h2 h3 h4
    have hmid : lo + (hi - lo) / 2 < sl.length := by omega
    obtain ⟨M, hM⟩ : ∃ M, sl.get? (lo + (hi - lo) / 2) = some M :=
      ⟨_, List.get?_eq_get hmid⟩
    rw [smartlist_bsearch_loop, if_pos (by omega)]
    simp only [hM]
    by_cases c0 : compare key M = 0
    · rw [if_pos c0]; exact ⟨M, rfl⟩
    · rw [if_neg c0]
      by_cases cp : compare key M > 0
      · rw [if_pos cp]
        rcases Nat.lt_trichotomy (lo + (hi - lo) / 2) t with h | h | h
        · exact ih _ _ (by omega) h2 h3 (by omega)
        · rw [h, hE] at hM
          cases hM
          exact absurd h0 c0
        · have := hpos _ _ _ _ h hE hM cp
          omega
      · rw [if_neg cp]
        rcases Nat.lt_trichotomy (lo + (hi - lo) / 2) t with h | h | h
        · have := hneg _ _ _ _ h hM hE (by omega)
          omega
        · rw [h, hE] at hM
          cases hM
          exact absurd h0 c0
        · exact ih _ _ h1 h (by omega) (by omega)

theorem swap16_swap16 (port : Nat) (h : port < 65536) : swap16 (swap16 port) = port := by
  unfold swap16
  have hy : port / 256 < 256 := by omega
  rw [Nat.mod_eq_of_lt hy]
  have a1 : (port % 256 * 256 + port / 256) % 256 = port / 256 := by
    rw [Nat.mul_comm, Nat.mul_add_mod]
    exact Nat.mod_eq_of_lt hy
  have a2 : (port % 256 * 256 + port / 256) / 256 = port % 256 := by
    rw [Nat.mul_comm, Nat.mul_add_div (by decide), Nat.div_eq_of_lt hy]
    rfl
  rw [a1, a2, Nat.mod_mod]
  omega

theorem services_sorted_ports (sl : List service_entry)
    (hsorted : sl.Chain' fun a b => services_compare_port_proto a b ≤ 0) :
    sl.Pairwise fun a b => a.port ≤ b.port := by
  haveI : IsTrans service_entry (fun a b => a.port ≤ b.port) :=
    ⟨fun a b c h1 h2 => Nat.le_trans h1 h2⟩
  rw [← List.chain'_iff_pairwise]
  refine hsorted.imp ?_
  intro a b h
  unfold services_compare_port_proto at h
  dsimp only at h
  split_ifs at h with h1
  · omega
  · omega


/-- With no protocol given the search comparator looks at the port alone. -/
theorem bsearch_port_any (stack se : service_entry) (p : Nat) :
    services_bsearch_port_proto { stack with port := p, proto := PROTO_UNKNOWN } se
      = (p : Int) - (se.port : Int) := by
  unfold services_bsearch_port_proto
  dsimp only
  rw [if_neg]
  rintro ⟨_, h⟩
  exact absurd h (by decide)

/-- The list search of `ws_getservbyport` for the ANY protocol finds an entry
of the port if the sorted list holds one. -/
theorem bsearch_any_finds (sl : List service_entry) (stack : service_entry) (p : Nat)
    (hsorted : sl.Chain' fun a b => services_compare_port_proto a b ≤ 0)
    (hex : ∃ e ∈ sl, e.port = p) :
    ∃ m, smartlist_bsearch sl { stack with port := p, proto := PROTO_UNKNOWN }
        services_bsearch_port_proto = some m ∧ m ∈ sl ∧ m.port = p := by
  have hp := services_sorted_ports sl hsorted
  obtain ⟨E, hmem, hEp⟩ := hex
  obtain ⟨t, hE⟩ := List.mem_iff_get?.mp hmem
  have ht : t < sl.length := by
    rw [List.get?_eq_getElem?, List.getElem?_eq_some] at hE
    exact hE.1
  obtain ⟨m, hm⟩ := bsearch_loop_complete sl
    ({ stack with port := p, proto := PROTO_UNKNOWN } : service_entry)
    services_bsearch_port_proto
    (by
      intro i j x y hij hx hy h
      rw [bsearch_port_any] at h ⊢
      have := pairwise_get? hp hij hx hy
      simp only at this
      omega)
    (by
      intro i j x y hij hx hy h
      rw [bsearch_port_any] at h ⊢
      have := pairwise_get? hp hij hx hy
      simp only at this
      omega)
    t E hE (by rw [bsearch_port_any]; omega) sl.length 0 sl.length (by omega) ht
    (Nat.le_refl _) (by omega)
  refine ⟨m, hm, ?_⟩
  obtain ⟨h1, h2⟩ := bsearch_loop_sound sl _ _ m _ _ _ hm
  rw [bsearch_port_any] at h2
  exact ⟨h1, by omega⟩

/-- C26: on a services list sorted by `services_compare_port_proto`, with
services files configured, `ws_getservbyport` with protocol NULL returns, for
a port that has at least one entry, the servent filled from an entry of that
port: its `s_port` is the queried port and its `s_proto` is NULL, whatever the
protocol set of the entry; for a port with no entry the list search finds
nothing, and the result is what the Winsock fallback gives (NULL without the
fallback). -/
theorem any_protocol_matches_on_port (sl : List service_entry) (num_services_files : Int)
    (cleaned_up : Bool) (getservbyport : Nat → Option (List Char) → Option servent)
    (stack : service_entry) (port : Nat) (fallback do_wstrace : Bool)
    (hport : port < 65536) (hnum : num_services_files ≠ 0)
    (hsorted : sl.Chain' fun a b => services_compare_port_proto a b ≤ 0) :
    ((∃ e ∈ sl, e.port = swap16 port) →
      ∃ e ∈ sl, e.port = swap16 port ∧
        ws_getservbyport (some sl) num_services_files cleaned_up getservbyport stack port none
          fallback do_wstrace = some (fill_servent e PROTO_UNKNOWN) ∧
        (fill_servent e PROTO_UNKNOWN).s_port = port ∧
        (fill_servent e PROTO_UNKNOWN).s_proto = none) ∧
    ((¬ ∃ e ∈ sl, e.port = swap16 port) →
      smartlist_bsearch sl { stack with port := swap16 port, proto := PROTO_UNKNOWN }
        services_bsearch_port_proto = none ∧
      ws_getservbyport (some sl) num_services_files cleaned_up getservbyport stack port none
          fallback do_wstrace
        = if fallback ∧ !cleaned_up then getservbyport port none else none) := by
  constructor
  · intro hex
    obtain ⟨m, hm, hmem, hmp⟩ := bsearch_any_finds sl stack (swap16 port) hsorted hex
    refine ⟨m, hmem, hmp, ?_, ?_, rfl⟩
    · unfold ws_getservbyport
      simp only [Option.isSome_none, Bool.false_eq_true, false_and, if_false, if_neg hnum, hm]
    · show swap16 m.port = port
      rw [hmp, swap16_swap16 port hport]
  · intro hno
    have hnone : smartlist_bsearch sl { stack with port := swap16 port, proto := PROTO_UNKNOWN }
        services_bsearch_port_proto = none := by
      cases h : smartlist_bsearch sl { stack with port := swap16 port, proto := PROTO_UNKNOWN }
        services_bsearch_port_proto with
      | none => rfl
      | some m =>
        obtain ⟨h1, h2⟩ := bsearch_loop_sound sl _ _ m _ _ _ h
        rw [bsearch_port_any] at h2
        exact absurd ⟨m, h1, by omega⟩ hno
    refine ⟨hnone, ?_⟩
    unfold ws_getservbyport
    simp only [Option.isSome_none, Bool.false_eq_true, false_and, if_false, if_neg hnum, hnone]

theorem any_protocol_matches_on_port_witness :
    (∃ e ∈ test_services.reverse, e.port = swap16 45824 ∧
      ws_getservbyport (some test_services.reverse) 1 false (fun _ _ => none) junk_service 45824
        none false true = some (fill_servent e PROTO_UNKNOWN) ∧
      (fill_servent e PROTO_UNKNOWN).s_port = 45824 ∧
      (fill_servent e PROTO_UNKNOWN).s_proto = none) :=
  (any_protocol_matches_on_port test_services.reverse 1 false (fun _ _ => none) junk_service
    45824 false true (by decide) (by decide)
    (show List.Chain' _ [_, _] from List.chain'_pair.mpr (by decide))).1
    ⟨{ name := ['b', 'g', 'p'], port := 179,
       proto := PROTO_TCP ||| PROTO_UDP ||| PROTO_SCTP, file := none }, by decide, by decide⟩

/-- C25 (the code at the failing input): for the entries `a 100/udp`,
`b 100/dccp` and `c 100/tcp/sctp`, `services_file_init` leaves the list in
that order (each entry strictly below the next by
`services_compare_port_proto`, nothing removed). Port 100 is listed for tcp
by the third entry, but the list search of `ws_getservbyport` for port 100
and `tcp` probes the second entry, is sent left by `compare_proto (tcp, dccp)
= -1`, and finds nothing: `ws_getservbyport` returns NULL. With the two
entries of the test table the search finds port 179 for tcp, udp and sctp but
not for dccp, and port 1022 for udp, tcp, dccp and sctp. -/
theorem listed_port_is_not_found :
    services_file_init true split_services = some split_services ∧
    split_services.Pairwise (fun x y => services_compare_port_proto x y < 0) ∧
    (∃ e ∈ split_services, e.port = 100 ∧ e.proto &&& PROTO_TCP ≠ 0) ∧
    encode_proto_str ['t', 'c', 'p'] false = PROTO_TCP ∧
    compare_proto PROTO_TCP PROTO_DCCP = -1 ∧
    smartlist_bsearch split_services { junk_service with port := 100, proto := PROTO_TCP }
      services_bsearch_port_proto = none ∧
    ws_getservbyport (services_file_init true split_services) 1 false (fun _ _ => none)
      junk_service (swap16 100) (some ['t', 'c', 'p']) false true = none ∧
    ([['t', 'c', 'p'], ['u', 'd', 'p'], ['s', 'c', 't', 'p'], ['d', 'c', 'c', 'p']].map fun p =>
      (ws_getservbyport (services_file_init true test_services) 1 false (fun _ _ => none)
        junk_service (swap16 179) (some p) false true).isSome) = [true, true, true, false] ∧
    ([['u', 'd', 'p'], ['t', 'c', 'p'], ['d', 'c', 'c', 'p'], ['s', 'c', 't', 'p']].map fun p =>
      (ws_getservbyport (services_file_init true test_services) 1 false (fun _ _ => none)
        junk_service (swap16 1022) (some p) false true).isSome) = [true, true, true, true] :=
  ⟨rfl, by decide,
   ⟨{ name := ['c'], port := 100, proto := PROTO_TCP ||| PROTO_SCTP, file := none },
    by decide, rfl, by decide⟩,
   rfl, rfl, rfl, rfl, rfl, rfl⟩


/-- On a list with at most one entry per port (ports strictly increasing) the
list search of `ws_getservbyport` for a known protocol finds an entry exactly
when the entry of that port compares equal by `compare_proto`. -/
theorem bsearch_proto_unique_ports (sl : List service_entry) (stack : service_entry)
    (p proto : Nat) (hstrict : sl.Pairwise fun a b => a.port < b.port) :
    (∃ m, smartlist_bsearch sl { stack with port := p, proto := proto }
        services_bsearch_port_proto = some m) ↔
    ∃ e ∈ sl, services_bsearch_port_proto { stack with port := p, proto := proto } e = 0 := by
  have key : ∀ se : service_entry,
      (services_bsearch_port_proto { stack with port := p, proto := proto } se < 0 →
        p ≤ se.port) ∧
      (services_bsearch_port_proto { stack with port := p, proto := proto } se > 0 →
        se.port ≤ p) ∧
      (p < se.port →
        services_bsearch_port_proto { stack with port := p, proto := proto } se < 0) ∧
      (se.port < p →
        services_bsearch_port_proto { stack with port := p, proto := proto } se > 0) := by
    intro se
    unfold services_bsearch_port_proto
    dsimp only
    refine ⟨?_, ?_, ?_, ?_⟩ <;> intro h <;> split_ifs at * <;> omega
  constructor
  · rintro ⟨m, hm⟩
    obtain ⟨h1, h2⟩ := bsearch_loop_sound sl _ _ m _ _ _ hm
    exact ⟨m, h1, h2⟩
  · rintro ⟨E, hmem, h0⟩
    obtain ⟨t, hE⟩ := List.mem_iff_get?.mp hmem
    have ht : t < sl.length := by
      rw [List.get?_eq_getElem?, List.getElem?_eq_some] at hE
      exact hE.1
    exact bsearch_loop_complete sl
      ({ stack with port := p, proto := proto } : service_entry)
      services_bsearch_port_proto
      (by
        intro i j x y hij hx hy h
        have := pairwise_get? hstrict hij hx hy
        simp only at this
        exact (key y).2.2.1 (by have := (key x).1 h; omega))
      (by
        intro i j x y hij hx hy h
        have := pairwise_get? hstrict hij hx hy
        simp only at this
        exact (key x).2.2.2 (by have := (key y).2.1 h; omega))
      t E hE h0 sl.length 0 sl.length (by omega) ht (Nat.le_refl _) (by omega)


/-! ## The refresh decision -/

theorem as_int_ok (v : Int) (h : -2147483648 ≤ v ∧ v ≤ 2147483647) : as_int v = .ok v := by
  unfold as_int
  rw [if_pos h]

theorem as_time_t_ok (v : Int) (h : -9223372036854775808 ≤ v ∧ v ≤ 9223372036854775807) :
    as_time_t v = .ok v := by
  unfold as_time_t
  rw [if_pos h]

/-- What `DNSBL_update_file` does once it has decided to download. -/
theorem update_file_downloads (os : Remote) (d : Disk) (fname tmp_file url : List Char) :
    ∃ rc d', (let (rc, files) := os.INET_util_download_file d.files tmp_file url
        let d : Disk := { files := files, downloads := d.downloads ++ [(tmp_file, url)] }
        if rc > 0 then
          let files := os.CopyFile d.files tmp_file fname
          let files := os.INET_util_touch_file files fname
          (pure (1, { d with files := files }) : Except Fault (Int × Disk))
        else pure (0, d)) = .ok (rc, d') ∧
      d'.downloads = d.downloads ++ [(tmp_file, url)] ∧ (rc = 0 ∨ rc = 1) := by
  rcases h : os.INET_util_download_file d.files tmp_file url with ⟨rc, files⟩
  by_cases hrc : rc > 0
  · exact ⟨1, _, by simp only [hrc, if_true]; rfl, rfl, Or.inr rfl⟩
  · exact ⟨0, _, by simp only [hrc, if_false]; rfl, rfl, Or.inl rfl⟩

/-- C22 (counterexample): at `now = 1793318410` with `max_days = 20756` the
bound `now - max_days * 86400 - 10` is 0. The temporary copy exists, holds 100
bytes and was modified at 1793318000, later than the bound, so the stated test
says no refresh is due; but `DNSBL_update_file`, called by
`DNSBL_update_files (FALSE)` with `expiry = now - max_days * 86400`, finds
`expiry - 10` zero, skips the age test and downloads. One second later the
same file is left alone. A forced update, `DNSBL_update_files (TRUE)`, passes
`expiry = now` and downloads a copy that is 100 seconds old although
`max_days` is 2. -/
theorem zero_bound_forces_a_download :
    ¬ refresh_due_as_stated (files_modified_at 1793318000 ['~', 'd', '4']) 1793318410 20756 ∧
    (∃ d, DNSBL_update_file idle_remote 20756
        { files := files_modified_at 1793318000, downloads := [] }
        (some ['d', '4']) (some ['~', 'd', '4']) (some ['u', '4']) 1793318410
        (1793318410 - 20756 * 86400) = .ok (0, d) ∧
      d.downloads = [(['~', 'd', '4'], ['u', '4'])]) ∧
    (∃ d, DNSBL_update_files idle_remote (refresh_config 20756) 1793318410
        { files := files_modified_at 1793318000, downloads := [] } false = .ok (0, d) ∧
      d.downloads = [(['~', 'd', '4'], ['u', '4']), (['~', 'd', '6'], ['u', '6'])]) ∧
    (∃ d, DNSBL_update_files idle_remote (refresh_config 20756) 1793318411
        { files := files_modified_at 1793318000, downloads := [] } false = .ok (0, d) ∧
      d.downloads = []) ∧
    ¬ refresh_due_as_stated (files_modified_at 1793318310 ['~', 'd', '4']) 1793318410 2 ∧
    (∃ d, DNSBL_update_files idle_remote (refresh_config 2) 1793318410
        { files := files_modified_at 1793318310, downloads := [] } true = .ok (0, d) ∧
      d.downloads = [(['~', 'd', '4'], ['u', '4']), (['~', 'd', '6'], ['u', '6'])]) :=
  ⟨by decide, ⟨_, rfl, rfl⟩, ⟨_, rfl, rfl⟩, ⟨_, rfl, rfl⟩, by decide, ⟨_, rfl, rfl⟩⟩

/-- C22 (amended): given non-null `fname`, `tmp_file` and `url`, times `now`
and `expiry` and `max_days` in 0..24855 (so that `max_days * 86400` fits an
`int`), `DNSBL_update_file` attempts a download exactly when the temporary
copy it examines is missing, has size zero, was modified not later than
`expiry - 10`, or `expiry - 10` is zero; otherwise it returns 0 without
downloading and without changing anything. `DNSBL_update_files` calls it for
both files with `expiry = now - max_days * 86400`, and with `expiry = now`
when the update is forced. -/
theorem refresh_decision (os : Remote) (cfg : DNSBL_config) (d : Disk)
    (fname tmp_file url : List Char) (now expiry : Int) (force_update : Bool)
    (hdays : 0 ≤ cfg.max_days ∧ cfg.max_days ≤ 24855)
    (hnow : 0 ≤ now ∧ now ≤ 4611686018427387904)
    (hexp : -4611686018427387904 ≤ expiry ∧ expiry ≤ 4611686018427387904)
    (hen : cfg.enable = true) :
    (refresh_due (d.files tmp_file) (expiry - 10) →
      ∃ rc d', DNSBL_update_file os cfg.max_days d (some fname) (some tmp_file) (some url) now
          expiry = .ok (rc, d') ∧
        d'.downloads = d.downloads ++ [(tmp_file, url)] ∧ (rc = 0 ∨ rc = 1)) ∧
    (¬ refresh_due (d.files tmp_file) (expiry - 10) →
      DNSBL_update_file os cfg.max_days d (some fname) (some tmp_file) (some url) now
        expiry = .ok (0, d)) ∧
    DNSBL_update_files os cfg now d force_update
      = (DNSBL_update_file os cfg.max_days d cfg.drop_file (some (os.tmp_path cfg.drop_file))
          cfg.drop_url now (if force_update then now else now - cfg.max_days * 86400)
        >>= fun r1 =>
          DNSBL_update_file os cfg.max_days r1.2 cfg.dropv6_file
              (some (os.tmp_path cfg.dropv6_file)) cfg.dropv6_url now
              (if force_update then now else now - cfg.max_days * 86400)
            >>= fun r2 => pure (r1.1 + r2.1, r2.2)) := by
  have ht : as_time_t (expiry - 10) = .ok (expiry - 10) := as_time_t_ok _ (by omega)
  have hd : as_int (cfg.max_days * 24) = .ok (cfg.max_days * 24) := as_int_ok _ (by omega)
  have hs : as_int (cfg.max_days * 24 * 3600) = .ok (cfg.max_days * 24 * 3600) :=
    as_int_ok _ (by omega)
  have hw : as_time_t (now + cfg.max_days * 24 * 3600) = .ok (now + cfg.max_days * 24 * 3600) :=
    as_time_t_ok _ (by omega)
  have he : as_time_t (now - cfg.max_days * 24 * 3600) = .ok (now - cfg.max_days * 86400) := by
    rw [as_time_t_ok _ (by omega)]
    congr 1
    omega
  refine ⟨?_, ?_, ?_⟩
  · intro hdue
    unfold refresh_due at hdue
    unfold DNSBL_update_file
    cases hst : d.files tmp_file with
    | none =>
      simp only [hst, bind, Except.bind, pure, Except.pure, if_true]
      exact update_file_downloads os d fname tmp_file url
    | some st =>
      rw [hst] at hdue
      simp only [] at hdue
      by_cases h0 : st.st_size = 0
      · simp only [hst, h0, bind, Except.bind, pure, Except.pure, if_true]
        exact update_file_downloads os d fname tmp_file url
      · have hb : ¬ (expiry - 10 ≠ 0 ∧ st.st_mtime > expiry - 10) := by
          rintro ⟨h1, h2⟩
          rcases hdue with h | h | h
          · exact h0 h
          · exact h1 h
          · omega
        simp only [hst, h0, if_false, ht, bind, Except.bind, pure, Except.pure, if_neg hb,
          if_true]
        exact update_file_downloads os d fname tmp_file url
  · intro hdue
    unfold refresh_due at hdue
    unfold DNSBL_update_file
    cases hst : d.files tmp_file with
    | none => rw [hst] at hdue; exact absurd trivial hdue
    | some st =>
      rw [hst] at hdue
      simp only [] at hdue
      have h0 : ¬ st.st_size = 0 := fun h => hdue (Or.inl h)
      have hb : expiry - 10 ≠ 0 ∧ st.st_mtime > expiry - 10 := by
        constructor
        · exact fun h => hdue (Or.inr (Or.inl h))
        · by_contra hc
          exact hdue (Or.inr (Or.inr (by omega)))
      simp only [hst, h0, if_false, ht, hd, hs, hw, bind, Except.bind, pure, Except.pure,
        if_pos hb, Bool.false_eq_true]
  · unfold DNSBL_update_files
    cases force_update with
    | true => simp only [hen, Bool.not_true, Bool.false_eq_true, if_false, if_true, bind,
        Except.bind, pure, Except.pure]
    | false => simp only [hen, Bool.not_true, Bool.not_false, Bool.false_eq_true, if_false,
        if_true, bind, Except.bind, pure, Except.pure, hd, hs, he]

theorem refresh_decision_witness :
    refresh_due (files_modified_at 1793000000 ['~', 'd', '4']) (1793318410 - 2 * 86400 - 10) ∧
    (∃ rc d', DNSBL_update_file idle_remote 2
        { files := files_modified_at 1793000000, downloads := [] }
        (some ['d', '4']) (some ['~', 'd', '4']) (some ['u', '4']) 1793318410
        (1793318410 - 2 * 86400) = .ok (rc, d') ∧
      d'.downloads = [] ++ [(['~', 'd', '4'], ['u', '4'])] ∧ (rc = 0 ∨ rc = 1)) ∧
    ¬ refresh_due (files_modified_at 1793300000 ['~', 'd', '4']) (1793318410 - 2 * 86400 - 10) ∧
    (∃ d, DNSBL_update_file idle_remote 2
        { files := files_modified_at 1793300000, downloads := [] }
        (some ['d', '4']) (some ['~', 'd', '4']) (some ['u', '4']) 1793318410
        (1793318410 - 2 * 86400) = .ok (0, d) ∧ d.downloads = []) :=
  ⟨by decide,
   (refresh_decision idle_remote (refresh_config 2)
      { files := files_modified_at 1793000000, downloads := [] }
      ['d', '4'] ['~', 'd', '4'] ['u', '4'] 1793318410 (1793318410 - 2 * 86400) false
      (by decide) (by decide) (by decide) rfl).1 (by decide),
   by decide,
   ⟨_, (refresh_decision idle_remote (refresh_config 2)
      { files := files_modified_at 1793300000, downloads := [] }
      ['d', '4'] ['~', 'd', '4'] ['u', '4'] 1793318410 (1793318410 - 2 * 86400) false
      (by decide) (by decide) (by decide) rfl).2.1 (by decide),
    rfl⟩⟩


/-! ## `strsep` -/

theorem strsep_span_nul (delim : List Nat) : strsep_span 0 delim = true := by
  induction delim with
  | nil => rfl
  | cons sc spanp ih =>
    unfold strsep_span
    by_cases h : sc = 0
    · rw [if_pos h]
    · rw [if_neg h, if_neg h]; exact ih

theorem strsep_span_mem (c : Nat) (delim : List Nat) (hdelim : 0 ∉ delim) :
    strsep_span c delim = true ↔ c = 0 ∨ c ∈ delim := by
  induction delim with
  | nil => simp [strsep_span]
  | cons sc spanp ih =>
    have h0 : sc ≠ 0 := fun h => hdelim (by rw [h]; exact List.mem_cons_self _ _)
    have ih := ih (fun h => hdelim (List.mem_cons_of_mem _ h))
    unfold strsep_span
    by_cases h : sc = c
    · rw [if_pos h]
      simp [h]
    · rw [if_neg h, if_neg h0, ih]
      simp only [List.mem_cons]
      constructor
      · rintro (h1 | h1)
        · exact Or.inl h1
        · exact Or.inr (Or.inr h1)
      · rintro (h1 | h1 | h1)
        · exact Or.inl h1
        · exact absurd h1.symm h
        · exact Or.inr h1

theorem c_str_cons_ne (c : Nat) (l : List Nat) (h : c ≠ 0) : c_str (c :: l) = c :: c_str l := by
  unfold c_str
  rw [List.takeWhile_cons_of_pos]
  simpa using h

theorem c_str_cons_nul (l : List Nat) : c_str (0 :: l) = [] := by
  unfold c_str
  rw [List.takeWhile_cons_of_neg]
  simp

/-- Writing a NUL over the first delimiter of a string leaves the token as
the string. -/
theorem c_str_set_token (delim : List Nat) :
    ∀ l : List Nat,
      ((c_str l).takeWhile fun c => !delim.contains c).length < (c_str l).length →
      c_str (l.set ((c_str l).takeWhile fun c => !delim.contains c).length 0)
        = (c_str l).takeWhile fun c => !delim.contains c := by
  intro l
  induction l with
  | nil => intro h; simp [c_str] at h
  | cons c l ih =>
    intro h
    by_cases hc : c = 0
    · subst hc
      rw [c_str_cons_nul] at h
      simp at h
    · rw [c_str_cons_ne c l hc] at h ⊢
      by_cases hd : delim.contains c = true
      · rw [List.takeWhile_cons_of_neg (by rw [hd]; decide)]
        simp only [List.length_nil, List.set_cons_zero]
        exact c_str_cons_nul l
      · rw [List.takeWhile_cons_of_pos (by simpa using hd)] at h ⊢
        simp only [List.length_cons, List.set_cons_succ] at h ⊢
        rw [c_str_cons_ne c _ hc, ih (by omega)]

/-- The character after the token, when the string goes on, is a
delimiter. -/
theorem c_str_token_delim (delim : List Nat) :
    ∀ l : List Nat,
      ((c_str l).takeWhile fun c => !delim.contains c).length < (c_str l).length →
      l.getD ((c_str l).takeWhile fun c => !delim.contains c).length 0 ∈ delim := by
  intro l
  induction l with
  | nil => intro h; simp [c_str] at h
  | cons c l ih =>
    intro h
    by_cases hc : c = 0
    · subst hc
      rw [c_str_cons_nul] at h
      simp at h
    · rw [c_str_cons_ne c l hc] at h ⊢
      by_cases hd : delim.contains c = true
      · rw [List.takeWhile_cons_of_neg (by rw [hd]; decide)]
        simpa using hd
      · rw [List.takeWhile_cons_of_pos (by simpa using hd)] at h ⊢
        simp only [List.length_cons] at h ⊢
        have := ih (by omega)
        simpa using this

/-- The loop of `strsep` from a position at which a NUL-terminated string
starts. -/
theorem strsep_loop_spec (delim mem : List Nat) (tok : Nat) (hdelim : 0 ∉ delim) :
    ∀ (fuel s : Nat), mem.length + 1 - s ≤ fuel → 0 ∈ mem.drop s →
      strsep_loop delim mem tok fuel s
        = if ((c_str (mem.drop s)).takeWhile fun c => !delim.contains c).length
              < (c_str (mem.drop s)).length then
            .ok (some tok,
              some (s + ((c_str (mem.drop s)).takeWhile fun c => !delim.contains c).length + 1),
              mem.set (s + ((c_str (mem.drop s)).takeWhile fun c => !delim.contains c).length) 0)
          else .ok (some tok, none, mem) := by
  intro fuel
  induction fuel with
  | zero =>
    intro s h hz
    have : s < mem.length := by
      by_contra hc
      rw [List.drop_eq_nil_of_le (by omega)] at hz
      simp at hz
    omega
  | succ fuel ih =>
    intro s h hz
    have hs : s < mem.length := by
      by_contra hc
      rw [List.drop_eq_nil_of_le (by omega)] at hz
      simp at hz
    have hdrop : mem.drop s = mem[s] :: mem.drop (s + 1) := List.drop_eq_getElem_cons hs
    have hget : mem.get? s = some mem[s] := by
      rw [List.get?_eq_getElem?, List.getElem?_eq_getElem hs]
    rw [strsep_loop]
    simp only [hget]
    rw [hdrop] at hz ⊢
    by_cases hc : mem[s] = 0
    · rw [hc, strsep_span_nul, c_str_cons_nul]
      simp
    · rw [c_str_cons_ne _ _ hc]
      by_cases hd : delim.contains mem[s] = true
      · have hsp : strsep_span mem[s] delim = true :=
          (strsep_span_mem _ _ hdelim).mpr (Or.inr (by simpa using hd))
        rw [hsp, List.takeWhile_cons_of_neg (by rw [hd]; decide)]
        simp [hc]
      · have hsp : ¬ strsep_span mem[s] delim = true := by
          rw [strsep_span_mem _ _ hdelim]
          rintro (h1 | h1)
          · exact hc h1
          · exact hd (by simpa using h1)
        rw [if_neg hsp, List.takeWhile_cons_of_pos (by simpa using hd)]
        have hz1 : 0 ∈ mem.drop (s + 1) := by
          rcases List.mem_cons.mp hz with h1 | h1
          · exact absurd h1.symm hc
          · exact h1
        rw [ih (s + 1) (by omega) hz1]
        simp only [List.length_cons, Nat.add_lt_add_iff_right]
        have e : s + 1 + ((c_str (mem.drop (s + 1))).takeWhile fun c => !delim.contains c).length
            = s + (((c_str (mem.drop (s + 1))).takeWhile fun c => !delim.contains c).length + 1) := by
          omega
        rw [e]

/-- C27: `strsep` with `*stringp` NULL returns NULL and changes nothing.
Otherwise, for a NUL-terminated string at `*stringp` and a delimiter string
`delim`, it returns the original `*stringp`; the token is the longest prefix
of the string with no character of `delim` (possibly empty). If a delimiter
follows the token, that character is overwritten with NUL, so that the
returned pointer now holds the token, and `*stringp` is the position just
after it; if the string ended before any delimiter, nothing is written and
`*stringp` is NULL. -/
theorem strsep_splits_off_the_first_token (mem : List Nat) (s : Nat) (delim : List Nat)
    (hterm : 0 ∈ mem.drop s) (hdelim : 0 ∉ delim) :
    strsep mem none delim = .ok (none, none, mem) ∧
    (((c_str (mem.drop s)).takeWhile fun c => !delim.contains c).length
        < (c_str (mem.drop s)).length →
      strsep mem (some s) delim
        = .ok (some s,
            some (s + ((c_str (mem.drop s)).takeWhile fun c => !delim.contains c).length + 1),
            mem.set (s + ((c_str (mem.drop s)).takeWhile fun c => !delim.contains c).length) 0) ∧
      mem.getD (s + ((c_str (mem.drop s)).takeWhile fun c => !delim.contains c).length) 0
        ∈ delim ∧
      c_str ((mem.set
          (s + ((c_str (mem.drop s)).takeWhile fun c => !delim.contains c).length) 0).drop s)
        = (c_str (mem.drop s)).takeWhile fun c => !delim.contains c) ∧
    (¬ ((c_str (mem.drop s)).takeWhile fun c => !delim.contains c).length
        < (c_str (mem.drop s)).length →
      strsep mem (some s) delim = .ok (some s, none, mem) ∧
      ((c_str (mem.drop s)).takeWhile fun c => !delim.contains c) = c_str (mem.drop s)) := by
  have hloop := strsep_loop_spec delim mem s hdelim (mem.length + 1 - s) s (Nat.le_refl _) hterm
  refine ⟨rfl, ?_, ?_⟩
  · intro h
    rw [if_pos h] at hloop
    refine ⟨hloop, ?_, ?_⟩
    · have := c_str_token_delim delim (mem.drop s) h
      simpa using this
    · rw [← List.set_drop]
      exact c_str_set_token delim (mem.drop s) h
  · intro h
    rw [if_neg h] at hloop
    refine ⟨hloop, ?_⟩
    refine (List.takeWhile_prefix _).eq_of_length ?_
    have := (List.takeWhile_prefix (fun c => !delim.contains c)
      (l := c_str (mem.drop s))).length_le
    omega

theorem strsep_splits_off_the_first_token_witness :
    (strsep strsep_sample (some 0) [61, 47] = .ok (some 0, some 4, strsep_sample.set 3 0) ∧
      strsep_sample.getD 3 0 ∈ [61, 47] ∧
      c_str ((strsep_sample.set 3 0).drop 0) = [110, 101, 116]) ∧
    (strsep strsep_sample (some 13) [61, 47] = .ok (some 13, none, strsep_sample) ∧
      [56] = c_str (strsep_sample.drop 13)) :=
  ⟨(strsep_splits_off_the_first_token strsep_sample 0 [61, 47] (by decide) (by decide)).2.1
      (by decide),
   (strsep_splits_off_the_first_token strsep_sample 13 [61, 47] (by decide) (by decide)).2.2
      (by decide)⟩


/-! ## Termination of the IPv4 search -/

/-- One iteration of the IPv4 search loop on `cycling_loc` for the address
0.0.0.5 with `low = 1` and `high = 0xFFFFFFFF`: `low + high` wraps to 0, row 0
starts above the address, `high = mid - 1` wraps to `0xFFFFFFFF`, and the
loop is where it was. -/
theorem cycling_step (mode : Nat) (out : ip2loc_entry) (fuel : Nat) :
    IP2Location_get_ipv4_loop 39 2 5 mode out (fuel + 1) cycling_loc 1 4294967295
      = IP2Location_get_ipv4_loop 39 2 5 mode out fuel cycling_loc 1 4294967295 := by
  rfl

theorem cycling_loop (mode : Nat) (out : ip2loc_entry) :
    ∀ fuel, IP2Location_get_ipv4_loop 39 2 5 mode out fuel cycling_loc 1 4294967295
      = .error Fault.out_of_fuel := by
  intro fuel
  induction fuel with
  | zero => rfl
  | succ fuel ih => rw [cycling_step, ih]

/-- C28 (the code at the failing input): `ip2loc_init` accepts the file that
holds `cycling_db` (57 bytes, plausible date) and installs its database. For
the address 0.0.0.5 the index table gives `low = 1` and `high = 0xFFFFFFFF`;
every iteration of `IP2Location_get_ipv4_record` computes `mid = 0` (the sum
`low + high` wraps), finds the address below the start of row 0 and sets
`high = mid - 1 = 0xFFFFFFFF` again: no number of iterations is enough for
the search, or for `ip2loc_get_ipv4_entry`, to return. -/
theorem ipv4_search_never_returns :
    ip2loc_init enabled_config (good_world cycling_db 2026) start_globals
      = .ok (true, { start_globals with ip2loc_handle := some cycling_loc, fopen_calls := 1 }) ∧
    (∀ fuel mode out,
      IP2Location_get_ipv4_record fuel cycling_loc mode
        { ip_ver := 4, ipv4 := 5, ipv6 := [] } out = .error Fault.out_of_fuel) ∧
    (∀ fuel out,
      ip2loc_get_ipv4_entry fuel { ip_ver := 0, ipv4 := 0, ipv6 := [] }
        { start_globals with ip2loc_handle := some cycling_loc, fopen_calls := 1 }
        (swap32 5) out = .error Fault.out_of_fuel) := by
  refine ⟨rfl, ?_, ?_⟩
  · intro fuel mode out
    exact cycling_loop mode out fuel
  · intro fuel out
    have h : IP2Location_get_ipv4_record fuel cycling_loc IP2LOC_FLAGS
        { ip_ver := 4, ipv4 := swap32 (swap32 5), ipv6 := [] } (memset_entry out)
          = .error Fault.out_of_fuel := cycling_loop _ _ fuel
    show (IP2Location_get_ipv4_record fuel cycling_loc IP2LOC_FLAGS
        { ip_ver := 4, ipv4 := swap32 (swap32 5), ipv6 := [] } (memset_entry out) >>= _) = _
    rw [h]
    rfl


/-! ## The string reader and record extraction -/

theorem peek_many_in (loc : IP2Location) : ∀ (n off : Nat), off + n ≤ loc.sh_mem.length →
    peek_many loc off n = .ok (bytes_from loc.sh_mem off n) := by
  intro n
  induction n with
  | zero => intro off _; rfl
  | succ n ih =>
    intro off h
    unfold peek_many
    rw [peek_in loc off (by omega), ih (off + 1) (by omega)]
    rfl

/-- A string read whose length byte and copied bytes are bytes of the file:
`min (n, max_sz mod 256)` bytes are copied, those after the length byte. -/
theorem read_str_in (loc : IP2Location) (q : Nat) (ret : List Nat) (max_sz : Nat)
    (hm : Mapped loc) (hL : loc.sh_mem.length < 2 ^ 32)
    (hq : q + min (byte_at loc.sh_mem q) (max_sz % 256) < loc.sh_mem.length) :
    IP2Location_read_str loc q ret max_sz
      = .ok (bytes_from loc.sh_mem (q + 1) (min (byte_at loc.sh_mem q) (max_sz % 256))
          ++ ret.drop (min (byte_at loc.sh_mem q) (max_sz % 256)), loc) := by
  obtain ⟨_, hmax, hsp⟩ := hm
  have hc : ¬ ((loc.sh_mem_ptr + q) % 2 ^ 64 ≥ loc.sh_mem_max) := by
    rw [Nat.mod_eq_of_lt (by omega)]; omega
  have i1 : (q + 1) % 2 ^ 32 = q + 1 := Nat.mod_eq_of_lt (by omega)
  unfold IP2Location_read_str
  rw [if_neg hc, i1]
  refine (bind_ok _ (peek_in loc q (by omega))).trans ?_
  refine (bind_ok _ (peek_many_in loc _ _ (by omega))).trans ?_
  rfl

/-- The cap of `IP2Location_read_str` is computed in `uint8_t`. In
`sample_db` the string at offset 62 has the length byte 2: with `max_sz = 3`
the two bytes "--" are copied; a size of 256 or 257, which no caller of the
static function passes, is cut to 0 or 1 by the cast. -/
theorem read_str_cap_wraps_at_256 :
    byte_at sample_loc.sh_mem 62 = 2 ∧
    IP2Location_read_str sample_loc 62 (List.replicate 256 7) 256
      = .ok (List.replicate 256 7, sample_loc) ∧
    IP2Location_read_str sample_loc 62 (List.replicate 257 7) 257
      = .ok (45 :: List.replicate 256 7, sample_loc) ∧
    IP2Location_read_str sample_loc 62 [7, 7, 7] 3 = .ok ([45, 45, 7], sample_loc) :=
  ⟨rfl, rfl, rfl, rfl⟩

theorem table_at_ok (table : List Nat) (t : Nat) (h : t < table.length) :
    table_at table t = .ok (table.getD t 0) := by
  unfold table_at
  rw [List.get?_eq_get h]
  simp [List.getD_eq_getElem?_getD, List.getElem?_eq_getElem h]

theorem table_at_eq (table : List Nat) (t pos : Nat) (h : table_at table t = .ok pos) :
    table.getD t 0 = pos := by
  unfold table_at at h
  cases hg : table.get? t with
  | none => rw [hg] at h; cases h
  | some v =>
    rw [hg] at h
    cases h
    rw [List.get?_eq_getElem?] at hg
    simp [List.getD_eq_getElem?_getD, hg]

theorem bind_eq_ok {ε α β : Type} {x : Except ε α} {f : α → Except ε β} {b : β}
    (h : (x >>= f) = .ok b) : ∃ a, x = .ok a ∧ f a = .ok b := by
  cases x with
  | error e => cases h
  | ok a => exact ⟨a, rfl, h⟩

/-- One block of `IP2Location_read_record` followed by the rest `jp` of the
function: if the whole returns, either the field was wanted and the rest ran
on what the block made of a read, or the field was not wanted and the rest
ran on the record and database as they were. -/
theorem record_block_inv {σ β : Type} (c : Prop) [Decidable c] (tab : Except Fault Nat)
    (read : Nat → Except Fault σ) (mk : σ → ip2loc_entry × IP2Location)
    (dflt : ip2loc_entry × IP2Location) (jp : ip2loc_entry × IP2Location → Except Fault β)
    (r : β)
    (h : (if c then
            tab >>= fun pos =>
              if pos ≠ 0 then read pos >>= fun d => pure (mk d) >>= fun y => jp y
              else pure dflt >>= fun y => jp y
          else pure dflt >>= fun y => jp y) = .ok r) :
    ∃ res, jp res = .ok r ∧
      ((res = dflt ∧ ¬ (c ∧ ∃ pos, tab = .ok pos ∧ pos ≠ 0)) ∨
       (c ∧ ∃ pos d, tab = .ok pos ∧ pos ≠ 0 ∧ read pos = .ok d ∧ res = mk d)) := by
  by_cases hc : c
  · rw [if_pos hc] at h
    obtain ⟨pos, hp, h⟩ := bind_eq_ok h
    by_cases hz : pos ≠ 0
    · rw [if_pos hz] at h
      obtain ⟨d, hd, h⟩ := bind_eq_ok h
      exact ⟨mk d, h, Or.inr ⟨hc, pos, d, hp, hz, hd, rfl⟩⟩
    · rw [if_neg hz] at h
      refine ⟨dflt, h, Or.inl ⟨rfl, ?_⟩⟩
      rintro ⟨_, pos1, hp1, hz1⟩
      rw [hp] at hp1
      cases hp1
      exact hz hz1
  · rw [if_neg hc] at h
    exact ⟨dflt, h, Or.inl ⟨rfl, fun c1 => hc c1.1⟩⟩

/-- The last block of `IP2Location_read_record`. -/
theorem record_block_last {σ : Type} (c : Prop) [Decidable c] (tab : Except Fault Nat)
    (read : Nat → Except Fault σ) (mk : σ → ip2loc_entry × IP2Location)
    (dflt res : ip2loc_entry × IP2Location)
    (h : (if c then
            tab >>= fun pos =>
              if pos ≠ 0 then read pos >>= fun d => pure (mk d)
              else pure dflt
          else pure dflt) = .ok res) :
    (res = dflt ∧ ¬ (c ∧ ∃ pos, tab = .ok pos ∧ pos ≠ 0)) ∨
    (c ∧ ∃ pos d, tab = .ok pos ∧ pos ≠ 0 ∧ read pos = .ok d ∧ res = mk d) := by
  by_cases hc : c
  · rw [if_pos hc] at h
    obtain ⟨pos, hp, h⟩ := bind_eq_ok h
    by_cases hz : pos ≠ 0
    · rw [if_pos hz] at h
      obtain ⟨d, hd, h⟩ := bind_eq_ok h
      cases h
      exact Or.inr ⟨hc, pos, d, hp, hz, hd, rfl⟩
    · rw [if_neg hz] at h
      cases h
      refine Or.inl ⟨rfl, ?_⟩
      rintro ⟨_, pos1, hp1, hz1⟩
      rw [hp] at hp1
      cases hp1
      exact hz hz1
  · rw [if_neg hc] at h
    cases h
    exact Or.inl ⟨rfl, fun c1 => hc c1.1⟩

theorem field_wanted_of_table (loc : IP2Location) (mode flag : Nat) (table : List Nat)
    (h : mode &&& flag ≠ 0 ∧ ∃ pos, table_at table loc.db_type = .ok pos ∧ pos ≠ 0) :
    field_wanted loc mode flag table := by
  obtain ⟨h1, pos, h2, h3⟩ := h
  have := table_at_eq _ _ _ h2
  exact ⟨h1, by rw [this]; exact h3⟩

theorem read_record_frame (loc : IP2Location) (rowaddr mode : Nat) (out out1 : ip2loc_entry)
    (loc1 : IP2Location)
    (h : IP2Location_read_record loc rowaddr mode out = .ok (out1, loc1)) :
    (¬ field_wanted loc mode FLG_COUNTRY_SHORT COUNTRY_POSITION →
      out1.country_short = out.country_short) ∧
    (¬ field_wanted loc mode FLG_COUNTRY_LONG COUNTRY_POSITION →
      out1.country_long = out.country_long) ∧
    (¬ field_wanted loc mode FLG_REGION REGION_POSITION → out1.region = out.region) ∧
    (¬ field_wanted loc mode FLG_CITY CITY_POSITION → out1.city = out.city) ∧
    (¬ field_wanted loc mode FLG_LATITUDE LATITUDE_POSITION → out1.latitude = out.latitude) ∧
    (¬ field_wanted loc mode FLG_LONGITUDE LONGITUDE_POSITION →
      out1.longitude = out.longitude) := by
  unfold IP2Location_read_record at h
  dsimp only at h
  obtain ⟨⟨o1, l1⟩, h, k1⟩ := record_block_inv _ _ _ _ _ _ _ h
  dsimp only at h
  obtain ⟨⟨o2, l2⟩, h, k2⟩ := record_block_inv _ _ _ _ _ _ _ h
  dsimp only at h
  obtain ⟨⟨o3, l3⟩, h, k3⟩ := record_block_inv _ _ _ _ _ _ _ h
  dsimp only at h
  obtain ⟨⟨o4, l4⟩, h, k4⟩ := record_block_inv _ _ _ _ _ _ _ h
  dsimp only at h
  obtain ⟨⟨o5, l5⟩, h, k5⟩ := record_block_inv _ _ _ _ _ _ _ h
  dsimp only at h
  have k6 := record_block_last _ _ _ _ _ _ h
  have e1 : (¬ field_wanted loc mode FLG_COUNTRY_SHORT COUNTRY_POSITION →
        o1.country_short = out.country_short) ∧
      o1.country_long = out.country_long ∧
      o1.region = out.region ∧
      o1.city = out.city ∧
      o1.latitude = out.latitude ∧
      o1.longitude = out.longitude := by
    rcases k1 with ⟨hp, _⟩ | ⟨hc, pos, d, hp, hz, _, hd⟩
    · cases hp
      exact ⟨fun _ => rfl, rfl, rfl, rfl, rfl, rfl⟩
    · cases hd
      exact ⟨fun hn => absurd (field_wanted_of_table _ _ _ _ ⟨hc, pos, hp, hz⟩) hn, rfl, rfl, rfl, rfl, rfl⟩
  have e2 : o2.country_short = o1.country_short ∧
      (¬ field_wanted loc mode FLG_COUNTRY_LONG COUNTRY_POSITION →
        o2.country_long = o1.country_long) ∧
      o2.region = o1.region ∧
      o2.city = o1.city ∧
      o2.latitude = o1.latitude ∧
      o2.longitude = o1.longitude := by
    rcases k2 with ⟨hp, _⟩ | ⟨hc, pos, d, hp, hz, _, hd⟩
    · cases hp
      exact ⟨rfl, fun _ => rfl, rfl, rfl, rfl, rfl⟩
    · cases hd
      exact ⟨rfl, fun hn => absurd (field_wanted_of_table _ _ _ _ ⟨hc, pos, hp, hz⟩) hn, rfl, rfl, rfl, rfl⟩
  have e3 : o3.country_short = o2.country_short ∧
      o3.country_long = o2.country_long ∧
      (¬ field_wanted loc mode FLG_REGION REGION_POSITION →
        o3.region = o2.region) ∧
      o3.city = o2.city ∧
      o3.latitude = o2.latitude ∧
      o3.longitude = o2.longitude := by
    rcases k3 with ⟨hp, _⟩ | ⟨hc, pos, d, hp, hz, _, hd⟩
    · cases hp
      exact ⟨rfl, rfl, fun _ => rfl, rfl, rfl, rfl⟩
    · cases hd
      exact ⟨rfl, rfl, fun hn => absurd (field_wanted_of_table _ _ _ _ ⟨hc, pos, hp, hz⟩) hn, rfl, rfl, rfl⟩
  have e4 : o4.country_short = o3.country_short ∧
      o4.country_long = o3.country_long ∧
      o4.region = o3.region ∧
      (¬ field_wanted loc mode FLG_CITY CITY_POSITION →
        o4.city = o3.city) ∧
      o4.latitude = o3.latitude ∧
      o4.longitude = o3.longitude := by
    rcases k4 with ⟨hp, _⟩ | ⟨hc, pos, d, hp, hz, _, hd⟩
    · cases hp
      exact ⟨rfl, rfl, rfl, fun _ => rfl, rfl, rfl⟩
    · cases hd
      exact ⟨rfl, rfl, rfl, fun hn => absurd (field_wanted_of_table _ _ _ _ ⟨hc, pos, hp, hz⟩) hn, rfl, rfl⟩
  have e5 : o5.country_short = o4.country_short ∧
      o5.country_long = o4.country_long ∧
      o5.region = o4.region ∧
      o5.city = o4.city ∧
      (¬ field_wanted loc mode FLG_LATITUDE LATITUDE_POSITION →
        o5.latitude = o4.latitude) ∧
      o5.longitude = o4.longitude := by
    rcases k5 with ⟨hp, _⟩ | ⟨hc, pos, d, hp, hz, _, hd⟩
    · cases hp
      exact ⟨rfl, rfl, rfl, rfl, fun _ => rfl, rfl⟩
    · cases hd
      exact ⟨rfl, rfl, rfl, rfl, fun hn => absurd (field_wanted_of_table _ _ _ _ ⟨hc, pos, hp, hz⟩) hn, rfl⟩
  have e6 : out1.country_short = o5.country_short ∧
      out1.country_long = o5.country_long ∧
      out1.region = o5.region ∧
      out1.city = o5.city ∧
      out1.latitude = o5.latitude ∧
      (¬ field_wanted loc mode FLG_LONGITUDE LONGITUDE_POSITION →
        out1.longitude = o5.longitude) := by
    rcases k6 with ⟨hp, _⟩ | ⟨hc, pos, d, hp, hz, _, hd⟩
    · cases hp
      exact ⟨rfl, rfl, rfl, rfl, rfl, fun _ => rfl⟩
    · cases hd
      exact ⟨rfl, rfl, rfl, rfl, rfl, fun hn => absurd (field_wanted_of_table _ _ _ _ ⟨hc, pos, hp, hz⟩) hn⟩
  refine ⟨fun hn => ?_, fun hn => ?_, fun hn => ?_, fun hn => ?_, fun hn => ?_, fun hn => ?_⟩
  · rw [e6.1, e5.1, e4.1, e3.1, e2.1, e1.1 hn]
  · rw [e6.2.1, e5.2.1, e4.2.1, e3.2.1, e2.2.1 hn, e1.2.1]
  · rw [e6.2.2.1, e5.2.2.1, e4.2.2.1, e3.2.2.1 hn, e2.2.2.1, e1.2.2.1]
  · rw [e6.2.2.2.1, e5.2.2.2.1, e4.2.2.2.1 hn, e3.2.2.2.1, e2.2.2.2.1, e1.2.2.2.1]
  · rw [e6.2.2.2.2.1, e5.2.2.2.2.1 hn, e4.2.2.2.2.1, e3.2.2.2.2.1, e2.2.2.2.2.1, e1.2.2.2.2.1]
  · rw [e6.2.2.2.2.2 hn, e5.2.2.2.2.2, e4.2.2.2.2.2, e3.2.2.2.2.2, e2.2.2.2.2.2, e1.2.2.2.2.2]

theorem read_float_in (loc : IP2Location) (p : Nat) (hm : Mapped loc) (h1 : 1 ≤ p)
    (h2 : p + 3 ≤ loc.sh_mem.length) (hp : p + 3 ≤ 2 ^ 32) :
    IP2Location_read_float loc p = .ok (le32_at loc.sh_mem (p - 1), loc) := by
  obtain ⟨_, hmax, hsp⟩ := hm
  have hc : ¬ ((loc.sh_mem_ptr + p) % 2 ^ 64 ≥ loc.sh_mem_max) := by
    rw [Nat.mod_eq_of_lt (by omega)]; omega
  have i1 : (p + 2 ^ 32 - 1) % 2 ^ 32 = p - 1 := by omega
  unfold IP2Location_read_float
  rw [if_neg hc, i1]
  refine (bind_ok _ (peek_many_in loc 4 (p - 1) (by omega))).trans ?_
  have e1 : p - 1 + 1 + 1 = p - 1 + 2 := by omega
  have e2 : p - 1 + 1 + 1 + 1 = p - 1 + 3 := by omega
  simp only [bytes_from, le32_at, e1, e2]
  rfl

/-- A string field whose column and string lie inside the file is read as
the format lays it out. -/
theorem read_record_str_in (loc : IP2Location) (rowaddr pos delta : Nat) (buf : List Nat)
    (hm : Mapped loc) (hL : loc.sh_mem.length < 2 ^ 32)
    (hin : str_inside loc rowaddr pos delta buf.length) :
    read_record_str loc rowaddr pos delta buf
      = .ok (string_as_stated loc.sh_mem
          ((field_value loc.sh_mem rowaddr pos + delta) % 2 ^ 32) buf, loc) := by
  obtain ⟨⟨h1, h2⟩, h3⟩ := hin
  unfold read_record_str
  refine (bind_ok _ (read32_in loc _ hm h1 h2 (by omega))).trans ?_
  exact read_str_in loc _ buf buf.length hm hL h3

theorem field_wanted_iff (loc : IP2Location) (mode flag : Nat) (table : List Nat) :
    field_wanted loc mode flag table ↔ mode &&& flag ≠ 0 ∧ table.getD loc.db_type 0 ≠ 0 :=
  Iff.rfl

/-- One block of `IP2Location_read_record` followed by the rest `jp` of the
function, run forward. -/
theorem record_block_run {σ β : Type} (c : Prop) [Decidable c] (tab : Except Fault Nat)
    (pos0 : Nat) (read : Nat → Except Fault σ) (mk : σ → ip2loc_entry × IP2Location)
    (dflt : ip2loc_entry × IP2Location) (jp : ip2loc_entry × IP2Location → Except Fault β)
    (res : ip2loc_entry × IP2Location) (htab : tab = .ok pos0)
    (hyes : c → pos0 ≠ 0 → ∃ d, read pos0 = .ok d ∧ mk d = res)
    (hno : ¬ (c ∧ pos0 ≠ 0) → dflt = res) :
    (if c then
        tab >>= fun pos =>
          if pos ≠ 0 then read pos >>= fun d => pure (mk d) >>= fun y => jp y
          else pure dflt >>= fun y => jp y
      else pure dflt >>= fun y => jp y) = jp res := by
  subst htab
  by_cases hc : c
  · rw [if_pos hc]
    by_cases hz : pos0 ≠ 0
    · obtain ⟨d, hd, hr⟩ := hyes hc hz
      show (if pos0 ≠ 0 then read pos0 >>= fun d => pure (mk d) >>= fun y => jp y
        else pure dflt >>= fun y => jp y) = jp res
      rw [if_pos hz, hd, ← hr]
      rfl
    · show (if pos0 ≠ 0 then read pos0 >>= fun d => pure (mk d) >>= fun y => jp y
        else pure dflt >>= fun y => jp y) = jp res
      rw [if_neg hz, ← hno (fun c1 => hz c1.2)]
      rfl
  · rw [if_neg hc, ← hno (fun c1 => hc c1.1)]
    rfl

/-- The last block of `IP2Location_read_record`, run forward. -/
theorem record_block_run_last {σ : Type} (c : Prop) [Decidable c] (tab : Except Fault Nat)
    (pos0 : Nat) (read : Nat → Except Fault σ) (mk : σ → ip2loc_entry × IP2Location)
    (dflt res : ip2loc_entry × IP2Location) (htab : tab = .ok pos0)
    (hyes : c → pos0 ≠ 0 → ∃ d, read pos0 = .ok d ∧ mk d = res)
    (hno : ¬ (c ∧ pos0 ≠ 0) → dflt = res) :
    (if c then
        tab >>= fun pos =>
          if pos ≠ 0 then read pos >>= fun d => pure (mk d)
          else pure dflt
      else pure dflt) = .ok res := by
  subst htab
  by_cases hc : c
  · rw [if_pos hc]
    by_cases hz : pos0 ≠ 0
    · obtain ⟨d, hd, hr⟩ := hyes hc hz
      show (if pos0 ≠ 0 then read pos0 >>= fun d => pure (mk d) else pure dflt) = .ok res
      rw [if_pos hz, hd, ← hr]
      rfl
    · show (if pos0 ≠ 0 then read pos0 >>= fun d => pure (mk d) else pure dflt) = .ok res
      rw [if_neg hz, ← hno (fun c1 => hz c1.2)]
      rfl
  · rw [if_neg hc, ← hno (fun c1 => hc c1.1)]
    rfl

/-- With everything it reads inside the file, `IP2Location_read_record`
returns the record as the format description gives it and leaves the
database alone. -/
theorem read_record_total (loc : IP2Location) (rowaddr mode : Nat) (out : ip2loc_entry)
    (hm : Mapped loc) (hL : loc.sh_mem.length < 2 ^ 32) (ht : loc.db_type < 25)
    (hin : record_inside loc rowaddr mode out) :
    IP2Location_read_record loc rowaddr mode out
      = .ok (record_as_stated loc rowaddr mode out, loc) := by
  obtain ⟨i1, i2, i3, i4, i5, i6⟩ := hin
  unfold IP2Location_read_record
  dsimp only
  refine (record_block_run _ _ (COUNTRY_POSITION.getD loc.db_type 0) _ _ _ _
    ({ country_short :=
         if field_wanted loc mode FLG_COUNTRY_SHORT COUNTRY_POSITION then
           string_as_stated loc.sh_mem
             ((field_value loc.sh_mem rowaddr (COUNTRY_POSITION.getD loc.db_type 0) + 0)
               % 2 ^ 32)
             out.country_short
         else out.country_short,
       country_long := out.country_long,
       city := out.city,
       region := out.region,
       latitude := out.latitude,
       longitude := out.longitude }, loc)
    (table_at_ok _ _ ht) ?_ ?_).trans ?_
  · intro hc hz
    refine ⟨_, read_record_str_in loc rowaddr _ 0 out.country_short hm hL
      (i1 ((field_wanted_iff _ _ _ _).mpr ⟨hc, hz⟩)), ?_⟩
    rw [if_pos ((field_wanted_iff _ _ _ _).mpr ⟨hc, hz⟩)]
  · intro hn
    rw [if_neg (fun w => hn ((field_wanted_iff _ _ _ _).mp w))]
  dsimp only
  refine (record_block_run _ _ (COUNTRY_POSITION.getD loc.db_type 0) _ _ _ _
    ({ country_short :=
         if field_wanted loc mode FLG_COUNTRY_SHORT COUNTRY_POSITION then
           string_as_stated loc.sh_mem
             ((field_value loc.sh_mem rowaddr (COUNTRY_POSITION.getD loc.db_type 0) + 0)
               % 2 ^ 32)
             out.country_short
         else out.country_short,
       country_long :=
         if field_wanted loc mode FLG_COUNTRY_LONG COUNTRY_POSITION then
           string_as_stated loc.sh_mem
             ((field_value loc.sh_mem rowaddr (COUNTRY_POSITION.getD loc.db_type 0) + 3)
               % 2 ^ 32)
             out.country_long
         else out.country_long,
       city := out.city,
       region := out.region,
       latitude := out.latitude,
       longitude := out.longitude }, loc)
    (table_at_ok _ _ ht) ?_ ?_).trans ?_
  · intro hc hz
    refine ⟨_, read_record_str_in loc rowaddr _ 3 out.country_long hm hL
      (i2 ((field_wanted_iff _ _ _ _).mpr ⟨hc, hz⟩)), ?_⟩
    rw [if_pos ((field_wanted_iff _ _ _ _).mpr ⟨hc, hz⟩)]
  · intro hn
    rw [if_neg (fun w => hn ((field_wanted_iff _ _ _ _).mp w))]
  dsimp only
  refine (record_block_run _ _ (REGION_POSITION.getD loc.db_type 0) _ _ _ _
    ({ country_short :=
         if field_wanted loc mode FLG_COUNTRY_SHORT COUNTRY_POSITION then
           string_as_stated loc.sh_mem
             ((field_value loc.sh_mem rowaddr (COUNTRY_POSITION.getD loc.db_type 0) + 0)
               % 2 ^ 32)
             out.country_short
         else out.country_short,
       country_long :=
         if field_wanted loc mode FLG_COUNTRY_LONG COUNTRY_POSITION then
           string_as_stated loc.sh_mem
             ((field_value loc.sh_mem rowaddr (COUNTRY_POSITION.getD loc.db_type 0) + 3)
               % 2 ^ 32)
             out.country_long
         else out.country_long,
       city := out.city,
       region :=
         if field_wanted loc mode FLG_REGION REGION_POSITION then
           string_as_stated loc.sh_mem
             ((field_value loc.sh_mem rowaddr (REGION_POSITION.getD loc.db_type 0) + 0)
               % 2 ^ 32)
             out.region
         else out.region,
       latitude := out.latitude,
       longitude := out.longitude }, loc)
    (table_at_ok _ _ ht) ?_ ?_).trans ?_
  · intro hc hz
    refine ⟨_, read_record_str_in loc rowaddr _ 0 out.region hm hL
      (i3 ((field_wanted_iff _ _ _ _).mpr ⟨hc, hz⟩)), ?_⟩
    rw [if_pos ((field_wanted_iff _ _ _ _).mpr ⟨hc, hz⟩)]
  · intro hn
    rw [if_neg (fun w => hn ((field_wanted_iff _ _ _ _).mp w))]
  dsimp only
  refine (record_block_run _ _ (CITY_POSITION.getD loc.db_type 0) _ _ _ _
    ({ country_short :=
         if field_wanted loc mode FLG_COUNTRY_SHORT COUNTRY_POSITION then
           string_as_stated loc.sh_mem
             ((field_value loc.sh_mem rowaddr (COUNTRY_POSITION.getD loc.db_type 0) + 0)
               % 2 ^ 32)
             out.country_short
         else out.country_short,
       country_long :=
         if field_wanted loc mode FLG_COUNTRY_LONG COUNTRY_POSITION then
           string_as_stated loc.sh_mem
             ((field_value loc.sh_mem rowaddr (COUNTRY_POSITION.getD loc.db_type 0) + 3)
               % 2 ^ 32)
             out.country_long
         else out.country_long,
       city :=
         if field_wanted loc mode FLG_CITY CITY_POSITION then
           string_as_stated loc.sh_mem
             ((field_value loc.sh_mem rowaddr (CITY_POSITION.getD loc.db_type 0) + 0)
               % 2 ^ 32)
             out.city
         else out.city,
       region :=
         if field_wanted loc mode FLG_REGION REGION_POSITION then
           string_as_stated loc.sh_mem
             ((field_value loc.sh_mem rowaddr (REGION_POSITION.getD loc.db_type 0) + 0)
               % 2 ^ 32)
             out.region
         else out.region,
       latitude := out.latitude,
       longitude := out.longitude }, loc)
    (table_at_ok _ _ ht) ?_ ?_).trans ?_
  · intro hc hz
    refine ⟨_, read_record_str_in loc rowaddr _ 0 out.city hm hL
      (i4 ((field_wanted_iff _ _ _ _).mpr ⟨hc, hz⟩)), ?_⟩
    rw [if_pos ((field_wanted_iff _ _ _ _).mpr ⟨hc, hz⟩)]
  · intro hn
    rw [if_neg (fun w => hn ((field_wanted_iff _ _ _ _).mp w))]
  dsimp only
  refine (record_block_run _ _ (LATITUDE_POSITION.getD loc.db_type 0) _ _ _ _
    ({ country_short :=
         if field_wanted loc mode FLG_COUNTRY_SHORT COUNTRY_POSITION then
           string_as_stated loc.sh_mem
             ((field_value loc.sh_mem rowaddr (COUNTRY_POSITION.getD loc.db_type 0) + 0)
               % 2 ^ 32)
             out.country_short
         else out.country_short,
       country_long :=
         if field_wanted loc mode FLG_COUNTRY_LONG COUNTRY_POSITION then
           string_as_stated loc.sh_mem
             ((field_value loc.sh_mem rowaddr (COUNTRY_POSITION.getD loc.db_type 0) + 3)
               % 2 ^ 32)
             out.country_long
         else out.country_long,
       city :=
         if field_wanted loc mode FLG_CITY CITY_POSITION then
           string_as_stated loc.sh_mem
             ((field_value loc.sh_mem rowaddr (CITY_POSITION.getD loc.db_type 0) + 0)
               % 2 ^ 32)
             out.city
         else out.city,
       region :=
         if field_wanted loc mode FLG_REGION REGION_POSITION then
           string_as_stated loc.sh_mem
             ((field_value loc.sh_mem rowaddr (REGION_POSITION.getD loc.db_type 0) + 0)
               % 2 ^ 32)
             out.region
         else out.region,
       latitude :=
         if field_wanted loc mode FLG_LATITUDE LATITUDE_POSITION then
           field_value loc.sh_mem rowaddr (LATITUDE_POSITION.getD loc.db_type 0)
         else out.latitude,
       longitude := out.longitude }, loc)
    (table_at_ok _ _ ht) ?_ ?_).trans ?_
  · intro hc hz
    refine ⟨_, read_float_in loc _ hm (i5 ((field_wanted_iff _ _ _ _).mpr ⟨hc, hz⟩)).1
      (i5 ((field_wanted_iff _ _ _ _).mpr ⟨hc, hz⟩)).2
      (by have := (i5 ((field_wanted_iff _ _ _ _).mpr ⟨hc, hz⟩)).2; omega), ?_⟩
    rw [if_pos ((field_wanted_iff _ _ _ _).mpr ⟨hc, hz⟩)]
    rfl
  · intro hn
    rw [if_neg (fun w => hn ((field_wanted_iff _ _ _ _).mp w))]
  dsimp only
  refine record_block_run_last _ _ (LONGITUDE_POSITION.getD loc.db_type 0) _ _ _
    ({ country_short :=
         if field_wanted loc mode FLG_COUNTRY_SHORT COUNTRY_POSITION then
           string_as_stated loc.sh_mem
             ((field_value loc.sh_mem rowaddr (COUNTRY_POSITION.getD loc.db_type 0) + 0)
               % 2 ^ 32)
             out.country_short
         else out.country_short,
       country_long :=
         if field_wanted loc mode FLG_COUNTRY_LONG COUNTRY_POSITION then
           string_as_stated loc.sh_mem
             ((field_value loc.sh_mem rowaddr (COUNTRY_POSITION.getD loc.db_type 0) + 3)
               % 2 ^ 32)
             out.country_long
         else out.country_long,
       city :=
         if field_wanted loc mode FLG_CITY CITY_POSITION then
           string_as_stated loc.sh_mem
             ((field_value loc.sh_mem rowaddr (CITY_POSITION.getD loc.db_type 0) + 0)
               % 2 ^ 32)
             out.city
         else out.city,
       region :=
         if field_wanted loc mode FLG_REGION REGION_POSITION then
           string_as_stated loc.sh_mem
             ((field_value loc.sh_mem rowaddr (REGION_POSITION.getD loc.db_type 0) + 0)
               % 2 ^ 32)
             out.region
         else out.region,
       latitude :=
         if field_wanted loc mode FLG_LATITUDE LATITUDE_POSITION then
           field_value loc.sh_mem rowaddr (LATITUDE_POSITION.getD loc.db_type 0)
         else out.latitude,
       longitude :=
         if field_wanted loc mode FLG_LONGITUDE LONGITUDE_POSITION then
           field_value loc.sh_mem rowaddr (LONGITUDE_POSITION.getD loc.db_type 0)
         else out.longitude }, loc)
    (table_at_ok _ _ ht) ?_ ?_
  · intro hc hz
    refine ⟨_, read_float_in loc _ hm (i6 ((field_wanted_iff _ _ _ _).mpr ⟨hc, hz⟩)).1
      (i6 ((field_wanted_iff _ _ _ _).mpr ⟨hc, hz⟩)).2
      (by have := (i6 ((field_wanted_iff _ _ _ _).mpr ⟨hc, hz⟩)).2; omega), ?_⟩
    rw [if_pos ((field_wanted_iff _ _ _ _).mpr ⟨hc, hz⟩)]
    rfl
  · intro hn
    rw [if_neg (fun w => hn ((field_wanted_iff _ _ _ _).mp w))]

/-- C30: whenever `IP2Location_read_record` returns, a field of the output
record whose flag is not set in `mode`, or whose position table entry for
`db_type` is zero, is as it was before the call. For a mapped file of less
than 4 GiB, a type code below 25 and a row for which everything read for the
wanted fields lies inside the file, the call returns the record in which
every wanted string field holds the length-prefixed string found at the
offset stored in the 4 bytes at `rowaddr + 4 * (column - 1)` (at that offset
plus 3 for the long country name), every wanted coordinate the 32 bits of its
column, and every other field its old content; the database is unchanged. -/
theorem record_extraction_writes_wanted_fields (loc : IP2Location) (rowaddr mode : Nat)
    (out : ip2loc_entry) :
    (∀ out1 loc1, IP2Location_read_record loc rowaddr mode out = .ok (out1, loc1) →
      (¬ field_wanted loc mode FLG_COUNTRY_SHORT COUNTRY_POSITION →
        out1.country_short = out.country_short) ∧
      (¬ field_wanted loc mode FLG_COUNTRY_LONG COUNTRY_POSITION →
        out1.country_long = out.country_long) ∧
      (¬ field_wanted loc mode FLG_REGION REGION_POSITION → out1.region = out.region) ∧
      (¬ field_wanted loc mode FLG_CITY CITY_POSITION → out1.city = out.city) ∧
      (¬ field_wanted loc mode FLG_LATITUDE LATITUDE_POSITION →
        out1.latitude = out.latitude) ∧
      (¬ field_wanted loc mode FLG_LONGITUDE LONGITUDE_POSITION →
        out1.longitude = out.longitude)) ∧
    (Mapped loc → loc.sh_mem.length < 2 ^ 32 → loc.db_type < 25 →
      record_inside loc rowaddr mode out →
      IP2Location_read_record loc rowaddr mode out
        = .ok (record_as_stated loc rowaddr mode out, loc)) ∧
    (field_wanted loc mode FLG_COUNTRY_SHORT COUNTRY_POSITION →
      (record_as_stated loc rowaddr mode out).country_short
        = string_as_stated loc.sh_mem
            (le32_at loc.sh_mem
              ((rowaddr + 4 * (COUNTRY_POSITION.getD loc.db_type 0 - 1)) % 2 ^ 32 - 1) % 2 ^ 32)
            out.country_short) ∧
    (field_wanted loc mode FLG_COUNTRY_LONG COUNTRY_POSITION →
      (record_as_stated loc rowaddr mode out).country_long
        = string_as_stated loc.sh_mem
            ((le32_at loc.sh_mem
              ((rowaddr + 4 * (COUNTRY_POSITION.getD loc.db_type 0 - 1)) % 2 ^ 32 - 1) + 3)
              % 2 ^ 32)
            out.country_long) ∧
    (field_wanted loc mode FLG_REGION REGION_POSITION →
      (record_as_stated loc rowaddr mode out).region
        = string_as_stated loc.sh_mem
            (le32_at loc.sh_mem
              ((rowaddr + 4 * (REGION_POSITION.getD loc.db_type 0 - 1)) % 2 ^ 32 - 1) % 2 ^ 32)
            out.region) ∧
    (field_wanted loc mode FLG_CITY CITY_POSITION →
      (record_as_stated loc rowaddr mode out).city
        = string_as_stated loc.sh_mem
            (le32_at loc.sh_mem
              ((rowaddr + 4 * (CITY_POSITION.getD loc.db_type 0 - 1)) % 2 ^ 32 - 1) % 2 ^ 32)
            out.city) := by
  refine ⟨fun out1 loc1 h => read_record_frame loc rowaddr mode out out1 loc1 h,
    fun hm hL ht hin => read_record_total loc rowaddr mode out hm hL ht hin, ?_, ?_, ?_, ?_⟩
  · intro w
    show (if _ then _ else _) = _
    rw [if_pos w]
    rfl
  · intro w
    show (if _ then _ else _) = _
    rw [if_pos w]
    rfl
  · intro w
    show (if _ then _ else _) = _
    rw [if_pos w]
    rfl
  · intro w
    show (if _ then _ else _) = _
    rw [if_pos w]
    rfl

theorem record_extraction_writes_wanted_fields_witness :
    IP2Location_read_record sample_loc5 31 111 marked_entry
      = .ok ({ country_short := [78, 79, 1],
               country_long := [78, 111, 114, 119, 97, 121, 2, 2],
               city := [79, 115, 108, 111, 3, 3, 3, 3],
               region := [79, 115, 116, 4, 4, 4, 4, 4],
               latitude := 1114374144, longitude := 1093140480 }, sample_loc5) ∧
    ({ marked_entry with country_short := [78, 79, 1] } : ip2loc_entry).city
      = marked_entry.city :=
  ⟨(record_extraction_writes_wanted_fields sample_loc5 31 111 marked_entry).2.1
      (by decide) (by decide) (by decide) (by decide),
   ((record_extraction_writes_wanted_fields sample_loc5 31 1 marked_entry).1
      { marked_entry with country_short := [78, 79, 1] } sample_loc5 rfl).2.2.2.1
      (by decide)⟩


/-! ## Plausibility of an IPv6 prefix -/

/-- C33 (the code at the failing input): the line `2a06:5280::/129 ; SBL1`
has a prefix longer than an IPv6 address; `DNSBL_parse_DROPv6` tests only
`bits < 8` and appends an entry for it, with `bits = 129` and a mask of all
ones. `DNSBL_parse_DROP` drops the IPv4 line `24.233.0.0/33 ; SBL1` because of
its test `bits > 32`. The line `2a06:5280::/7 ; SBL1` is dropped. -/
theorem wide_ipv6_prefix_is_kept :
    (∃ e, DNSBL_parse_DROPv6 45 (some junk_info) [] wide_prefix_line6 = .ok [e] ∧
      e.bits = 129 ∧ e.family = AF_INET6 ∧ e.type = DNSBL_type.DNSBL_DROPv6 ∧
      e.ip6_mask = List.replicate 16 255 ∧ e.SBL_ref = ['1']) ∧
    (sscanf_net_bits scanset_DROPv6 45 wide_prefix_line6).map (fun scan => scan.bits)
      = .ok 129 ∧
    DNSBL_parse_DROP 45 (some junk_info) []
      ['2', '4', '.', '2', '3', '3', '.', '0', '.', '0', '/', '3', '3', ' ', ';', ' ',
       'S', 'B', 'L', '1'] = .ok [] ∧
    DNSBL_parse_DROPv6 45 (some junk_info) [sample_entry] narrow_prefix_line6
      = .ok [sample_entry] :=
  ⟨⟨_, rfl, rfl, rfl, rfl, rfl, rfl⟩, rfl, rfl, rfl⟩

/-! ## Which file the refresh looks at -/

/-- C34 (the code at the failing input): `fname` (`d4`) does not exist, its
temporary copy (`~d4`) holds 100 bytes and was modified 100 seconds ago, and
files are kept 2 days. `DNSBL_update_file` calls `stat` on the temporary copy
only, finds it fresh and returns 0 without a download: the missing `fname` is
not looked at, and stays missing. -/
theorem missing_file_is_not_refreshed :
    only_file ['~', 'd', '4'] 1793318310 ['d', '4'] = none ∧
    DNSBL_update_file idle_remote 2
        { files := only_file ['~', 'd', '4'] 1793318310, downloads := [] }
        (some ['d', '4']) (some ['~', 'd', '4']) (some ['u', '4']) 1793318410
        (1793318410 - 2 * 86400)
      = .ok (0, { files := only_file ['~', 'd', '4'] 1793318310, downloads := [] }) ∧
    (∃ d, DNSBL_update_files idle_remote (refresh_config 2) 1793318410
        { files := fun p =>
            if p = ['~', 'd', '4'] ∨ p = ['~', 'd', '6'] then
              some { st_size := 100, st_mtime := 1793318310 }
            else none,
          downloads := [] } false = .ok (0, d) ∧
      d.downloads = [] ∧ d.files ['d', '4'] = none ∧ d.files ['d', '6'] = none) :=
  ⟨rfl, rfl, ⟨_, rfl, rfl, rfl, rfl⟩⟩

/-! ## Indexing the position tables -/

/-- C36 (the code at the failing input): a header can hold the type code 25.
`ip2loc_init` accepts the file that holds `sample_db` with that type code and
installs its database; the lookup of 1.2.3.4 finds row 1 and
`IP2Location_read_record` evaluates `COUNTRY_POSITION[25]`, one entry beyond
the table. Each of the five tables has the entries 0..24 and no entry from
25 on. -/
theorem type_code_indexes_past_the_tables :
    (∃ g1 loc,
      ip2loc_init enabled_config (good_world type25_db 2026) start_globals = .ok (true, g1) ∧
      g1.ip2loc_handle = some loc ∧ loc.db_type = 25 ∧ g1.ip2loc_bad = false ∧
      ip2loc_get_ipv4_entry 4 { ip_ver := 0, ipv4 := 0, ipv6 := [] } g1 (swap32 16909060)
        blank_entry = .error Fault.out_of_table) ∧
    (∀ rowaddr out, IP2Location_read_record { sample_loc with db_type := 25 } rowaddr
        FLG_COUNTRY_SHORT out = .error Fault.out_of_table) ∧
    (∀ t : Fin 25,
      (∃ v, table_at COUNTRY_POSITION t.val = .ok v) ∧
      (∃ v, table_at REGION_POSITION t.val = .ok v) ∧
      (∃ v, table_at CITY_POSITION t.val = .ok v) ∧
      (∃ v, table_at LATITUDE_POSITION t.val = .ok v) ∧
      (∃ v, table_at LONGITUDE_POSITION t.val = .ok v)) ∧
    (∀ k : Nat,
      table_at COUNTRY_POSITION (25 + k) = .error Fault.out_of_table ∧
      table_at REGION_POSITION (25 + k) = .error Fault.out_of_table ∧
      table_at CITY_POSITION (25 + k) = .error Fault.out_of_table ∧
      table_at LATITUDE_POSITION (25 + k) = .error Fault.out_of_table ∧
      table_at LONGITUDE_POSITION (25 + k) = .error Fault.out_of_table) := by
  refine ⟨⟨_, _, rfl, rfl, rfl, rfl, rfl⟩, fun _ _ => rfl, ?_, ?_⟩
  · intro t
    refine ⟨⟨_, table_at_ok _ _ t.isLt⟩, ⟨_, table_at_ok _ _ t.isLt⟩,
      ⟨_, table_at_ok _ _ t.isLt⟩, ⟨_, table_at_ok _ _ t.isLt⟩, ⟨_, table_at_ok _ _ t.isLt⟩⟩
  · intro k
    have h : ∀ table : List Nat, table.length = 25 →
        table_at table (25 + k) = .error Fault.out_of_table := by
      intro table hl
      unfold table_at
      rw [List.get?_eq_none.mpr (by omega)]
    exact ⟨h _ rfl, h _ rfl, h _ rfl, h _ rfl, h _ rfl⟩

/-! ## The order of the services comparator -/

/-- C37 (the code at the failing input): `services_compare_port_proto` gives
opposite signs for swapped arguments, for all entries. It is not transitive:
for three entries of port 80, for tcp, for tcp and udp, and for udp, it
reports the first equal to the second and the second equal to the third, but
the first above the third. -/
theorem services_order_is_not_transitive (a b : service_entry) :
    (services_compare_port_proto a b < 0 ↔ services_compare_port_proto b a > 0) ∧
    (services_compare_port_proto a b = 0 ↔ services_compare_port_proto b a = 0) ∧
    (services_compare_port_proto a b > 0 ↔ services_compare_port_proto b a < 0) ∧
    services_compare_port_proto tcp_service both_service = 0 ∧
    services_compare_port_proto both_service udp_service = 0 ∧
    services_compare_port_proto tcp_service udp_service = 1 ∧
    compare_proto PROTO_TCP (PROTO_TCP ||| PROTO_UDP) = 0 ∧
    compare_proto (PROTO_TCP ||| PROTO_UDP) PROTO_UDP = 0 ∧
    compare_proto PROTO_TCP PROTO_UDP = 1 := by
  have hand : a.proto &&& b.proto = b.proto &&& a.proto := Nat.land_comm _ _
  refine ⟨?_, ?_, ?_, rfl, rfl, rfl, rfl, rfl, rfl⟩ <;>
    (unfold services_compare_port_proto compare_proto
     dsimp only
     rw [hand]
     constructor <;> intro h <;> split_ifs at * <;> omega)

/-! ## What `compare_proto` returns -/

/-- C40 (the code at the failing input): the set with sctp alone shares no
protocol with the set of udp and tcp and holds fewer protocols (1 against
2), so the documentation of `compare_proto` states -1 for it; the function
returns +1, and -1 the other way round, where the documentation states +1:
the bit sets are compared as numbers, 0x10 against 0x06.
`compare_proto (PROTO_TCP, PROTO_UDP)` is +1. -/
theorem fewer_protocols_can_rank_higher :
    PROTO_SCTP &&& (PROTO_UDP ||| PROTO_TCP) = 0 ∧
    proto_count PROTO_SCTP = 1 ∧ proto_count (PROTO_UDP ||| PROTO_TCP) = 2 ∧
    compare_proto PROTO_SCTP (PROTO_UDP ||| PROTO_TCP) = 1 ∧
    compare_proto (PROTO_UDP ||| PROTO_TCP) PROTO_SCTP = -1 ∧
    compare_proto PROTO_TCP PROTO_UDP = 1 :=
  ⟨rfl, rfl, rfl, rfl, rfl, rfl⟩

/-- What `compare_proto` computes: for all protocol bit sets it returns 0
exactly when the sets share a protocol bit or are equal, -1 exactly when they
share none and `proto_a` is the smaller number, +1 exactly when they share
none and `proto_a` is the larger number; `compare_proto (PROTO_TCP,
PROTO_UDP)` is +1 because 0x04 is larger than 0x02. -/
theorem compare_proto_is_numeric (proto_a proto_b : Nat) :
    (compare_proto proto_a proto_b = 0 ↔ (proto_a &&& proto_b ≠ 0 ∨ proto_a = proto_b)) ∧
    (compare_proto proto_a proto_b = -1 ↔ (proto_a &&& proto_b = 0 ∧ proto_a < proto_b)) ∧
    (compare_proto proto_a proto_b = 1 ↔ (proto_a &&& proto_b = 0 ∧ proto_a > proto_b)) ∧
    compare_proto PROTO_TCP PROTO_UDP = 1 := by
  refine ⟨?_, ?_, ?_, rfl⟩ <;>
    (unfold compare_proto
     constructor
     · intro h
       split_ifs at h with h1 h2 h3 <;> omega
     · intro h
       split_ifs with h1 h2 h3 <;> first | rfl | omega)

/-! ## The verdict and the reference of a range check -/

/-- What `DNSBL_check_common` returns when `sbl_ref` is not NULL: TRUE with
the reference of a list member, or FALSE with `*sbl_ref` NULL. -/
theorem check_common_verdict (DNSBL_list : Option (List DNSBL_info)) (addr : DNSBL_addr)
    (ref0 : Option (List Char)) :
    (∃ s, DNSBL_check_common DNSBL_list addr (some ref0) = (true, some (some s))) ∨
    DNSBL_check_common DNSBL_list addr (some ref0) = (false, some none) := by
  unfold DNSBL_check_common
  cases DNSBL_list with
  | none => exact Or.inr rfl
  | some sl =>
    cases addr with
    | ip4 a =>
      cases h : smartlist_bsearch sl a DNSBL_compare_is_on_net4 with
      | none => right; simp only [h, Option.map]
      | some d => left; exact ⟨d.SBL_ref, by simp only [h, Option.map]⟩
    | ip6 a =>
      cases h : smartlist_bsearch sl a DNSBL_compare_is_on_net6 with
      | none => right; simp only [h, Option.map]
      | some d => left; exact ⟨d.SBL_ref, by simp only [h, Option.map]⟩

/-- C38 (the code at the failing input): for an address the classifier
reports as not global, `DNSBL_check_ipv4` and `DNSBL_check_ipv6` return FALSE
before `DNSBL_check_common` is reached, and `*sbl_ref` still holds what it
held before the call, for every list, address and former content.
`DNSBL_check_common` itself sets `*sbl_ref` to NULL first: it returns TRUE
exactly when `*sbl_ref` is not NULL on return, and so do the two functions for
an address reported as global. -/
theorem stale_reference_survives (DNSBL_list : Option (List DNSBL_info)) (ip4 : Nat)
    (ip6 : List Nat) (addr : DNSBL_addr) (ref : List Char) (ref0 : Option (List Char)) :
    DNSBL_check_ipv4 (fun _ => false) DNSBL_list ip4 (some (some ref))
      = (false, some (some ref)) ∧
    DNSBL_check_ipv6 (fun _ => false) DNSBL_list ip6 (some (some ref))
      = (false, some (some ref)) ∧
    ((DNSBL_check_common DNSBL_list addr (some ref0)).1 = true ↔
      ∃ s, (DNSBL_check_common DNSBL_list addr (some ref0)).2 = some (some s)) ∧
    ((DNSBL_check_common DNSBL_list addr (some ref0)).1 = false →
      (DNSBL_check_common DNSBL_list addr (some ref0)).2 = some none) ∧
    ((DNSBL_check_ipv4 (fun _ => true) DNSBL_list ip4 (some ref0)).1 = true ↔
      ∃ s, (DNSBL_check_ipv4 (fun _ => true) DNSBL_list ip4 (some ref0)).2 = some (some s)) ∧
    ((DNSBL_check_ipv6 (fun _ => true) DNSBL_list ip6 (some ref0)).1 = true ↔
      ∃ s, (DNSBL_check_ipv6 (fun _ => true) DNSBL_list ip6 (some ref0)).2 = some (some s)) := by
  have key : ∀ a : DNSBL_addr,
      ((DNSBL_check_common DNSBL_list a (some ref0)).1 = true ↔
        ∃ s, (DNSBL_check_common DNSBL_list a (some ref0)).2 = some (some s)) ∧
      ((DNSBL_check_common DNSBL_list a (some ref0)).1 = false →
        (DNSBL_check_common DNSBL_list a (some ref0)).2 = some none) := by
    intro a
    rcases check_common_verdict DNSBL_list a ref0 with ⟨s, h⟩ | h
    · rw [h]
      exact ⟨⟨fun _ => ⟨s, rfl⟩, fun _ => rfl⟩, fun c => (by cases c)⟩
    · rw [h]
      refine ⟨⟨fun c => (by cases c), ?_⟩, fun _ => rfl⟩
      rintro ⟨s, hs⟩
      cases hs
  exact ⟨rfl, rfl, (key addr).1, (key addr).2, (key (.ip4 ip4)).1, (key (.ip6 ip6)).1⟩

/-! ## Addresses covered by several ranges -/

/-- C32 (counterexample): in the list 10.0.0.0/8, 10.2.0.0/15, 10.2.1.0/24,
10.2.2.0/24, 10.2.3.0/24, which is in `DNSBL_compare_net` order, the address
10.3.0.1 is covered by the first two ranges. The binary search probes
10.2.1.0/24, finds the address above it and goes right, where no range
covers the address: `DNSBL_check_common` reports it as not listed. -/
theorem nested_ranges_hide_an_address :
    nested_ranges.Pairwise (fun x y => DNSBL_compare_net x y < 0) ∧
    (∀ e ∈ nested_ranges, DNSBL_entry_ok e) ∧
    DNSBL_covers4 (drop_entry 10 0 0 0 8 ['1']) (s_addr_of 10 3 0 1) ∧
    DNSBL_covers4 (drop_entry 10 2 0 0 15 ['2']) (s_addr_of 10 3 0 1) ∧
    DNSBL_compare_is_on_net4 (s_addr_of 10 3 0 1) (drop_entry 10 2 1 0 24 ['3']) = 1 ∧
    DNSBL_check_common (some nested_ranges) (.ip4 (s_addr_of 10 3 0 1)) (some none)
      = (false, some none) ∧
    DNSBL_parse_DROP 45 (some junk_info) []
      ['1', '0', '.', '2', '.', '0', '.', '0', '/', '1', '5', ' ', ';', ' ', 'S', 'B', 'L',
       '2'] = .ok [drop_entry 10 2 0 0 15 ['2']] :=
  ⟨by decide, by decide, by decide, by decide, rfl, rfl, rfl⟩

/-- C32 (amended): for every list of entries as the parsers build them and
every IPv4 address, if `DNSBL_check_common` reports the address as listed,
the returned reference is the `SBL_ref` of a range of the list that covers
it. An address covered by one or several ranges is reported, with the
reference of one of them, whenever the answers of the containment comparator
are ordered along the list: no entry right of an entry that lies above the
address lies below it or covers it, and the other way round. -/
theorem covered_address_is_reported_if_ordered (sl : List DNSBL_info) (ia : Nat)
    (ref0 : Option (List Char)) (hok : ∀ e ∈ sl, DNSBL_entry_ok e) :
    (∀ r, DNSBL_check_common (some sl) (.ip4 ia) (some ref0) = (true, r) →
      ∃ E ∈ sl, DNSBL_covers4 E ia ∧ r = some (some E.SBL_ref)) ∧
    ((sl.Pairwise fun x y =>
        (DNSBL_compare_is_on_net4 ia x < 0 → DNSBL_compare_is_on_net4 ia y < 0) ∧
        (DNSBL_compare_is_on_net4 ia y > 0 → DNSBL_compare_is_on_net4 ia x > 0)) →
      (∃ E ∈ sl, DNSBL_covers4 E ia) →
      ∃ E ∈ sl, DNSBL_covers4 E ia ∧
        DNSBL_check_common (some sl) (.ip4 ia) (some ref0) = (true, some (some E.SBL_ref))) := by
  have covers : ∀ d ∈ sl, DNSBL_compare_is_on_net4 ia d = 0 → DNSBL_covers4 d ia := by
    intro d hmem hc
    have hf : d.family = AF_INET := by
      by_contra hne
      simp [DNSBL_compare_is_on_net4, hne] at hc
    rw [compare_is_on_net4_eq ia d hf (hok d hmem)] at hc
    refine ⟨hf, ?_, ?_⟩
    · by_contra hlt
      rw [if_pos (by omega)] at hc
      norm_num at hc
    · by_contra hgt
      split at hc
      · norm_num at hc
      · rw [if_pos (by omega)] at hc
        norm_num at hc
  have sound : ∀ d, smartlist_bsearch sl ia DNSBL_compare_is_on_net4 = some d →
      d ∈ sl ∧ DNSBL_covers4 d ia ∧
      DNSBL_check_common (some sl) (.ip4 ia) (some ref0) = (true, some (some d.SBL_ref)) := by
    intro d hb
    obtain ⟨hmem, hc⟩ := bsearch_loop_sound sl ia DNSBL_compare_is_on_net4 d _ _ _ hb
    refine ⟨hmem, covers d hmem hc, ?_⟩
    simp only [DNSBL_check_common, hb, Option.map]
  constructor
  · intro r h
    cases hb : smartlist_bsearch sl ia DNSBL_compare_is_on_net4 with
    | none => simp [DNSBL_check_common, hb] at h
    | some d =>
      obtain ⟨h1, h2, h3⟩ := sound d hb
      rw [h3] at h
      cases h
      exact ⟨d, h1, h2, rfl⟩
  · rintro hord ⟨E, hE, hcov⟩
    obtain ⟨t, ht⟩ := List.mem_iff_get?.mp hE
    have htlt : t < sl.length := by
      rw [List.get?_eq_getElem?, List.getElem?_eq_some] at ht
      exact ht.1
    have h0 : DNSBL_compare_is_on_net4 ia E = 0 := by
      obtain ⟨hf, h1, h2⟩ := hcov
      rw [compare_is_on_net4_eq ia E hf (hok E hE), if_neg (by omega), if_neg (by omega)]
    obtain ⟨m, hm⟩ := bsearch_loop_complete sl ia DNSBL_compare_is_on_net4
      (fun i j x y hij hx hy => (pairwise_get? hord hij hx hy).1)
      (fun i j x y hij hx hy => (pairwise_get? hord hij hx hy).2)
      t E ht h0 sl.length 0 sl.length (Nat.zero_le _) htlt (Nat.le_refl _) (by omega)
    obtain ⟨h1, h2, h3⟩ := sound m hm
    exact ⟨m, h1, h2, h3⟩

theorem covered_address_is_reported_if_ordered_witness :
    ∃ E ∈ nested_ranges, DNSBL_covers4 E (s_addr_of 10 2 1 5) ∧
      DNSBL_check_common (some nested_ranges) (.ip4 (s_addr_of 10 2 1 5)) (some none)
        = (true, some (some E.SBL_ref)) :=
  (covered_address_is_reported_if_ordered nested_ranges (s_addr_of 10 2 1 5) none
    (by decide)).2 (by decide) ⟨drop_entry 10 0 0 0 8 ['1'], by decide, by decide⟩


/-! ## Unmapping -/

theorem mmap_forget_loop_none (map : Nat) : ∀ storage : List mmap_info,
    (∀ e ∈ storage, e.rval ≠ map) → mmap_forget_loop map storage = none := by
  intro storage
  induction storage with
  | nil => intro _; rfl
  | cons e rest ih =>
    intro h
    have h1 : ¬ map = e.rval := fun c => h e (List.mem_cons_self _ _) c.symm
    rw [mmap_forget_loop, if_neg h1, ih (fun x hx => h x (List.mem_cons_of_mem _ hx))]

/-- A pointer that no entry of `mmap_storage` holds as `rval` is refused:
`_munmap` returns -1 and leaves the state as it was. -/
theorem munmap_unknown_pointer (UnmapViewOfFile : Nat → Bool) (st : MmapState)
    (map length : Nat) (h : ∀ e ∈ st.mmap_storage, e.rval ≠ map) :
    _munmap UnmapViewOfFile st map length = (-1, st) := by
  unfold _munmap mmap_forget
  rw [mmap_forget_loop_none map _ h]
  rfl

/-- C39 (the code at the failing input): after one successful `_mmap` that
returned the pointer 65536, the first `_munmap` of that pointer returns 0 and
clears the `map` member of the entry, but not its `rval`. The second
`_munmap` of the same pointer finds the entry again through `rval` and, with
`debug` 0, returns 0 as well, whatever `UnmapViewOfFile` answers. The pointer
NULL, which `_mmap` never returned, matches the `rval` of an unused entry and
`_munmap` returns 0 for it too. -/
theorem second_munmap_succeeds (UnmapViewOfFile : Nat → Bool) :
    _mmap 1 2 3 mmap_world mmap_start 100 1 0
      = (65536,
         { debug := 0, dwAllocationGranularity := 65536,
           mmap_storage :=
             { map := 65536, rval := 65536 } :: List.replicate 9 { map := 0, rval := 0 } }) ∧
    _munmap UnmapViewOfFile
        { debug := 0, dwAllocationGranularity := 65536,
          mmap_storage :=
            { map := 65536, rval := 65536 } :: List.replicate 9 { map := 0, rval := 0 } }
        65536 100
      = (0,
         { debug := 0, dwAllocationGranularity := 65536,
           mmap_storage :=
             { map := 0, rval := 65536 } :: List.replicate 9 { map := 0, rval := 0 } }) ∧
    _munmap UnmapViewOfFile
        { debug := 0, dwAllocationGranularity := 65536,
          mmap_storage :=
            { map := 0, rval := 65536 } :: List.replicate 9 { map := 0, rval := 0 } }
        65536 100
      = (0,
         { debug := 0, dwAllocationGranularity := 65536,
           mmap_storage :=
             { map := 0, rval := 65536 } :: List.replicate 9 { map := 0, rval := 0 } }) ∧
    _munmap UnmapViewOfFile
        { debug := 0, dwAllocationGranularity := 65536,
          mmap_storage :=
            { map := 65536, rval := 65536 } :: List.replicate 9 { map := 0, rval := 0 } }
        0 100
      = (0,
         { debug := 0, dwAllocationGranularity := 65536,
           mmap_storage :=
             { map := 65536, rval := 65536 } :: List.replicate 9 { map := 0, rval := 0 } }) ∧
    _munmap UnmapViewOfFile
        { debug := 0, dwAllocationGranularity := 65536,
          mmap_storage :=
            { map := 65536, rval := 65536 } :: List.replicate 9 { map := 0, rval := 0 } }
        4096 100
      = (-1,
         { debug := 0, dwAllocationGranularity := 65536,
           mmap_storage :=
             { map := 65536, rval := 65536 } :: List.replicate 9 { map := 0, rval := 0 } }) :=
  ⟨rfl, rfl, rfl, rfl, rfl⟩


/-! ## A reported IPv4 match -/

theorem same_but_errors_refl (a : IP2Location) : same_but_errors a a := rfl

theorem same_but_errors_trans {a b c : IP2Location} (h1 : same_but_errors a b)
    (h2 : same_but_errors b c) : same_but_errors a c :=
  Eq.trans h1 h2

/-- A 32-bit read changes at most the error counter of the database. -/
theorem read32_same (loc loc1 : IP2Location) (p v : Nat)
    (h : IP2Location_read32 loc p = .ok (v, loc1)) : same_but_errors loc loc1 := by
  unfold IP2Location_read32 at h
  split at h
  · cases h
    rfl
  · obtain ⟨b1, _, h⟩ := bind_eq_ok h
    obtain ⟨b2, _, h⟩ := bind_eq_ok h
    obtain ⟨b3, _, h⟩ := bind_eq_ok h
    obtain ⟨b4, _, h⟩ := bind_eq_ok h
    cases h
    rfl

/-- Whenever the IPv4 search loop returns TRUE, it read the record from a row
whose start and whose next-row start, as the reader returned them, enclose
the address. -/
theorem ipv4_loop_true (baseaddr dbcolumn ipno mode : Nat) (out out1 : ip2loc_entry)
    (loc1 : IP2Location) :
    ∀ (fuel : Nat) (loc : IP2Location) (low high : Nat),
      IP2Location_get_ipv4_loop baseaddr dbcolumn ipno mode out fuel loc low high
        = .ok (true, out1, loc1) →
      ∃ (mid s e : Nat) (locA locB locC : IP2Location),
        same_but_errors loc locA ∧
        IP2Location_read32 locA ((baseaddr + mid * ((dbcolumn * 4) % 2 ^ 32)) % 2 ^ 32)
          = .ok (s, locB) ∧
        IP2Location_read32 locB ((baseaddr + (mid + 1) * ((dbcolumn * 4) % 2 ^ 32)) % 2 ^ 32)
          = .ok (e, locC) ∧
        s ≤ ipno ∧ ipno < e ∧
        IP2Location_read_record locC
          ((baseaddr + mid * ((dbcolumn * 4) % 2 ^ 32)) % 2 ^ 32) mode out = .ok (out1, loc1) := by
  intro fuel
  induction fuel with
  | zero =>
    intro loc low high h
    rw [IP2Location_get_ipv4_loop] at h
    cases h
  | succ fuel ih =>
    intro loc low high h
    rw [IP2Location_get_ipv4_loop] at h
    by_cases hle : low ≤ high
    · rw [if_pos hle] at h
      dsimp only at h
      obtain ⟨⟨s, locB⟩, hs, h⟩ := bind_eq_ok h
      dsimp only at h
      obtain ⟨⟨e, locC⟩, he, h⟩ := bind_eq_ok h
      dsimp only at h
      by_cases hc : ipno ≥ s ∧ ipno < e
      · rw [if_pos hc] at h
        obtain ⟨⟨o, l⟩, hr, h⟩ := bind_eq_ok h
        cases h
        exact ⟨_, s, e, loc, locB, locC, same_but_errors_refl loc, hs, he, hc.1, hc.2, hr⟩
      · rw [if_neg hc] at h
        have hsame : same_but_errors loc locC :=
          same_but_errors_trans (read32_same _ _ _ _ hs) (read32_same _ _ _ _ he)
        split at h
        · obtain ⟨mid, s1, e1, lA, lB, lC, k1, k2⟩ := ih _ _ _ h
          exact ⟨mid, s1, e1, lA, lB, lC, same_but_errors_trans hsame k1, k2⟩
        · obtain ⟨mid, s1, e1, lA, lB, lC, k1, k2⟩ := ih _ _ _ h
          exact ⟨mid, s1, e1, lA, lB, lC, same_but_errors_trans hsame k1, k2⟩
    · rw [if_neg hle] at h
      cases h

/-- C35: for every database content, every mode, iteration bound and address,
whenever `IP2Location_get_ipv4_record` returns TRUE, the record was read by
`IP2Location_read_record` from a row `mid`, at `ipv4_db_addr + mid * db_column
* 4`, whose start `s` and whose next-row start `e`, as `IP2Location_read32`
returned them, satisfy `s ≤ a' < e`, where `a'` is the queried address, and
0xFFFFFFFE when the query is 0xFFFFFFFF. The database the reads were made on
is the one given, but for its error counter. -/
theorem reported_ipv4_match_is_real (fuel : Nat) (loc : IP2Location) (mode : Nat)
    (parsed_ipv : ipv_t) (out out1 : ip2loc_entry) (loc1 : IP2Location)
    (h : IP2Location_get_ipv4_record fuel loc mode parsed_ipv out = .ok (true, out1, loc1)) :
    ∃ (mid s e : Nat) (locA locB locC : IP2Location),
      same_but_errors loc locA ∧
      IP2Location_read32 locA
          ((loc.ipv4_db_addr + mid * ((loc.db_column * 4) % 2 ^ 32)) % 2 ^ 32) = .ok (s, locB) ∧
      IP2Location_read32 locB
          ((loc.ipv4_db_addr + (mid + 1) * ((loc.db_column * 4) % 2 ^ 32)) % 2 ^ 32)
        = .ok (e, locC) ∧
      s ≤ (if parsed_ipv.ipv4 = 4294967295 then 4294967294 else parsed_ipv.ipv4) ∧
      (if parsed_ipv.ipv4 = 4294967295 then 4294967294 else parsed_ipv.ipv4) < e ∧
      IP2Location_read_record locC
          ((loc.ipv4_db_addr + mid * ((loc.db_column * 4) % 2 ^ 32)) % 2 ^ 32) mode out
        = .ok (out1, loc1) := by
  have hip : (if parsed_ipv.ipv4 = MAX_IPV4_RANGE then parsed_ipv.ipv4 - 1 else parsed_ipv.ipv4)
      = (if parsed_ipv.ipv4 = 4294967295 then 4294967294 else parsed_ipv.ipv4) := by
    unfold MAX_IPV4_RANGE
    split_ifs with h1
    · rw [h1]
    · rfl
  unfold IP2Location_get_ipv4_record at h
  dsimp only at h
  rw [hip] at h
  by_cases hidx : loc.ipv4_index_db_addr > 0
  · rw [if_pos hidx] at h
    obtain ⟨⟨low, l1⟩, h1, h⟩ := bind_eq_ok h
    dsimp only at h
    obtain ⟨⟨high, l2⟩, h2, h⟩ := bind_eq_ok h
    dsimp only at h
    obtain ⟨y, hy, h⟩ := bind_eq_ok h
    cases hy
    dsimp only at h
    obtain ⟨mid, s, e, lA, lB, lC, k1, k2⟩ := ipv4_loop_true _ _ _ _ _ _ _ _ _ _ _ h
    exact ⟨mid, s, e, lA, lB, lC,
      same_but_errors_trans
        (same_but_errors_trans (read32_same _ _ _ _ h1) (read32_same _ _ _ _ h2)) k1, k2⟩
  · rw [if_neg hidx] at h
    obtain ⟨y, hy, h⟩ := bind_eq_ok h
    cases hy
    dsimp only at h
    exact ipv4_loop_true _ _ _ _ _ _ _ _ _ _ _ h

theorem reported_ipv4_match_is_real_witness :
    ∃ (mid s e : Nat) (locA locB locC : IP2Location),
      same_but_errors sample_loc locA ∧
      IP2Location_read32 locA
          ((sample_loc.ipv4_db_addr + mid * ((sample_loc.db_column * 4) % 2 ^ 32)) % 2 ^ 32)
        = .ok (s, locB) ∧
      IP2Location_read32 locB
          ((sample_loc.ipv4_db_addr + (mid + 1) * ((sample_loc.db_column * 4) % 2 ^ 32))
            % 2 ^ 32) = .ok (e, locC) ∧
      s ≤ (if (16909060 : Nat) = 4294967295 then 4294967294 else 16909060) ∧
      (if (16909060 : Nat) = 4294967295 then 4294967294 else 16909060) < e ∧
      IP2Location_read_record locC
          ((sample_loc.ipv4_db_addr + mid * ((sample_loc.db_column * 4) % 2 ^ 32)) % 2 ^ 32)
          IP2LOC_FLAGS blank_entry
        = .ok ({ blank_entry with country_short := [85, 83, 0] }, sample_loc) :=
  reported_ipv4_match_is_real 4 sample_loc IP2LOC_FLAGS
    { ip_ver := 4, ipv4 := 16909060, ipv6 := [] } blank_entry
    { blank_entry with country_short := [85, 83, 0] } sample_loc rfl


/-! ## The IPv4 index table -/

/-- C31 (counterexample): `wide_bucket_db` is a mapped database whose three
IPv4 rows lie inside the file and have strictly increasing start addresses.
The address 0.0.1.5 (261) lies in row 1, and its bucket of the index table
holds the bounds 0 and 9, which enclose row 1. The search without index, the
loop over the rows 0..3, returns TRUE with the country "US". The indexed
search returns FALSE and leaves the record empty: it starts at row 4, beyond
the table, reads the start address 0 there and at every later row (bytes that
follow the table, then positions past the end of the file, counted as 6
errors), moves to the right each time and ends without a match. -/
theorem wide_bucket_misses_the_row :
    Mapped wide_bucket_loc ∧ ipv4_rows_inside wide_bucket_loc ∧
    ipv4_rows_increasing wide_bucket_loc ∧ wide_bucket_loc.ipv4_index_db_addr > 0 ∧
    ipv4_row_start wide_bucket_loc 1 ≤ 261 ∧ 261 < ipv4_row_start wide_bucket_loc 2 ∧
    le32_at wide_bucket_loc.sh_mem
      ((wide_bucket_loc.ipv4_index_db_addr + ((261 >>> 16) <<< 3)) % 2 ^ 32 - 1) = 0 ∧
    le32_at wide_bucket_loc.sh_mem
      ((wide_bucket_loc.ipv4_index_db_addr + ((261 >>> 16) <<< 3)) % 2 ^ 32 + 3) = 9 ∧
    IP2Location_get_ipv4_record 8 wide_bucket_loc IP2LOC_FLAGS
        { ip_ver := 4, ipv4 := 261, ipv6 := [] } blank_entry
      = .ok (false, blank_entry, { wide_bucket_loc with sh_mem_index_errors := 6 }) ∧
    IP2Location_get_ipv4_loop wide_bucket_loc.ipv4_db_addr wide_bucket_loc.db_column 261
        IP2LOC_FLAGS blank_entry 8 wide_bucket_loc 0 wide_bucket_loc.ipv4_db_count
      = .ok (true, { blank_entry with country_short := [85, 83, 0] }, wide_bucket_loc) := by
  refine ⟨by decide, by decide, ?_, by decide, by decide, by decide, rfl, rfl, rfl, rfl⟩
  intro j hj
  have h3 : j < 3 := hj
  interval_cases j <;> decide

/-- C31 (amended): when `ipv4_index_db_addr > 0` and the two 32-bit values of the
bucket, at `ipv4_index_db_addr + 8 * (a >> 16)` and at that position + 4, lie
inside the file, `IP2Location_get_ipv4_record` runs its loop with these two
values as `low` and `high`. In a mapped database whose IPv4 rows lie inside
the file and have strictly increasing start addresses, if the bucket bounds
are row numbers (`high ≤ ipv4_db_count`) that enclose the row `i` containing
the address, `low ≤ i ≤ high`, the result is the result of the search without
index, the loop over the rows 0..`ipv4_db_count`: TRUE with the record of row
`i`. `a` is the queried address, 0xFFFFFFFE for the query 0xFFFFFFFF. -/
theorem index_only_narrows (loc : IP2Location) (mode : Nat) (parsed_ipv : ipv_t)
    (out : ip2loc_entry) (a i fuel : Nat)
    (ha : a = if parsed_ipv.ipv4 = 4294967295 then 4294967294 else parsed_ipv.ipv4)
    (hm : Mapped loc) (hidx : loc.ipv4_index_db_addr > 0)
    (h1 : 1 ≤ (loc.ipv4_index_db_addr + ((a >>> 16) <<< 3)) % 2 ^ 32)
    (h2 : (loc.ipv4_index_db_addr + ((a >>> 16) <<< 3)) % 2 ^ 32 + 7 ≤ loc.sh_mem.length)
    (h3 : (loc.ipv4_index_db_addr + ((a >>> 16) <<< 3)) % 2 ^ 32 + 7 ≤ 2 ^ 32) :
    IP2Location_get_ipv4_record fuel loc mode parsed_ipv out
      = IP2Location_get_ipv4_loop loc.ipv4_db_addr loc.db_column a mode out fuel loc
          (le32_at loc.sh_mem ((loc.ipv4_index_db_addr + ((a >>> 16) <<< 3)) % 2 ^ 32 - 1))
          (le32_at loc.sh_mem ((loc.ipv4_index_db_addr + ((a >>> 16) <<< 3)) % 2 ^ 32 + 3)) ∧
    (ipv4_rows_inside loc → ipv4_rows_increasing loc → i < loc.ipv4_db_count →
      ipv4_row_start loc i ≤ a → a < ipv4_row_start loc (i + 1) →
      le32_at loc.sh_mem ((loc.ipv4_index_db_addr + ((a >>> 16) <<< 3)) % 2 ^ 32 - 1) ≤ i →
      i ≤ le32_at loc.sh_mem ((loc.ipv4_index_db_addr + ((a >>> 16) <<< 3)) % 2 ^ 32 + 3) →
      le32_at loc.sh_mem ((loc.ipv4_index_db_addr + ((a >>> 16) <<< 3)) % 2 ^ 32 + 3)
        ≤ loc.ipv4_db_count →
      loc.ipv4_db_count < fuel →
      IP2Location_get_ipv4_record fuel loc mode parsed_ipv out
        = IP2Location_get_ipv4_loop loc.ipv4_db_addr loc.db_column a mode out fuel loc 0
            loc.ipv4_db_count ∧
      IP2Location_get_ipv4_record fuel loc mode parsed_ipv out
        = found_at loc (loc.ipv4_db_addr + i * (loc.db_column * 4)) mode out) := by
  have hip : (if parsed_ipv.ipv4 = MAX_IPV4_RANGE then parsed_ipv.ipv4 - 1 else parsed_ipv.ipv4)
      = a := by
    rw [ha]
    unfold MAX_IPV4_RANGE
    split_ifs with c
    · rw [c]
    · rfl
  have hrec : IP2Location_get_ipv4_record fuel loc mode parsed_ipv out
      = IP2Location_get_ipv4_loop loc.ipv4_db_addr loc.db_column a mode out fuel loc
          (le32_at loc.sh_mem ((loc.ipv4_index_db_addr + ((a >>> 16) <<< 3)) % 2 ^ 32 - 1))
          (le32_at loc.sh_mem ((loc.ipv4_index_db_addr + ((a >>> 16) <<< 3)) % 2 ^ 32 + 3)) := by
    have r1 := read32_in loc ((loc.ipv4_index_db_addr + ((a >>> 16) <<< 3)) % 2 ^ 32) hm h1
      (by omega) (by omega)
    have r2 := read32_in loc ((loc.ipv4_index_db_addr + ((a >>> 16) <<< 3)) % 2 ^ 32 + 4) hm
      (by omega) (by omega) (by omega)
    have e4 : ((loc.ipv4_index_db_addr + ((a >>> 16) <<< 3)) % 2 ^ 32 + 4) % 2 ^ 32
        = (loc.ipv4_index_db_addr + ((a >>> 16) <<< 3)) % 2 ^ 32 + 4 :=
      Nat.mod_eq_of_lt (by omega)
    have e3 : (loc.ipv4_index_db_addr + ((a >>> 16) <<< 3)) % 2 ^ 32 + 4 - 1
        = (loc.ipv4_index_db_addr + ((a >>> 16) <<< 3)) % 2 ^ 32 + 3 := by omega
    rw [e3] at r2
    unfold IP2Location_get_ipv4_record
    dsimp only
    rw [hip, if_pos hidx, e4]
    refine (bind_ok _ r1).trans ?_
    dsimp only
    refine (bind_ok _ r2).trans ?_
    rfl
  refine ⟨hrec, ?_⟩
  intro hin hinc hi hlo hhi hl hh hc hf
  have f1 := ipv4_loop_finds loc mode a out i hm hin hinc hi hlo hhi fuel _ _ hl hh hc
    (by omega)
  have f2 := ipv4_loop_finds loc mode a out i hm hin hinc hi hlo hhi fuel 0
    loc.ipv4_db_count (Nat.zero_le _) (Nat.le_of_lt hi) (Nat.le_refl _) (by omega)
  exact ⟨by rw [hrec, f1, f2], by rw [hrec, f1]⟩

theorem index_only_narrows_witness :
    IP2Location_get_ipv4_record 4 indexed_loc IP2LOC_FLAGS
        { ip_ver := 4, ipv4 := 261, ipv6 := [] } blank_entry
      = IP2Location_get_ipv4_loop indexed_loc.ipv4_db_addr indexed_loc.db_column 261
          IP2LOC_FLAGS blank_entry 4 indexed_loc 0 indexed_loc.ipv4_db_count ∧
    IP2Location_get_ipv4_record 4 indexed_loc IP2LOC_FLAGS
        { ip_ver := 4, ipv4 := 261, ipv6 := [] } blank_entry
      = found_at indexed_loc (indexed_loc.ipv4_db_addr + 1 * (indexed_loc.db_column * 4))
          IP2LOC_FLAGS blank_entry :=
  (index_only_narrows indexed_loc IP2LOC_FLAGS { ip_ver := 4, ipv4 := 261, ipv6 := [] }
    blank_entry 261 1 4 (by decide) (by decide) (by decide) (by decide) (by decide)
    (by decide)).2 (by decide)
    (by
      intro j hj
      have h3 : j < 3 := hj
      interval_cases j <;> decide)
    (by decide) (by decide) (by decide) (by decide) (by decide) (by decide) (by decide)

end WsockTrace
